import Mathlib

/-!
# Triflight tricopter mixer (`src/main/flight/mixer_tricopter.c`)

A shallow embedding of the tail-servo mixer and a verification of its
specification.

Conventions of the embedding:

* C integers are mathematical integers (`Int`).  A value stored into a
  narrower variable is wrapped with `toInt16` / `toUint16` / `toUint32`.
  Arithmetic carried out in `int` (all operands are promoted to 32-bit `int`)
  goes through `i32`, which is `none` when the exact result is not
  representable: signed overflow is undefined behaviour, and so is a division
  by zero (`divI32`).  A function of the embedding returns `none` when the C
  function runs into undefined behaviour.
* `float` values are rationals (`ℚ`); a conversion to an integer type
  truncates toward zero and is undefined outside the target range.  In
  `delayAngleValue`, `servoStepValue`, `trimmedServoVal` and
  `tailTuneModeThrustTorque`, where the rounding of a `float` operation
  decides the integer that is stored, every operation and every conversion of
  an integer to `float` rounds its exact result to the nearest binary32 value
  (`f32`); the other `float` expressions are evaluated exactly.  A `float`
  division by zero leaves the rationals (infinity or NaN): the embedding does
  not follow such a computation and returns `none` (`fdiv`).  Library functions
  (`atanf`, ...) are parameters.
* The module-level variables read by a function are passed as arguments with
  the name they have in the source.
-/

namespace Triflight

/-! ## C integer arithmetic -/

/-- Result of an `int` (signed 32-bit) operation whose exact value is `x`. -/
def i32 (x : Int) : Option Int :=
  if -2147483648 ≤ x ∧ x ≤ 2147483647 then some x else none

/-- C division of two `int` values: truncates toward zero, undefined for a zero divisor. -/
def divI32 (a b : Int) : Option Int :=
  if b = 0 then none else i32 (Int.tdiv a b)

/-- Conversion to `int16_t`. -/
def toInt16 (x : Int) : Int := (x + 32768) % 65536 - 32768

/-- Conversion to `uint16_t`. -/
def toUint16 (x : Int) : Int := x % 65536

/-- Modelled from the spec: the clamp `constrain(amt, low, high)` of `common/maths.h`, which
is not among the sources. -/
def constrain (amt low high : Int) : Int :=
  if amt < low then low else if amt > high then high else amt

/-- Modelled from the spec: the absolute value macro `ABS` of `common/maths.h`, which is not
among the sources, `((x) > 0 ? (x) : -(x))`, on an `int`. -/
def ABS (x : Int) : Option Int := if x > 0 then some x else i32 (-x)

/-- Modelled from the spec: the macro `MIN` of `common/maths.h`, which is not among the
sources, `((a) < (b) ? (a) : (b))`. -/
def MIN (a b : Int) : Int := if a < b then a else b

/-- Modelled from the spec: the macro `MAX` of `common/maths.h`, which is not among the
sources, `((a) > (b) ? (a) : (b))`. -/
def MAX (a b : Int) : Int := if a > b then a else b

/-! ## Constants -/

def TRI_TAIL_SERVO_ANGLE_MID : Int := 900
def TRI_YAW_FORCE_CURVE_SIZE : Nat := 100
def TRI_TAIL_SERVO_MAX_ANGLE : Int := 500
def TRI_YAW_FORCE_PRECISION : Int := 1000

/-! ## Force curve lookup -/

/-- The `while (higher > lower + 1)` loop of `getAngleFromYawForceCurve`.
The first argument bounds the number of iterations; the caller passes the
initial width of the bracket, which is never exhausted
(see `binarySearch_adjacent`). -/
def binarySearch (yawForceCurve : Nat → Int) (force : Int) : Nat → Nat → Nat → Nat × Nat
  | 0, lower, higher => (lower, higher)
  | n + 1, lower, higher =>
    if higher > lower + 1 then
      let mid := (lower + higher) / 2
      if yawForceCurve mid > force then
        binarySearch yawForceCurve force n lower mid
      else
        binarySearch yawForceCurve force n mid higher
    else (lower, higher)

/-- The interpolation expression of `getAngleFromYawForceCurve`, evaluated in `int`
and stored into the `uint16_t` result. -/
def interpolate (yawForceCurve : Nat → Int) (force : Int) (lower higher : Nat) : Option Int := do
  let diff ← i32 (force - yawForceCurve lower)
  let num ← i32 (diff * 10)
  let den ← i32 (yawForceCurve higher - yawForceCurve lower)
  let q ← divI32 num den
  let angle ← i32 (TRI_TAIL_SERVO_ANGLE_MID - TRI_TAIL_SERVO_MAX_ANGLE + (lower : Int) * 10 + q)
  pure (toUint16 angle)

/-- `getAngleFromYawForceCurve`: the angle (deci-degrees) at which the curve reaches `force`. -/
def getAngleFromYawForceCurve (yawForceCurve : Nat → Int) (force : Int) : Option Int :=
  if force < yawForceCurve 0 then
    some (toUint16 (TRI_TAIL_SERVO_ANGLE_MID - TRI_TAIL_SERVO_MAX_ANGLE))
  else if ¬ (force < yawForceCurve (TRI_YAW_FORCE_CURVE_SIZE - 1)) then
    some (toUint16 (TRI_TAIL_SERVO_ANGLE_MID + TRI_TAIL_SERVO_MAX_ANGLE))
  else
    let r := binarySearch yawForceCurve force (TRI_YAW_FORCE_CURVE_SIZE - 1) 0 (TRI_YAW_FORCE_CURVE_SIZE - 1)
    interpolate yawForceCurve force r.1 r.2

/-! ## Floating point -/

/-- Conversion of a `float` to an integer type of C: the fractional part is discarded. -/
def truncQ (q : ℚ) : Int := Int.tdiv q.num q.den

/-- Conversion of a `float` to `int16_t`; undefined when the truncated value is not representable. -/
def floatToInt16 (q : ℚ) : Option Int :=
  if -32768 ≤ truncQ q ∧ truncQ q ≤ 32767 then some (truncQ q) else none

/-- The position of the leading binary digit of `n`, by repeated halving; the first argument
bounds the number of halvings. -/
def log2Fuel : Nat → Nat → Nat
  | 0, _ => 0
  | fuel + 1, n => if 2 ≤ n then log2Fuel fuel (n / 2) + 1 else 0

/-- The position of the leading binary digit of `n`: `2 ^ log2 n ≤ n < 2 ^ (log2 n + 1)` for
`n ≠ 0` (see `log2_spec`). -/
def log2 (n : Nat) : Nat := log2Fuel n n

/-- The quotient `a / b` rounded to the nearest integer, a tie to the even one. -/
def roundDivEven (a b : Nat) : Nat :=
  let q := a / b
  let r := a % b
  if 2 * r < b then q else if b < 2 * r then q + 1 else if q % 2 = 0 then q else q + 1

/-- The binary32 value nearest to `n / d` (round to nearest, ties to even): with `e` the
binary exponent of `n / d`, not below the smallest normal exponent `-126`, the quotient is
rounded to a multiple of `2 ^ (e - 23)`. -/
def f32Pos (n d : Nat) : ℚ :=
  let k : Int := (log2 n : Int) - (log2 d : Int)
  let e : Int :=
    if (if 0 ≤ k then d * 2 ^ k.toNat ≤ n else d ≤ n * 2 ^ (-k).toNat) then k else k - 1
  let x : Int := max e (-126) - 23
  if 0 ≤ x then ((roundDivEven n (d * 2 ^ x.toNat) * 2 ^ x.toNat : Nat) : ℚ)
  else (roundDivEven (n * 2 ^ (-x).toNat) d : ℚ) / ((2 ^ (-x).toNat : Nat) : ℚ)

/-- The `float` (IEEE 754 binary32, round to nearest, ties to even) that holds the result of an
operation whose exact value is `q`.  A result beyond the largest finite `float`, which C
replaces by an infinity, is not clipped: in the functions that use `f32` such a result only
reaches a comparison, the clamp `constrainf` or a conversion to an integer type, where the
infinity and the unclipped value behave alike (the conversion being undefined). -/
def f32 (q : ℚ) : ℚ :=
  if q < 0 then -f32Pos q.num.natAbs q.den else f32Pos q.num.natAbs q.den

/-- Modelled from the spec: the clamp `constrainf(amt, low, high)` of `common/maths.h`, which
is not among the sources. -/
def constrainf (amt low high : ℚ) : ℚ :=
  if amt < low then low else if amt > high then high else amt

/-- Division of two `float` values, when the divisor is not zero. -/
def fdiv (a b : ℚ) : Option ℚ := if b = 0 then none else some (a / b)

/-- Conversion of a `float` to `int32_t`; undefined when the truncated value is not representable. -/
def floatToInt32 (q : ℚ) : Option Int := i32 (truncQ q)

/-- The functions of `<math.h>` and `common/maths.h` used by the mixer, and the constant
`RAD` (`M_PIf / 180.0f`) of `common/maths.h`.  They are parameters of the embedding. -/
structure Libm where
  sqrtf : ℚ → ℚ
  atanf : ℚ → ℚ
  cosf : ℚ → ℚ
  sinf : ℚ → ℚ
  sin_approx : ℚ → ℚ
  cos_approx : ℚ → ℚ
  RAD : ℚ

/-- Modelled from the spec: the macro `DEGREES_TO_RADIANS` of `common/maths.h`, which is not
among the sources, `((angle) * RAD)`. -/
def DEGREES_TO_RADIANS (m : Libm) (angle : ℚ) : ℚ := angle * m.RAD

/-! ## Data -/

/-- Modelled from the spec: `servoParam_t` is declared in `io/servos.h`, which is not among
the sources.  The fields are the servo limits the mixer reads (`min`, `middle`, `max`, raw
command units, `int16_t`) and the mechanical angle at the `max` limit in degrees. -/
structure ServoParam where
  min : Int
  max : Int
  middle : Int
  angleAtMax : Int
deriving DecidableEq, Repr

/-- Modelled from the spec: `tailServo_t` is declared in `flight/mixer_tricopter.h`, which is
not among the sources.  The fields are those the source uses: `maxYawForce` (`int32_t`),
`thrustFactor` (`float`), `maxAngle` and `speed` (`int16_t`), `angle` and `ADC` (`uint16_t`). -/
structure TailServo where
  maxYawForce : Int
  thrustFactor : ℚ
  maxAngle : Int
  speed : Int
  angle : Int
  ADC : Int
deriving DecidableEq, Repr

/-- Modelled from the spec: `tailMotor_t` is declared in `flight/mixer_tricopter.h`, which is
not among the sources.  The fields are those the source uses: the derived angles and the
delays are `int16_t`, `virtualFeedBack` is a `float`. -/
structure TailMotor where
  pitchZeroAngle : Int
  accelerationDelay_ms : Int
  decelerationDelay_ms : Int
  accelerationDelay_angle : Int
  decelerationDelay_angle : Int
  virtualFeedBack : ℚ
deriving DecidableEq, Repr

/-! ## Geometry and force curve -/

/-- `getPitchCorrectionAtTailAngle`. -/
def getPitchCorrectionAtTailAngle (m : Libm) (angle thrustFactor : ℚ) : Option ℚ := do
  let c ← fdiv (m.cos_approx angle) thrustFactor
  fdiv 1 (m.sin_approx angle - c)

/-- The `float` expression stored into `yawForceCurve[i]` by `initYawForceCurve`, for the
loop variable `angle` (deci-degrees). -/
def yawForceAtAngle (m : Libm) (thrustFactor : ℚ) (angle : Int) : Option ℚ := do
  let angleRad := DEGREES_TO_RADIANS m ((angle : ℚ) / 10)
  let pitchCorrection ← getPitchCorrectionAtTailAngle m angleRad thrustFactor
  pure ((TRI_YAW_FORCE_PRECISION : ℚ) * (-thrustFactor * m.cosf angleRad - m.sinf angleRad)
    * pitchCorrection)

/-- The `int32_t` value stored into `yawForceCurve[i]` by `initYawForceCurve`, for the loop
variable `angle`. -/
def yawForceSample (m : Libm) (thrustFactor : ℚ) (angle : Int) : Option Int := do
  let force ← yawForceAtAngle m thrustFactor angle
  floatToInt32 force

/-- The `float` expression stored into `tailMotor.pitchZeroAngle` by `initYawForceCurve`. -/
def pitchZeroAngleValue (m : Libm) (thrustFactor : ℚ) : Option ℚ := do
  let x ← fdiv (m.sqrtf (thrustFactor * thrustFactor + 1) + 1) thrustFactor
  pure (10 * 2 * m.atanf x)

/-- The `float` expression stored into `tailMotor.accelerationDelay_angle` and
`tailMotor.decelerationDelay_angle` by `initYawForceCurve`, for a delay in milliseconds:
`10.0f * (delay_ms / 1000.0f) * tailServo.speed`, each operation rounded to binary32. -/
def delayAngleValue (delay_ms speed : Int) : ℚ :=
  f32 (f32 (10 * f32 (f32 (delay_ms : ℚ) / 1000)) * f32 (speed : ℚ))

/-- The variables of the `for` loop of `initYawForceCurve`. -/
structure ForceLoop where
  angle : Int
  maxNegForce : Int
  maxPosForce : Int
  yawForceCurve : Nat → Int

/-- The `for` loop of `initYawForceCurve` after `i` iterations.  `force angle` is the value
computed for the sample at `angle` and stored as `int32_t`; `initYawForceCurve` passes the
conversion of `yawForceAtAngle`. -/
def initYawForceCurveLoop (force : Int → Int) (minAngle maxAngle : Int)
    (yawForceCurve : Nat → Int) : Nat → ForceLoop
  | 0 =>
    { angle := toInt16 (TRI_TAIL_SERVO_ANGLE_MID - TRI_TAIL_SERVO_MAX_ANGLE),
      maxNegForce := 0, maxPosForce := 0, yawForceCurve := yawForceCurve }
  | i + 1 =>
    let st := initYawForceCurveLoop force minAngle maxAngle yawForceCurve i
    let curve := Function.update st.yawForceCurve i (force st.angle)
    let inRange : Bool := decide (st.angle ≥ minAngle ∧ st.angle ≤ maxAngle)
    { angle := toInt16 (st.angle + 10),
      maxNegForce := if inRange then MIN (curve i) st.maxNegForce else st.maxNegForce,
      maxPosForce := if inRange then MAX (curve i) st.maxPosForce else st.maxPosForce,
      yawForceCurve := curve }

/-- The table and the `tailServo.maxYawForce` computed by `initYawForceCurve`, for the
configured `tailServo.maxAngle`. -/
def initYawForceCurveTable (force : Int → Int) (tailServoMaxAngle : Int)
    (yawForceCurve : Nat → Int) : Option ((Nat → Int) × Int) := do
  let minAngle := toInt16 (TRI_TAIL_SERVO_ANGLE_MID - tailServoMaxAngle)
  let maxAngle := toInt16 (TRI_TAIL_SERVO_ANGLE_MID + tailServoMaxAngle)
  let st := initYawForceCurveLoop force minAngle maxAngle yawForceCurve TRI_YAW_FORCE_CURVE_SIZE
  let absNeg ← ABS st.maxNegForce
  let absPos ← ABS st.maxPosForce
  pure (st.yawForceCurve, MIN absNeg absPos)

/-! ## Servo value maps -/

/-- `getServoValueAtAngle`, for the `uint16_t` argument `angle`; `tailServoMaxAngle` is
`tailServo.maxAngle` and `direction` the value of `triGetServoDirection()`. -/
def getServoValueAtAngle (servoConf : ServoParam) (tailServoMaxAngle direction : Int)
    (angle : Int) : Option Int :=
  let servoMid := servoConf.middle
  if angle = TRI_TAIL_SERVO_ANGLE_MID then
    some (toUint16 servoMid)
  else
    let angleRange := toUint16 tailServoMaxAngle
    let angleDiff :=
      if angle < TRI_TAIL_SERVO_ANGLE_MID then toUint16 (TRI_TAIL_SERVO_ANGLE_MID - angle)
      else toUint16 (angle - TRI_TAIL_SERVO_ANGLE_MID)
    let servoRange : Int :=
      if angle < TRI_TAIL_SERVO_ANGLE_MID then (if direction > 0 then -1 else 1)
      else (if direction > 0 then 1 else -1)
    if servoRange < 0 then do
      let servoMin := servoConf.min
      let p ← i32 (angleDiff * (servoMid - servoMin))
      let q ← divI32 p angleRange
      let v ← i32 (servoMid - q)
      pure (toUint16 v)
    else do
      let servoMax := servoConf.max
      let p ← i32 (angleDiff * (servoMax - servoMid))
      let q ← divI32 p angleRange
      let v ← i32 (servoMid + q)
      pure (toUint16 v)

/-- `getServoAngle`, for the `uint16_t` argument `servoValue`. -/
def getServoAngle (servoConf : ServoParam) (tailServoMaxAngle : Int) (servoValue : Int) :
    Option Int :=
  let midValue := servoConf.middle
  let endValue := if servoValue < midValue then servoConf.min else servoConf.max
  let endAngle := toInt16 (if servoValue < midValue then TRI_TAIL_SERVO_ANGLE_MID - tailServoMaxAngle
    else TRI_TAIL_SERVO_ANGLE_MID + tailServoMaxAngle)
  do
    let p ← i32 ((endAngle - TRI_TAIL_SERVO_ANGLE_MID) * (servoValue - midValue))
    let q ← divI32 p (endValue - midValue)
    let servoAngle ← i32 (q + TRI_TAIL_SERVO_ANGLE_MID)
    pure (toUint16 (toInt16 servoAngle))

/-- The local `linearYawForceAtValue` of `getLinearServoValue`:
`tailServo.maxYawForce * constrainedPIDOutput / TRI_YAW_FORCE_PRECISION`. -/
def linearYawForceAtValue (maxYawForce constrainedPIDOutput : Int) : Option Int := do
  let p ← i32 (maxYawForce * constrainedPIDOutput)
  divI32 p TRI_YAW_FORCE_PRECISION

/-- `getLinearServoValue`. -/
def getLinearServoValue (yawForceCurve : Nat → Int) (tailServo : TailServo) (direction : Int)
    (servoConf : ServoParam) (constrainedPIDOutput : Int) : Option Int := do
  let force ← linearYawForceAtValue tailServo.maxYawForce constrainedPIDOutput
  let a ← getAngleFromYawForceCurve yawForceCurve force
  let correctedAngle := toInt16 a
  getServoValueAtAngle servoConf tailServo.maxAngle direction (toUint16 correctedAngle)

/-- `getNormalServoValue`. -/
def getNormalServoValue (tailServo : TailServo) (direction : Int)
    (servoConf : ServoParam) (constrainedPIDOutput : Int) : Option Int := do
  let p ← i32 (constrainedPIDOutput * tailServo.maxAngle)
  let q ← divI32 p 1000
  let angle := toInt16 (TRI_TAIL_SERVO_ANGLE_MID + q)
  getServoValueAtAngle servoConf tailServo.maxAngle direction (toUint16 angle)

/-- The angle that `getLinearServoValue` looks up for the command `constrainedPIDOutput`
on the table and the `maxYawForce` that `initYawForceCurve` has built for `tailServoMaxAngle`. -/
def linearAngleAfterInit (force : Int → Int) (tailServoMaxAngle : Int)
    (yawForceCurve : Nat → Int) (constrainedPIDOutput : Int) : Option Int := do
  let r ← initYawForceCurveTable force tailServoMaxAngle yawForceCurve
  let f ← linearYawForceAtValue r.2 constrainedPIDOutput
  getAngleFromYawForceCurve r.1 f

/-! ## Gain scheduling -/

/-- The local `gain` (`uint16_t`) of `getScaledPIDatThrottle`. -/
def yawGain (virtualFeedBack : ℚ) (midpoint : Int)
    (tri_dynamic_yaw_minthrottle tri_dynamic_yaw_maxthrottle : Int) : Int :=
  if virtualFeedBack < (midpoint : ℚ) then toUint16 (tri_dynamic_yaw_minthrottle - 100)
  else toUint16 (100 - tri_dynamic_yaw_maxthrottle)

/-- The local `halfRange` (`int16_t`) of `getScaledPIDatThrottle`. -/
def halfRange (throttleRange : Int) : Int := toInt16 (Int.tdiv throttleRange 2)

/-- The local `midpoint` (`int16_t`) of `getScaledPIDatThrottle`. -/
def throttleMidpoint (throttleRange minthrottle : Int) : Int :=
  toInt16 (minthrottle + halfRange throttleRange)

/-- `getScaledPIDatThrottle`.  `minthrottle` is `motorConfig()->minthrottle`, and
`tri_dynamic_yaw_minthrottle`, `tri_dynamic_yaw_maxthrottle` are the two gain percentages
of `currentControlRateProfile`. -/
def getScaledPIDatThrottle (throttleRange minthrottle : Int) (virtualFeedBack : ℚ)
    (tri_dynamic_yaw_minthrottle tri_dynamic_yaw_maxthrottle : Int) (PIDoutput : Int) :
    Option Int := do
  let halfRange := halfRange throttleRange
  let midpoint := throttleMidpoint throttleRange minthrottle
  let gain := yawGain virtualFeedBack midpoint tri_dynamic_yaw_minthrottle
    tri_dynamic_yaw_maxthrottle
  let distanceFromMid ← floatToInt16 (virtualFeedBack - (midpoint : ℚ))
  let p1 ← i32 (distanceFromMid * gain)
  let p2 ← i32 (p1 * PIDoutput)
  let d ← i32 (halfRange * 100)
  let q ← divI32 p2 d
  let r ← i32 (PIDoutput - q)
  let scaledPIDoutput := toInt16 r
  let pid := toInt16 (constrain scaledPIDoutput (-1000) 1000)
  pure pid

/-! ## Runtime state -/

/-- Conversion to `uint32_t`. -/
def toUint32 (x : Int) : Int := x % 4294967296

/-- Conversion of a `float` to `uint16_t`; undefined when the truncated value is not representable. -/
def floatToUint16 (q : ℚ) : Option Int :=
  if 0 ≤ truncQ q ∧ truncQ q ≤ 65535 then some (truncQ q) else none

/-- Division of two `uint32_t` values; undefined for a zero divisor. -/
def divU32 (a b : Int) : Option Int := if b = 0 then none else some (a / b)

/-- The macro `IsDelayElapsed_ms`: `((uint32_t) (now_ms - timestamp_ms) >= delay_ms)`. -/
def IsDelayElapsed_ms (now_ms timestamp_ms delay_ms : Int) : Bool :=
  decide (toUint32 (now_ms - timestamp_ms) ≥ delay_ms)

/-- The macro `GetCurrentDelay_ms`: `(now_ms - timestamp_ms)`, in `uint32_t`. -/
def GetCurrentDelay_ms (now_ms timestamp_ms : Int) : Int := toUint32 (now_ms - timestamp_ms)

/-- Modelled from the spec: `pt1Filter_t` is declared in `common/filter.h`, which is not among
the sources: the state of a first-order low-pass filter. -/
structure Pt1Filter where
  state : ℚ
  RC : ℚ
  dT : ℚ
deriving DecidableEq, Repr

/-- Functions defined outside the mixer: the math library and the low-pass filter
`pt1FilterApply4(filter, input, f_cut, dT)` of `common/filter.c`, which returns the updated
filter and its output. -/
structure External where
  libm : Libm
  pt1FilterApply4 : Pt1Filter → ℚ → Int → ℚ → Pt1Filter × ℚ

/-- Modelled from the spec: the enumerations and records of the calibration session are
declared in `flight/mixer_tricopter.h`, which is not among the sources.  The session mode. -/
inductive TailTuneMode where
  | TT_MODE_NONE | TT_MODE_THRUST_TORQUE | TT_MODE_SERVO_SETUP
deriving DecidableEq, Repr

/-- Modelled from the spec: the states of the thrust/torque calibration
(`flight/mixer_tricopter.h` is not among the sources). -/
inductive ThrustTorqueState where
  | TT_IDLE | TT_WAIT | TT_ACTIVE | TT_WAIT_FOR_DISARM | TT_DONE | TT_FAIL
deriving DecidableEq, Repr

/-- Modelled from the spec: the states of the servo setup
(`flight/mixer_tricopter.h` is not among the sources). -/
inductive ServoSetupState where
  | SS_IDLE | SS_SETUP | SS_CALIB
deriving DecidableEq, Repr

/-- Modelled from the spec: the states of the servo feedback calibration
(`flight/mixer_tricopter.h` is not among the sources). -/
inductive ServoSetupCalibState where
  | SS_C_IDLE | SS_C_CALIB_MIN_MID_MAX | SS_C_CALIB_SPEED
deriving DecidableEq, Repr

/-- Modelled from the spec: the sub-states of the servo feedback calibration
(`flight/mixer_tricopter.h` is not among the sources).  The source also stores the
enumerator `SS_C_IDLE` of `ServoSetupCalibState` into the sub-state; both enumerations start
at zero, so that store is `SS_C_MIN`. -/
inductive ServoSetupCalibSubState where
  | SS_C_MIN | SS_C_MID | SS_C_MAX
deriving DecidableEq, Repr

/-- Modelled from the spec: `servoAvgAngle_t` (`flight/mixer_tricopter.h` is not among the
sources): `sum` is a `uint32_t`, `numOf` a `uint16_t`. -/
structure ServoAvgAngle where
  sum : Int
  numOf : Int
deriving DecidableEq, Repr

/-- Modelled from the spec: `thrustTorque_t` (`flight/mixer_tricopter.h` is not among the
sources): the timestamps are `uint32_t` milliseconds, the gyro limit is a `float`. -/
structure ThrustTorque where
  state : ThrustTorqueState
  startBeepDelay_ms : Int
  timestamp_ms : Int
  timestamp2_ms : Int
  lastAdjTime_ms : Int
  servoAvgAngle : ServoAvgAngle
  tailTuneGyroLimit : ℚ
deriving DecidableEq, Repr

/-- The servo limit that `pLimitToAdjust` points to. -/
inductive ServoLimit where
  | min | middle | max
deriving DecidableEq, Repr

/-- The ADC reference of the mixer configuration that `pCalibConfig` points to. -/
inductive AdcReference where
  | tri_servo_min_adc | tri_servo_mid_adc | tri_servo_max_adc
deriving DecidableEq, Repr

/-- Modelled from the spec: the record `avg` of the servo calibration
(`flight/mixer_tricopter.h` is not among the sources); a null `pCalibConfig` is `none`. -/
structure CalibAverage where
  pCalibConfig : Option AdcReference
  sum : Int
  numOf : Int
deriving DecidableEq, Repr

/-- Modelled from the spec: the record `cal` of the servo setup
(`flight/mixer_tricopter.h` is not among the sources). -/
structure ServoCalib where
  done : Bool
  waitingServoToStop : Bool
  state : ServoSetupCalibState
  subState : ServoSetupCalibSubState
  timestamp_ms : Int
  avg : CalibAverage
deriving DecidableEq, Repr

/-- Modelled from the spec: `struct servoSetup_t` (`flight/mixer_tricopter.h` is not among the
sources): `servoVal` is a `float`; a null `pLimitToAdjust` is `none`. -/
structure ServoSetup where
  state : ServoSetupState
  servoVal : ℚ
  pLimitToAdjust : Option ServoLimit
  cal : ServoCalib
deriving DecidableEq, Repr

/-- Modelled from the spec: `tailTune_t` (`flight/mixer_tricopter.h` is not among the
sources): the session mode and the data of the two calibration modes. -/
structure TailTune where
  mode : TailTuneMode
  tt : ThrustTorque
  ss : ServoSetup
deriving DecidableEq, Repr

/-- Modelled from the spec: the fields of `mixerConfig_t` (`flight/mixer.h`, not among the
sources) that the tricopter mixer uses.  The ADC references are `uint16_t`, thrust factor and
servo speed `int16_t`; `tri_servo_feedback` is `0` for `TRI_SERVO_FB_VIRTUAL`. -/
structure MixerConfig where
  tri_tail_motor_thrustfactor : Int
  tri_tail_servo_speed : Int
  tri_motor_acceleration : ℚ
  tri_servo_feedback : Int
  tri_servo_min_adc : Int
  tri_servo_mid_adc : Int
  tri_servo_max_adc : Int
  tri_unarmed_servo : Int
  tri_motor_acc_yaw_correction : Int
deriving DecidableEq, Repr

/-- Modelled from the spec: the enumerator `TRI_SERVO_FB_VIRTUAL` of `flight/mixer.h`, which
is not among the sources: the first feedback source, the simulated servo. -/
def TRI_SERVO_FB_VIRTUAL : Int := 0

/-- Modelled from the spec: the alerts of `io/beeper.h` (not among the sources) that the
mixer raises. -/
inductive BeeperMode where
  | BEEPER_BAT_LOW | BEEPER_BAT_CRIT_LOW | BEEPER_READY_BEEP | BEEPER_ACC_CALIBRATION_FAIL
deriving DecidableEq, Repr

/-- A call into another module that has an effect there. -/
inductive Event where
  | beeper (mode : BeeperMode)
  | beeperConfirmationBeeps (beepCount : Nat)
  | saveConfigAndNotify
  | pidSetExpectedGyroError (error : ℚ)
deriving DecidableEq, Repr

/-- What one control tick reads from the other modules: the millisecond clock `millis()`,
the tick duration `getdT()`, the ADC sample, the tune switch `rcModeIsActive(BOXTAILTUNE)`,
the `ARMED` flag, the throttle status, the stick commands and their dead-band tests, the yaw
gyro sample and scale, the tail motor output `motor[0]`, the servo direction, the minimum
throttle and the two dynamic yaw percentages. -/
structure TickInput where
  now_ms : Int
  dT : ℚ
  adcSample : Int
  boxTailTune : Bool
  armed : Bool
  throttleHigh : Bool
  rcCommandRoll : Int
  rcCommandPitch : Int
  rcCommandYaw : Int
  rollWithinDeadband : Bool
  pitchWithinDeadband : Bool
  yawWithinDeadband : Bool
  gyroADCYaw : Int
  gyroScale : ℚ
  motorTail : Int
  direction : Int
  minthrottle : Int
  tri_dynamic_yaw_minthrottle : Int
  tri_dynamic_yaw_maxthrottle : Int

/-- The variables of the module, the objects its pointers refer to (`*gpTailServoConf`,
`*gpTailServo`, `*gpMixerConfig`, `servoProfile()->servoConf[6]`), the two flags it writes
(`PREVENT_ARMING`, `TAILTUNE_MODE`), its function-local statics, and the calls it has
made into other modules. -/
structure State where
  tailTune : TailTune
  tailServo : TailServo
  yawForceCurve : Nat → Int
  tailMotor : TailMotor
  throttleRange : Int
  motorAcceleration : ℚ
  tailServoConf : ServoParam
  tailServoValue : Int
  mixerConfig : MixerConfig
  servoConf6 : ServoParam
  preventArming : Bool
  tailTuneFlightMode : Bool
  feedbackFilter : Pt1Filter
  current : ℚ
  motorFilter : Pt1Filter
  previousMotorSpeed : ℚ
  events : List Event

/-- Records a call into another module. -/
def State.emit (st : State) (e : Event) : State := { st with events := st.events ++ [e] }

/-- Stores the thrust/torque session data `tailTune.tt`. -/
def State.setTT (st : State) (tt : ThrustTorque) : State :=
  { st with tailTune := { st.tailTune with tt := tt } }

/-- Stores the servo setup session data `tailTune.ss`. -/
def State.setSS (st : State) (ss : ServoSetup) : State :=
  { st with tailTune := { st.tailTune with ss := ss } }

/-! ## Initialisation -/

/-- `initYawForceCurve`.  The loop stores the 100 samples `yawForceSample` of the angles
`400, 410, ..., 1390`; when one of them is not defined, neither is the function. -/
def initYawForceCurve (m : Libm) (st : State) : Option State := do
  let pitchZero ← pitchZeroAngleValue m st.tailServo.thrustFactor
  let pitchZeroAngle ← floatToInt16 pitchZero
  let accel ← floatToInt16 (delayAngleValue st.tailMotor.accelerationDelay_ms st.tailServo.speed)
  let decel ← floatToInt16 (delayAngleValue st.tailMotor.decelerationDelay_ms st.tailServo.speed)
  if (List.range TRI_YAW_FORCE_CURVE_SIZE).all
      (fun i => (yawForceSample m st.tailServo.thrustFactor (400 + 10 * (i : Int))).isSome) then do
    let r ← initYawForceCurveTable
      (fun angle => (yawForceSample m st.tailServo.thrustFactor angle).getD 0)
      st.tailServo.maxAngle st.yawForceCurve
    pure { st with
      tailServo := { st.tailServo with maxYawForce := r.2 },
      tailMotor := { st.tailMotor with pitchZeroAngle := pitchZeroAngle,
                                       accelerationDelay_angle := accel,
                                       decelerationDelay_angle := decel },
      yawForceCurve := r.1 }
  else none

/-- `triInitMixer`, called with the tail servo configuration `*pTailServoConfig`, the servo
variable `*pTailServo`, the mixer configuration `*mixerConfig()` and the throttle limits of
`motorConfig()`.  The choice of the ADC channel (`updateServoFeedbackADCChannel`) is not
part of the state: the sample of the selected channel is an input of the tick. -/
def triInitMixer (m : Libm) (pTailServoConfig : ServoParam) (pTailServo : Int)
    (mixerConfig : MixerConfig) (maxthrottle minthrottle : Int) (st : State) : Option State := do
  let throttleRange := toInt16 (maxthrottle - minthrottle)
  let motorAcceleration ← fdiv (throttleRange : ℚ) mixerConfig.tri_motor_acceleration
  let st1 := { st with
    tailServoConf := pTailServoConfig,
    tailServoValue := pTailServo,
    mixerConfig := mixerConfig,
    tailServo := { st.tailServo with
      thrustFactor := (mixerConfig.tri_tail_motor_thrustfactor : ℚ) / 10,
      maxAngle := toInt16 (pTailServoConfig.angleAtMax * 10),
      speed := mixerConfig.tri_tail_servo_speed },
    throttleRange := throttleRange,
    motorAcceleration := motorAcceleration }
  initYawForceCurve m st1

/-! ## Calibration supervisor -/

/-- The `float` expression `pTT->servoAvgAngle.sum / 10.0f / pTT->servoAvgAngle.numOf` of
`tailTuneModeThrustTorque`, each conversion and division rounded to binary32. -/
def averageServoAngleValue (sum numOf : Int) : ℚ :=
  f32 (f32 (f32 (sum : ℚ) / 10) / f32 (numOf : ℚ))

/-- `tailTuneModeThrustTorque`, on `tailTune.tt`.  The constants `3.5f`, `8.0f`, `90.5f`,
`120.f`, `90.0f` and `10.0f` are binary32 values; `0.1f` is `f32 (1 / 10)`. -/
def tailTuneModeThrustTorque (ext : External) (inp : TickInput) (isThrottleHigh : Bool)
    (st : State) : Option State :=
  let now_ms := inp.now_ms
  let pTT := st.tailTune.tt
  match pTT.state with
  | .TT_IDLE =>
    if isThrottleHigh ∧ inp.armed then
      some ((st.emit (.beeper .BEEPER_BAT_LOW)).setTT
        { pTT with startBeepDelay_ms := 1000, timestamp_ms := now_ms, timestamp2_ms := now_ms,
                   lastAdjTime_ms := now_ms, state := .TT_WAIT,
                   servoAvgAngle := { sum := 0, numOf := 0 }, tailTuneGyroLimit := 7 / 2 })
    else some st
  | .TT_WAIT =>
    if isThrottleHigh ∧ inp.armed then
      if IsDelayElapsed_ms now_ms pTT.timestamp_ms 5000 then
        some ((st.emit (.beeper .BEEPER_BAT_CRIT_LOW)).setTT
          { pTT with state := .TT_ACTIVE, timestamp_ms := now_ms })
      else if IsDelayElapsed_ms now_ms pTT.timestamp_ms pTT.startBeepDelay_ms then
        some ((st.emit (.beeper .BEEPER_BAT_LOW)).setTT
          { pTT with startBeepDelay_ms := toUint32 (pTT.startBeepDelay_ms + 1000) })
      else some st
    else some (st.setTT { pTT with state := .TT_IDLE })
  | .TT_ACTIVE =>
    let pTT1 :=
      if ¬ (isThrottleHigh ∧ inp.rollWithinDeadband ∧ inp.pitchWithinDeadband
          ∧ inp.yawWithinDeadband) then { pTT with timestamp_ms := now_ms } else pTT
    let pTT2 :=
      if |f32 (f32 (inp.gyroADCYaw : ℚ) * inp.gyroScale)| > pTT1.tailTuneGyroLimit then
        { pTT1 with timestamp2_ms := now_ms } else pTT1
    if IsDelayElapsed_ms now_ms pTT2.timestamp_ms 250 then
      if IsDelayElapsed_ms now_ms pTT2.timestamp2_ms 250 then
        if IsDelayElapsed_ms now_ms pTT2.lastAdjTime_ms 20 then
          let numOf := toUint16 (pTT2.servoAvgAngle.numOf + 1)
          let pTT3 := { pTT2 with
            lastAdjTime_ms := now_ms,
            servoAvgAngle := { sum := toUint32 (pTT2.servoAvgAngle.sum + st.tailServo.angle),
                               numOf := numOf } }
          let st1 := if numOf % 32 = 0 then st.emit (.beeperConfirmationBeeps 1) else st
          if numOf ≥ 500 then
            some ((st1.emit (.beeper .BEEPER_READY_BEEP)).setTT
              { pTT3 with state := .TT_WAIT_FOR_DISARM, timestamp_ms := now_ms })
          else some (st1.setTT pTT3)
        else some (st.setTT pTT2)
      else if IsDelayElapsed_ms now_ms pTT2.lastAdjTime_ms 1000 then
        let pTT3 := { pTT2 with tailTuneGyroLimit := f32 (pTT2.tailTuneGyroLimit + f32 (1 / 10)),
                                lastAdjTime_ms := now_ms }
        if pTT3.tailTuneGyroLimit > 8 then some (st.setTT { pTT3 with state := .TT_FAIL })
        else some (st.setTT pTT3)
      else some (st.setTT pTT2)
    else some (st.setTT pTT2)
  | .TT_WAIT_FOR_DISARM =>
    if ¬ inp.armed then do
      let avg ← divU32 pTT.servoAvgAngle.sum pTT.servoAvgAngle.numOf
      let gyroLimit10 ← floatToInt16 (f32 (pTT.tailTuneGyroLimit * 10))
      let st1 := { st with servoConf6 := { st.servoConf6 with max := toInt16 avg,
                                                                 min := gyroLimit10 } }
      let averageServoAngle : ℚ :=
        averageServoAngleValue pTT.servoAvgAngle.sum pTT.servoAvgAngle.numOf
      if averageServoAngle > 181 / 2 ∧ averageServoAngle < 120 then
        let angle := f32 (f32 (averageServoAngle - 90) * ext.libm.RAD)
        let ratio ← fdiv (f32 (10 * ext.libm.cos_approx angle)) (ext.libm.sin_approx angle)
        let thrustFactor ← floatToInt16 (f32 ratio)
        let st2 := { st1 with mixerConfig :=
          { st1.mixerConfig with tri_tail_motor_thrustfactor := thrustFactor } }
        pure ((st2.emit .saveConfigAndNotify).setTT
          { pTT with state := .TT_DONE, timestamp_ms := now_ms })
      else
        pure (st1.setTT { pTT with state := .TT_FAIL, timestamp_ms := now_ms })
    else if IsDelayElapsed_ms now_ms pTT.timestamp_ms 2000 then
      some ((st.emit (.beeper .BEEPER_READY_BEEP)).setTT { pTT with timestamp_ms := now_ms })
    else some st
  | .TT_DONE =>
    if IsDelayElapsed_ms now_ms pTT.timestamp_ms 2000 then
      some ((st.emit (.beeper .BEEPER_READY_BEEP)).setTT { pTT with timestamp_ms := now_ms })
    else some st
  | .TT_FAIL =>
    if IsDelayElapsed_ms now_ms pTT.timestamp_ms 2000 then
      some ((st.emit (.beeper .BEEPER_ACC_CALIBRATION_FAIL)).setTT
        { pTT with timestamp_ms := now_ms })
    else some st

/-- The "check mode select" part of `tailTuneModeServoSetup`: the stick gestures. -/
def servoSetupModeSelect (inp : TickInput) (st : State) : State :=
  let pSS := st.tailTune.ss
  let pServoConf := st.tailServoConf
  if inp.pitchWithinDeadband ∧ inp.rcCommandRoll < -100 then
    (st.emit (.beeperConfirmationBeeps 1)).setSS
      { pSS with servoVal := pServoConf.min, pLimitToAdjust := some .min, state := .SS_SETUP }
  else if inp.rollWithinDeadband ∧ inp.rcCommandPitch > 100 then
    (st.emit (.beeperConfirmationBeeps 2)).setSS
      { pSS with servoVal := pServoConf.middle, pLimitToAdjust := some .middle,
                 state := .SS_SETUP }
  else if inp.pitchWithinDeadband ∧ inp.rcCommandRoll > 100 then
    (st.emit (.beeperConfirmationBeeps 3)).setSS
      { pSS with servoVal := pServoConf.max, pLimitToAdjust := some .max, state := .SS_SETUP }
  else if inp.rollWithinDeadband ∧ inp.rcCommandPitch < -100 then
    st.setSS { pSS with state := .SS_CALIB, cal := { pSS.cal with state := .SS_C_IDLE } }
  else st

/-- The store `*pSS->pLimitToAdjust = value` into the tail servo configuration. -/
def storeServoLimit (pLimitToAdjust : Option ServoLimit) (value : Int) (conf : ServoParam) :
    Option ServoParam :=
  match pLimitToAdjust with
  | none => none
  | some .min => some { conf with min := toInt16 value }
  | some .middle => some { conf with middle := toInt16 value }
  | some .max => some { conf with max := toInt16 value }

/-- The store `*pSS->cal.avg.pCalibConfig = value` into the mixer configuration. -/
def storeAdcReference (pCalibConfig : Option AdcReference) (value : Int) (conf : MixerConfig) :
    Option MixerConfig :=
  match pCalibConfig with
  | none => none
  | some .tri_servo_min_adc => some { conf with tri_servo_min_adc := toUint16 value }
  | some .tri_servo_mid_adc => some { conf with tri_servo_mid_adc := toUint16 value }
  | some .tri_servo_max_adc => some { conf with tri_servo_max_adc := toUint16 value }

/-- The `float` value that the `SS_SETUP` case of `tailTuneModeServoSetup` assigns to
`pSS->servoVal`: the sum
`pSS->servoVal + triGetServoDirection() * -1.0f * (float) rcCommand[YAW] * getdT()`, each
conversion and operation rounded to binary32, clamped by `constrainf(.., 900.0f, 2100.0f)`. -/
def trimmedServoVal (servoVal : ℚ) (direction rcCommandYaw : Int) (dT : ℚ) : ℚ :=
  constrainf
    (f32 (servoVal + f32 (f32 (f32 (f32 (direction : ℚ) * (-1)) * f32 (rcCommandYaw : ℚ)) * dT)))
    900 2100

/-- The `SS_SETUP` case of `tailTuneModeServoSetup`. -/
def servoSetupTrim (inp : TickInput) (st : State) : Option State :=
  let pSS := st.tailTune.ss
  if ¬ inp.yawWithinDeadband then do
    let servoVal := trimmedServoVal pSS.servoVal inp.direction inp.rcCommandYaw inp.dT
    let limit ← floatToInt16 servoVal
    let conf ← storeServoLimit pSS.pLimitToAdjust limit st.tailServoConf
    pure ({ st with tailServoConf := conf }.setSS { pSS with servoVal := servoVal })
  else some st

/-- The "state transition" part of the `SS_CALIB` case of `tailTuneModeServoSetup`. -/
def servoCalibTransition (inp : TickInput) (st : State) : Option State :=
  let pSS := st.tailTune.ss
  let pServoConf := st.tailServoConf
  if pSS.cal.done = true ∨ pSS.cal.state = .SS_C_IDLE then do
    let st1 : State ←
      if pSS.cal.state = .SS_C_IDLE then
        pure (st.setSS { pSS with
          servoVal := pServoConf.min,
          cal := { pSS.cal with state := .SS_C_CALIB_MIN_MID_MAX, subState := .SS_C_MIN,
                                avg := { pSS.cal.avg with
                                  pCalibConfig := some .tri_servo_min_adc } } })
      else if pSS.cal.state = .SS_C_CALIB_SPEED then
        pure (((st.emit (.beeper .BEEPER_READY_BEEP)).emit .saveConfigAndNotify).setSS
          { pSS with state := .SS_IDLE, cal := { pSS.cal with subState := .SS_C_MIN } })
      else
        match pSS.cal.subState with
        | .SS_C_MIN =>
          pure (st.setSS { pSS with
            servoVal := pServoConf.middle,
            cal := { pSS.cal with subState := .SS_C_MID,
                                  avg := { pSS.cal.avg with
                                    pCalibConfig := some .tri_servo_mid_adc } } })
        | .SS_C_MID => do
          let diff ← ABS (st.mixerConfig.tri_servo_min_adc - st.mixerConfig.tri_servo_mid_adc)
          if diff < 100 then
            pure (((st.emit (.beeper .BEEPER_ACC_CALIBRATION_FAIL)).emit
                .saveConfigAndNotify).setSS
              { pSS with state := .SS_IDLE, cal := { pSS.cal with subState := .SS_C_MIN } })
          else
            pure (st.setSS { pSS with
              servoVal := pServoConf.max,
              cal := { pSS.cal with subState := .SS_C_MAX,
                                    avg := { pSS.cal.avg with
                                      pCalibConfig := some .tri_servo_max_adc } } })
        | .SS_C_MAX =>
          pure (st.setSS { pSS with
            servoVal := pServoConf.min,
            cal := { pSS.cal with state := .SS_C_CALIB_SPEED, subState := .SS_C_MIN,
                                  waitingServoToStop := true } })
    let pSS1 := st1.tailTune.ss
    pure (st1.setSS { pSS1 with
      cal := { pSS1.cal with timestamp_ms := inp.now_ms, done := false,
                             avg := { pSS1.cal.avg with sum := 0, numOf := 0 } } })
  else some st

/-- The `switch (pSS->cal.state)` part of the `SS_CALIB` case of `tailTuneModeServoSetup`. -/
def servoCalibStep (inp : TickInput) (st : State) : Option State :=
  let now_ms := inp.now_ms
  let pSS := st.tailTune.ss
  let cal := pSS.cal
  let pServoConf := st.tailServoConf
  match cal.state with
  | .SS_C_IDLE => some st
  | .SS_C_CALIB_MIN_MID_MAX =>
    if IsDelayElapsed_ms now_ms cal.timestamp_ms 500 then
      if IsDelayElapsed_ms now_ms cal.timestamp_ms 600 then do
        let avg ← divU32 cal.avg.sum cal.avg.numOf
        let conf ← storeAdcReference cal.avg.pCalibConfig avg st.mixerConfig
        pure ({ st with mixerConfig := conf }.setSS { pSS with cal := { cal with done := true } })
      else
        some (st.setSS { pSS with cal := { cal with avg := { cal.avg with
          sum := toUint32 (cal.avg.sum + st.tailServo.ADC),
          numOf := toUint16 (cal.avg.numOf + 1) } } })
    else some st
  | .SS_C_CALIB_SPEED =>
    match cal.subState with
    | .SS_C_MIN =>
      if st.tailServo.ADC < st.mixerConfig.tri_servo_min_adc + 10 then
        if ¬ cal.waitingServoToStop then do
          let sum := toUint32 (cal.avg.sum + GetCurrentDelay_ms now_ms cal.timestamp_ms)
          let numOf := toUint16 (cal.avg.numOf + 1)
          let cal1 := { cal with avg := { cal.avg with sum := sum, numOf := numOf } }
          if numOf > 5 then do
            let avgTime ← divU32 sum numOf
            if avgTime = 0 then none
            else
              let avgServoSpeed : ℚ :=
                (2 * (st.tailServo.maxAngle : ℚ) / 10) / (avgTime : ℚ) * 1000
              let speed ← floatToInt16 avgServoSpeed
              pure ({ st with
                  mixerConfig := { st.mixerConfig with tri_tail_servo_speed := speed },
                  tailServo := { st.tailServo with speed := speed } }.setSS
                { pSS with servoVal := pServoConf.middle,
                           cal := { cal1 with done := true, timestamp_ms := now_ms,
                                              waitingServoToStop := true } })
          else
            pure (st.setSS { pSS with
              cal := { cal1 with timestamp_ms := now_ms, waitingServoToStop := true } })
        else if IsDelayElapsed_ms now_ms cal.timestamp_ms 200 then
          some (st.setSS { pSS with
            servoVal := pServoConf.max,
            cal := { cal with timestamp_ms := now_ms, subState := .SS_C_MAX,
                              waitingServoToStop := false } })
        else some st
      else some st
    | .SS_C_MAX =>
      if st.tailServo.ADC > st.mixerConfig.tri_servo_max_adc - 10 then
        if ¬ cal.waitingServoToStop then
          some (st.setSS { pSS with
            cal := { cal with
              avg := { cal.avg with
                sum := toUint32 (cal.avg.sum + GetCurrentDelay_ms now_ms cal.timestamp_ms),
                numOf := toUint16 (cal.avg.numOf + 1) },
              timestamp_ms := now_ms, waitingServoToStop := true } })
        else if IsDelayElapsed_ms now_ms cal.timestamp_ms 200 then
          some (st.setSS { pSS with
            servoVal := pServoConf.min,
            cal := { cal with timestamp_ms := now_ms, subState := .SS_C_MIN,
                              waitingServoToStop := false } })
        else some st
      else some st
    | .SS_C_MID => some st

/-- `tailTuneModeServoSetup`, on `tailTune.ss`, `*gpTailServoConf` and `*gpTailServo`. -/
def tailTuneModeServoSetup (inp : TickInput) (st : State) : Option State := do
  let st1 := servoSetupModeSelect inp st
  let st2 ←
    match st1.tailTune.ss.state with
    | .SS_IDLE => some st1
    | .SS_SETUP => servoSetupTrim inp st1
    | .SS_CALIB => do
      let st3 ← servoCalibTransition inp st1
      servoCalibStep inp st3
  let servoVal ← floatToInt16 st2.tailTune.ss.servoVal
  pure { st2 with tailServoValue := servoVal }

/-- `triTailTuneStep`, called with `gpTailServoConf` and `gpTailServo`. -/
def triTailTuneStep (ext : External) (inp : TickInput) (st : State) : Option State :=
  if ¬ inp.boxTailTune then
    if st.tailTuneFlightMode then
      some { st with preventArming := false, tailTuneFlightMode := false,
                     tailTune := { st.tailTune with mode := .TT_MODE_NONE } }
    else some st
  else
    let st1 := { st with tailTuneFlightMode := true }
    let st2 :=
      if st1.tailTune.mode = .TT_MODE_NONE then
        if inp.armed then
          { st1 with tailTune := { st1.tailTune with
              mode := .TT_MODE_THRUST_TORQUE,
              tt := { st1.tailTune.tt with state := .TT_IDLE } } }
        else
          { st1 with preventArming := true,
                     tailTune := { st1.tailTune with
                       mode := .TT_MODE_SERVO_SETUP,
                       ss := { st1.tailTune.ss with servoVal := st1.tailServoConf.middle } } }
      else st1
    match st2.tailTune.mode with
    | .TT_MODE_THRUST_TORQUE => tailTuneModeThrustTorque ext inp inp.throttleHigh st2
    | .TT_MODE_SERVO_SETUP => tailTuneModeServoSetup inp st2
    | .TT_MODE_NONE => some st2

/-! ## Servo angle estimator, virtual motor, yaw mixer -/

/-- The `float` expression `dT * servoSpeed * 10` of `virtualServoStep`, the conversion of
`servoSpeed` and each product rounded to binary32. -/
def servoStepValue (dT : ℚ) (servoSpeed : Int) : ℚ :=
  f32 (f32 (dT * f32 (servoSpeed : ℚ)) * 10)

/-- `virtualServoStep`, for the `uint16_t` arguments `currentAngle` and `servoValue`. -/
def virtualServoStep (tailServoMaxAngle : Int) (currentAngle servoSpeed : Int) (dT : ℚ)
    (servoConf : ServoParam) (servoValue : Int) : Option Int := do
  let angleSetPoint ← getServoAngle servoConf tailServoMaxAngle servoValue
  let dA ← floatToUint16 (servoStepValue dT servoSpeed)
  let diff ← ABS (currentAngle - angleSetPoint)
  if diff < dA then
    pure angleSetPoint
  else if currentAngle < angleSetPoint then
    pure (toUint16 (currentAngle + dA))
  else
    pure (toUint16 (currentAngle - dA))

/-- `feedbackServoStep`, for the `uint16_t` argument `tailServoADC`; `servoConf` is
`*gpTailServoConf`. -/
def feedbackServoStep (servoConf : ServoParam) (mixerConf : MixerConfig) (tailServoADC : Int) :
    Option Int := do
  let ADCFeedback := tailServoADC
  let midValue := toInt16 mixerConf.tri_servo_mid_adc
  let endValue := toInt16
    (if ADCFeedback < midValue then mixerConf.tri_servo_min_adc else mixerConf.tri_servo_max_adc)
  let tailServoMaxAngle := toInt16 (servoConf.angleAtMax * 10)
  let endAngle := toInt16 (if ADCFeedback < midValue then TRI_TAIL_SERVO_ANGLE_MID - tailServoMaxAngle
    else TRI_TAIL_SERVO_ANGLE_MID + tailServoMaxAngle)
  let p ← i32 ((endAngle - TRI_TAIL_SERVO_ANGLE_MID) * (ADCFeedback - midValue))
  let q ← divI32 p (endValue - midValue)
  let currentAngle ← i32 (q + TRI_TAIL_SERVO_ANGLE_MID)
  pure (toUint16 (toInt16 currentAngle))

/-- `updateServoAngle`: the new value of `tailServo.angle`. -/
def updateServoAngle (mixerConfig : MixerConfig) (tailServo : TailServo) (dT : ℚ)
    (servoConf : ServoParam) (tailServoValue : Int) : Option Int :=
  if mixerConfig.tri_servo_feedback = TRI_SERVO_FB_VIRTUAL then
    virtualServoStep tailServo.maxAngle tailServo.angle tailServo.speed dT servoConf
      (toUint16 tailServoValue)
  else
    feedbackServoStep servoConf mixerConfig tailServo.ADC

/-- The slew limiter of `tailMotorStep`: the new value of the static `current`. -/
def tailMotorSlew (current : ℚ) (setpoint : Int) (dS : ℚ) : ℚ :=
  if |current - (setpoint : ℚ)| < dS then (setpoint : ℚ)
  else if current < (setpoint : ℚ) then current + dS
  else current - dS

/-- `tailMotorStep`. -/
def tailMotorStep (ext : External) (setpoint : Int) (dT : ℚ) (st : State) : State :=
  let dS := dT * st.motorAcceleration
  let current := tailMotorSlew st.current setpoint dS
  let r := ext.pt1FilterApply4 st.motorFilter current 5 dT
  { st with current := current, motorFilter := r.1,
            tailMotor := { st.tailMotor with virtualFeedBack := r.2 } }

/-- `predictGyroOnDecceleration`. -/
def predictGyroOnDecceleration (st : State) : State :=
  let tailMotorSpeed := st.tailMotor.virtualFeedBack
  let acceleration := tailMotorSpeed - st.previousMotorSpeed
  let st1 := { st with previousMotorSpeed := tailMotorSpeed }
  if acceleration < 0 then
    st1.emit (.pidSetExpectedGyroError
      (acceleration * (st.mixerConfig.tri_motor_acc_yaw_correction : ℚ) / 10))
  else st1

/-- The feedback sample of `triServoMixer`: when the feedback is not virtual, the ADC channel
is read and filtered into `tailServo.ADC`. -/
def readServoFeedback (ext : External) (inp : TickInput) (st : State) : Option State :=
  if st.mixerConfig.tri_servo_feedback ≠ TRI_SERVO_FB_VIRTUAL then do
    let r := ext.pt1FilterApply4 st.feedbackFilter (inp.adcSample : ℚ) 70 inp.dT
    let adc ← floatToUint16 r.2
    pure { st with feedbackFilter := r.1, tailServo := { st.tailServo with ADC := adc } }
  else some st

/-- The servo value that `triServoMixer` computes before the calibration supervisor runs:
linear mode when armed, normal mode otherwise. -/
def mixerServoValue (inp : TickInput) (st : State) (PIDoutput : Int) : Option Int :=
  if inp.armed then
    getLinearServoValue st.yawForceCurve st.tailServo inp.direction st.tailServoConf PIDoutput
  else
    getNormalServoValue st.tailServo inp.direction st.tailServoConf PIDoutput

/-- `triServoMixer`. -/
def triServoMixer (ext : External) (inp : TickInput) (PIDoutput : Int) (st : State) :
    Option State := do
  let PIDoutput1 := toInt16 (constrain PIDoutput (-1000) 1000)
  let PIDoutput2 ← getScaledPIDatThrottle st.throttleRange inp.minthrottle
    st.tailMotor.virtualFeedBack inp.tri_dynamic_yaw_minthrottle inp.tri_dynamic_yaw_maxthrottle
    PIDoutput1
  let st1 ← readServoFeedback ext inp st
  let servoValue ← mixerServoValue inp st1 PIDoutput2
  let st2 := { st1 with tailServoValue := toInt16 servoValue }
  let st3 ← triTailTuneStep ext inp st2
  let angle ← updateServoAngle st3.mixerConfig st3.tailServo inp.dT st3.tailServoConf
    st3.tailServoValue
  let st4 := { st3 with tailServo := { st3.tailServo with angle := angle } }
  let st5 := tailMotorStep ext inp.motorTail inp.dT st4
  pure (predictGyroOnDecceleration st5)

/-- A sequence of calls of `triTailTuneStep`, one for each tick input, oldest first; undefined
as soon as one call is. -/
def runTailTune (ext : External) : List TickInput → State → Option State
  | [], st => some st
  | inp :: rest, st => (triTailTuneStep ext inp st).bind (runTailTune ext rest)

/-- The session invariant: a session mode other than `TT_MODE_NONE` has the flight mode
`TAILTUNE_MODE` set. -/
def sessionInv (st : State) : Prop :=
  st.tailTune.mode ≠ .TT_MODE_NONE → st.tailTuneFlightMode = true

instance (st : State) : Decidable (sessionInv st) := by
  unfold sessionInv
  infer_instance

/-- The transition time that a tick of the speed calibration adds to `cal.avg.sum`, if it
adds one: `GetCurrentDelay_ms(pSS->cal.timestamp_ms)`, taken in the sub-states `SS_C_MIN`
and `SS_C_MAX` when the feedback has reached the end and the servo was not waiting. -/
def speedMeasurement (inp : TickInput) (st : State) : Option Int :=
  let cal := st.tailTune.ss.cal
  match cal.state with
  | .SS_C_CALIB_SPEED =>
    match cal.subState with
    | .SS_C_MIN =>
      if st.tailServo.ADC < st.mixerConfig.tri_servo_min_adc + 10 ∧ ¬ cal.waitingServoToStop then
        some (GetCurrentDelay_ms inp.now_ms cal.timestamp_ms)
      else none
    | .SS_C_MAX =>
      if st.tailServo.ADC > st.mixerConfig.tri_servo_max_adc - 10 ∧ ¬ cal.waitingServoToStop then
        some (GetCurrentDelay_ms inp.now_ms cal.timestamp_ms)
      else none
    | .SS_C_MID => none
  | _ => none

/-- Stores a feedback reading into `tailServo.ADC`, as `triServoMixer` does before each tick
of the calibration. -/
def State.setADC (st : State) (adc : Int) : State :=
  { st with tailServo := { st.tailServo with ADC := adc } }

/-- A run of the calibration step `servoCalibStep` over a feedback trace: each tick comes
with the feedback reading `tailServo.ADC` of that tick.  The run ends with the tick that
sets `cal.done`, or with the trace, and returns the final state together with the transition
times measured on the way, oldest first. -/
def runSpeedCalib : List (TickInput × Int) → State → Option (State × List Int)
  | [], st => some (st, [])
  | (inp, adc) :: rest, st =>
    (servoCalibStep inp (st.setADC adc)).bind fun st1 =>
      if st1.tailTune.ss.cal.done then some (st1, (speedMeasurement inp (st.setADC adc)).toList)
      else (runSpeedCalib rest st1).map
        fun r => (r.1, (speedMeasurement inp (st.setADC adc)).toList ++ r.2)

/-- The invariant of the speed calibration before it is done: at most five measurements,
an even number of them while the servo settles at `min` or travels to `max`, an odd number
while it settles at `max` or travels to `min`. -/
def speedCalibInv (cal : ServoCalib) : Prop :=
  cal.state = .SS_C_CALIB_SPEED ∧ cal.done = false ∧ 0 ≤ cal.avg.numOf ∧ cal.avg.numOf ≤ 5 ∧
    cal.subState ≠ .SS_C_MID ∧
    (cal.avg.numOf % 2 = 0 ↔ (cal.subState = .SS_C_MIN ↔ cal.waitingServoToStop = true))

instance (cal : ServoCalib) : Decidable (speedCalibInv cal) := by
  unfold speedCalibInv
  infer_instance

/-- The sticks make none of the four selection gestures that `tailTuneModeServoSetup` tests
first: every condition of its "check mode select" chain is false. -/
def noSelectionGesture (inp : TickInput) : Prop :=
  ¬ (inp.pitchWithinDeadband = true ∧ inp.rcCommandRoll < -100) ∧
  ¬ (inp.rollWithinDeadband = true ∧ inp.rcCommandPitch > 100) ∧
  ¬ (inp.pitchWithinDeadband = true ∧ inp.rcCommandRoll > 100) ∧
  ¬ (inp.rollWithinDeadband = true ∧ inp.rcCommandPitch < -100)

instance (inp : TickInput) : Decidable (noSelectionGesture inp) := by
  unfold noSelectionGesture
  infer_instance

/-- `getPitchCorrectionMaxPhaseShift`, for `int16_t` arguments; the result is stored into a
`uint16_t`. -/
def getPitchCorrectionMaxPhaseShift (servoAngle servoSetpointAngle motorAccelerationDelayAngle
    motorDecelerationDelayAngle motorDirectionChangeAngle : Int) : Option Int :=
  if (servoAngle > servoSetpointAngle ∧
        servoAngle ≥ motorDirectionChangeAngle + motorAccelerationDelayAngle) ∨
      (servoAngle < servoSetpointAngle ∧
        servoAngle ≤ motorDirectionChangeAngle - motorAccelerationDelayAngle) then do
    let a ← ABS (servoAngle - motorDirectionChangeAngle)
    pure (toUint16 (if a ≥ motorDecelerationDelayAngle then motorDecelerationDelayAngle else a))
  else
    some (toUint16 motorAccelerationDelayAngle)

/-- The virtual servo estimator called `n` times with the same servo value, speed and tick
duration, each call on the angle returned by the previous one; undefined as soon as one call
is. -/
def runVirtualServo (tailServoMaxAngle servoSpeed : Int) (dT : ℚ) (servoConf : ServoParam)
    (servoValue : Int) : Nat → Int → Option Int
  | 0, currentAngle => some currentAngle
  | n + 1, currentAngle =>
    (virtualServoStep tailServoMaxAngle currentAngle servoSpeed dT servoConf servoValue).bind
      (runVirtualServo tailServoMaxAngle servoSpeed dT servoConf servoValue n)

/-- A sequence of calls of `tailTuneModeThrustTorque`, one for each tick input, oldest first,
together with the time of the latest tick that took the state from `TT_IDLE` to `TT_WAIT`
(the second argument until there is one); undefined as soon as one call is. -/
def runThrustTorque (ext : External) : List TickInput → State → Int → Option (State × Int)
  | [], st, entry => some (st, entry)
  | inp :: rest, st, entry =>
    (tailTuneModeThrustTorque ext inp inp.throttleHigh st).bind fun st1 =>
      runThrustTorque ext rest st1
        (if st.tailTune.tt.state = .TT_IDLE ∧ st1.tailTune.tt.state = .TT_WAIT then inp.now_ms
          else entry)

/-- The invariant of the sample count of the thrust/torque calibration: at most 500, and
in an active thrust/torque session 0 in `TT_WAIT`, below 500 in `TT_ACTIVE` and exactly 500
in `TT_WAIT_FOR_DISARM`. -/
def sampleCountInv (t : TailTune) : Prop :=
  0 ≤ t.tt.servoAvgAngle.numOf ∧ t.tt.servoAvgAngle.numOf ≤ 500 ∧
    (t.mode = .TT_MODE_THRUST_TORQUE →
      (t.tt.state = .TT_WAIT → t.tt.servoAvgAngle.numOf = 0) ∧
      (t.tt.state = .TT_ACTIVE → t.tt.servoAvgAngle.numOf ≤ 499) ∧
      (t.tt.state = .TT_WAIT_FOR_DISARM → t.tt.servoAvgAngle.numOf = 500))

instance (t : TailTune) : Decidable (sampleCountInv t) := by
  unfold sampleCountInv
  infer_instance

/-- A sequence of control ticks `triServoMixer`, each with its tick input and yaw command,
oldest first; undefined as soon as one tick is. -/
def runServoMixer (ext : External) : List (TickInput × Int) → State → Option State
  | [], st => some st
  | (inp, PIDoutput) :: rest, st =>
    (triServoMixer ext inp PIDoutput st).bind (runServoMixer ext rest)

/-- A stand-in for the math library in examples: `atanf` is the identity clamped to
`[-3/2, 3/2]`, inside the range of the arctangent; the other functions are not evaluated. -/
def sampleLibm : Libm :=
  { sqrtf := fun x => x, atanf := fun x => max (-3 / 2) (min (3 / 2) x),
    cosf := fun _ => 0, sinf := fun _ => 1, sin_approx := fun _ => 1, cos_approx := fun _ => 0,
    RAD := 3141593 / 180000000 }

/-- A servo configuration used in examples. -/
def sampleServoConf : ServoParam := { min := 1000, max := 2000, middle := 1500, angleAtMax := 40 }

/-- A sample curve used in examples: ten force units per table step, zero at the centre. -/
def rampCurve : Nat → Int := fun i => 10 * (i : Int) - 500


/-! ## Sample data -/

/-- The low-pass filter of examples: no smoothing, the output is the input. -/
def sampleExternal (m : Libm) : External :=
  { libm := m, pt1FilterApply4 := fun f input _ _ => ({ f with state := input }, input) }

/-- A tick input used in examples: armed, tune switch off, sticks centred, 1 ms tick. -/
def sampleInput : TickInput :=
  { now_ms := 0, dT := 1 / 1000, adcSample := 0, boxTailTune := false, armed := true,
    throttleHigh := false, rcCommandRoll := 0, rcCommandPitch := 0, rcCommandYaw := 0,
    rollWithinDeadband := true, pitchWithinDeadband := true, yawWithinDeadband := true,
    gyroADCYaw := 0, gyroScale := 1, motorTail := 1000, direction := 1, minthrottle := 1000,
    tri_dynamic_yaw_minthrottle := 150, tri_dynamic_yaw_maxthrottle := 100 }

/-- A module state used in examples: servo limits `1000/1500/2000`, max angle 40 degrees,
the ramp table with its `maxYawForce` of `400`, virtual feedback, no session. -/
def sampleState : State :=
  { tailTune :=
      { mode := .TT_MODE_NONE,
        tt := { state := .TT_IDLE, startBeepDelay_ms := 0, timestamp_ms := 0, timestamp2_ms := 0,
                lastAdjTime_ms := 0, servoAvgAngle := { sum := 0, numOf := 0 },
                tailTuneGyroLimit := 0 },
        ss := { state := .SS_IDLE, servoVal := 0, pLimitToAdjust := none,
                cal := { done := false, waitingServoToStop := false, state := .SS_C_IDLE,
                         subState := .SS_C_MIN, timestamp_ms := 0,
                         avg := { pCalibConfig := none, sum := 0, numOf := 0 } } } },
    tailServo := { maxYawForce := 400, thrustFactor := 138 / 10, maxAngle := 400, speed := 300,
                   angle := 900, ADC := 0 },
    yawForceCurve := rampCurve,
    tailMotor := { pitchZeroAngle := 0, accelerationDelay_ms := 30, decelerationDelay_ms := 100,
                   accelerationDelay_angle := 90, decelerationDelay_angle := 300,
                   virtualFeedBack := 1000 },
    throttleRange := 1000,
    motorAcceleration := 5000,
    tailServoConf := sampleServoConf,
    tailServoValue := 1500,
    mixerConfig := { tri_tail_motor_thrustfactor := 138, tri_tail_servo_speed := 300,
                     tri_motor_acceleration := 1 / 5, tri_servo_feedback := 0,
                     tri_servo_min_adc := 0, tri_servo_mid_adc := 0, tri_servo_max_adc := 0,
                     tri_unarmed_servo := 1, tri_motor_acc_yaw_correction := 6 },
    servoConf6 := { min := 0, max := 0, middle := 0, angleAtMax := 0 },
    preventArming := false,
    tailTuneFlightMode := false,
    feedbackFilter := { state := 0, RC := 0, dT := 0 },
    current := 1000,
    motorFilter := { state := 0, RC := 0, dT := 0 },
    previousMotorSpeed := 1000,
    events := [] }

/-- A tick input used in examples: disarmed, tune switch on, the roll stick held left (the
gesture that selects the `min` limit). -/
def gestureMinInput : TickInput :=
  { sampleInput with boxTailTune := true, armed := false, rollWithinDeadband := false,
                     rcCommandRoll := -500 }

/-- A tick input used in examples: disarmed, tune switch off, sticks centred. -/
def switchOffInput : TickInput := { sampleInput with armed := false }

/-- A tick input used in examples: disarmed, tune switch on, sticks centred. -/
def switchOnInput : TickInput := { sampleInput with armed := false, boxTailTune := true }

/-- A tick input used in examples: disarmed, tune switch on, roll and pitch centred, the yaw
stick deflected to 500. -/
def yawTrimInput : TickInput :=
  { sampleInput with armed := false, boxTailTune := true, yawWithinDeadband := false,
                     rcCommandYaw := 500 }

/-- A tick input used in examples: disarmed, tune switch on, the pitch stick held back (the
gesture that starts the feedback calibration). -/
def gestureCalibInput : TickInput :=
  { sampleInput with boxTailTune := true, armed := false, pitchWithinDeadband := false,
                     rcCommandPitch := -500 }

/-- A module state used in examples: the sample state with a feedback reading of 1234. -/
def feedbackState : State :=
  { sampleState with tailServo := { sampleState.tailServo with ADC := 1234 } }

/-- A stand-in for the math library in examples: the approximations are the binary32 values
of the Taylor polynomials `x - x^3/6` and `1 - x^2/2 + x^4/24`, `RAD` is the binary32 value of
`3.141593 / 180`; the other functions are those of `sampleLibm`. -/
def taylorLibm : Libm :=
  { sampleLibm with sin_approx := fun x => f32 (x - x ^ 3 / 6),
                    cos_approx := fun x => f32 (1 - x ^ 2 / 2 + x ^ 4 / 24),
                    RAD := f32 (3141593 / 180000000) }

/-- A module state used in examples: the sample state in a thrust/torque session that waits
for the disarm, with the given angle sum and number of samples. -/
def waitForDisarmState (sum numOf : Int) : State :=
  { sampleState with
    tailTuneFlightMode := true,
    tailTune := { sampleState.tailTune with
      mode := .TT_MODE_THRUST_TORQUE,
      tt := { sampleState.tailTune.tt with state := .TT_WAIT_FOR_DISARM,
                                           servoAvgAngle := { sum := sum, numOf := numOf },
                                           tailTuneGyroLimit := 7 / 2 } } }

/-- A module state used in examples: the sample state in a servo setup session whose feedback
calibration has just finished the `max` stop, with ADC references `1000/2000/3000`. -/
def maxStopDoneState : State :=
  { sampleState with
    preventArming := true,
    tailTuneFlightMode := true,
    mixerConfig := { sampleState.mixerConfig with tri_servo_feedback := 1,
                                                  tri_servo_min_adc := 1000,
                                                  tri_servo_mid_adc := 2000,
                                                  tri_servo_max_adc := 3000 },
    tailTune := { sampleState.tailTune with
      mode := .TT_MODE_SERVO_SETUP,
      ss := { state := .SS_CALIB, servoVal := 2000, pLimitToAdjust := none,
              cal := { done := true, waitingServoToStop := false,
                       state := .SS_C_CALIB_MIN_MID_MAX, subState := .SS_C_MAX,
                       timestamp_ms := 0,
                       avg := { pCalibConfig := some .tri_servo_max_adc, sum := 30000,
                                numOf := 10 } } } } }

/-- A tick of a feedback trace used in examples: sticks centred, tune switch on, disarmed, at
the given time and with the given feedback reading. -/
def traceTick (now_ms adc : Int) : TickInput × Int := ({ switchOnInput with now_ms := now_ms }, adc)

/-- A feedback trace used in examples: the servo settles at `min`, then travels five times in
100 ms and a sixth time in 160 ms between the ends, resting 200 ms at each end. -/
def speedCalibTrace : List (TickInput × Int) :=
  [traceTick 200 1000, traceTick 300 3000, traceTick 500 3000, traceTick 600 1000,
   traceTick 800 1000, traceTick 900 3000, traceTick 1100 3000, traceTick 1200 1000,
   traceTick 1400 1000, traceTick 1500 3000, traceTick 1700 3000, traceTick 1860 1000]

/-- A module state used in examples: a servo setup session whose feedback calibration has
just finished the `mid` stop, with `min` ADC reference 1000 and the given `mid` reference. -/
def midStopDoneState (mid_adc : Int) : State :=
  { maxStopDoneState with
      mixerConfig := { maxStopDoneState.mixerConfig with tri_servo_mid_adc := mid_adc } }.setSS
    { maxStopDoneState.tailTune.ss with
      cal := { maxStopDoneState.tailTune.ss.cal with subState := .SS_C_MID } }

/-- A mixer configuration used in examples: that of the sample state with a configured thrust
factor of `-10`. -/
def negativeThrustConfig : MixerConfig :=
  { sampleState.mixerConfig with tri_tail_motor_thrustfactor := -10 }

/-- A module state used in examples: the sample state in a servo setup session with the `min`
limit selected, as left by the gesture tick `gestureMinInput`. -/
def trimState : State :=
  { sampleState with
    preventArming := true,
    tailTuneFlightMode := true,
    tailTune := { sampleState.tailTune with
      mode := .TT_MODE_SERVO_SETUP,
      ss := { state := .SS_SETUP, servoVal := 1000, pLimitToAdjust := some .min,
              cal := sampleState.tailTune.ss.cal } } }

/-- A sample curve used in examples that is not monotonic: the ramp with the sample at
index 50 lowered to `-100`. -/
def dentCurve : Nat → Int := fun i => if i = 50 then -100 else 10 * (i : Int) - 500

/-- A tick input used in examples: armed, tune switch on, throttle high, sticks centred, at
the given time. -/
def throttleUpInput (now_ms : Int) : TickInput :=
  { sampleInput with boxTailTune := true, throttleHigh := true, now_ms := now_ms }

/-- A control tick used in examples: disarmed, tune switch on, sticks centred, yaw command 0,
at the given time and with the given sample of the feedback ADC channel. -/
def feedbackTick (now_ms adc : Int) : TickInput × Int :=
  ({ switchOnInput with now_ms := now_ms, adcSample := adc }, 0)

/-- A calibration session used in examples: the calibration gesture, then the three stops at
feedback readings 1000, 2000 and 3000, then the speed calibration, in which the servo
travels five times in 100 ms and a sixth time in 160 ms between the ends. -/
def calibrationSession : List (TickInput × Int) :=
  [({ gestureCalibInput with adcSample := 1000 }, 0),
   feedbackTick 550 1000, feedbackTick 650 1000, feedbackTick 700 1000,
   feedbackTick 1250 2000, feedbackTick 1350 2000, feedbackTick 1400 2000,
   feedbackTick 1950 3000, feedbackTick 2050 3000, feedbackTick 2100 3000,
   feedbackTick 2300 1000, feedbackTick 2400 3000, feedbackTick 2600 3000,
   feedbackTick 2700 1000, feedbackTick 2900 1000, feedbackTick 3000 3000,
   feedbackTick 3200 3000, feedbackTick 3300 1000, feedbackTick 3500 1000,
   feedbackTick 3600 3000, feedbackTick 3800 3000, feedbackTick 3960 1000]

/-- A tick input used in examples: `yawTrimInput` with the tick duration `0.001f`. -/
def yawTrimTick : TickInput := { yawTrimInput with dT := f32 (1 / 1000) }

/-- A tick input used in examples: `throttleUpInput` with a yaw rate reading of 100, above
every gyro limit of the thrust/torque calibration. -/
def unstableGyroInput (now_ms : Int) : TickInput :=
  { throttleUpInput now_ms with gyroADCYaw := 100 }

/-- The gyro limit after three relaxations of the initial `3.5f` by `0.1f`. -/
def relaxedGyroLimit : ℚ := f32 (f32 (f32 (7 / 2 + f32 (1 / 10)) + f32 (1 / 10)) + f32 (1 / 10))

/-- A module state used in examples: `waitForDisarmState 650000 500` with the gyro limit
`relaxedGyroLimit`. -/
def relaxedDisarmState : State :=
  (waitForDisarmState 650000 500).setTT
    { (waitForDisarmState 650000 500).tailTune.tt with tailTuneGyroLimit := relaxedGyroLimit }

/-! # Theorems -/

/-! ## Integer helper lemmas -/

theorem i32_of_bounds {x : Int} (h1 : -2147483648 ≤ x) (h2 : x ≤ 2147483647) : i32 x = some x := by
  unfold i32
  rw [if_pos ⟨h1, h2⟩]

theorem toUint16_of_bounds {x : Int} (h1 : 0 ≤ x) (h2 : x < 65536) : toUint16 x = x := by
  unfold toUint16
  exact Int.emod_eq_of_lt h1 h2

theorem toInt16_of_bounds {x : Int} (h1 : -32768 ≤ x) (h2 : x < 32768) : toInt16 x = x := by
  unfold toInt16
  rw [Int.emod_eq_of_lt (by omega) (by omega)]
  omega

theorem divI32_of_pos {a b : Int} (ha : 0 ≤ a) (ha2 : a ≤ 2147483647) (hb : 0 < b) :
    divI32 a b = some (a / b) := by
  unfold divI32
  rw [if_neg (by omega), Int.tdiv_eq_ediv ha (le_of_lt hb)]
  have h1 : 0 ≤ a / b := Int.ediv_nonneg ha (le_of_lt hb)
  have h2 : a / b ≤ a := Int.ediv_le_self b ha
  exact i32_of_bounds (by omega) (by omega)

theorem toUint16_range (x : Int) : 0 ≤ toUint16 x ∧ toUint16 x ≤ 65535 := by
  unfold toUint16
  omega

theorem truncQ_intCast (z : Int) : truncQ (z : ℚ) = z := by
  unfold truncQ
  simp

theorem floatToInt16_intCast (z : Int) (h1 : -32768 ≤ z) (h2 : z ≤ 32767) :
    floatToInt16 (z : ℚ) = some z := by
  unfold floatToInt16
  rw [truncQ_intCast, if_pos ⟨h1, h2⟩]

/-- Truncating division by a positive divisor stays between the dividend and zero. -/
theorem tdiv_bounds (a b lo hi : Int) (hb : 0 < b) (hlo : lo ≤ a) (hhi : a ≤ hi)
    (h0 : lo ≤ 0) (h1 : 0 ≤ hi) : lo ≤ Int.tdiv a b ∧ Int.tdiv a b ≤ hi := by
  rcases le_or_lt 0 a with h | h
  · rw [Int.tdiv_eq_ediv h (le_of_lt hb)]
    have := Int.ediv_nonneg h (le_of_lt hb)
    have := Int.ediv_le_self b h
    omega
  · have he : a = -(-a) := by ring
    rw [he, Int.neg_tdiv, Int.tdiv_eq_ediv (by omega) (le_of_lt hb)]
    have := Int.ediv_nonneg (show 0 ≤ -a by omega) (le_of_lt hb)
    have := Int.ediv_le_self b (show 0 ≤ -a by omega)
    omega

/-- A product of a bounded non-negative factor and a bounded factor is bounded. -/
theorem mul_bounds (d w D W : Int) (hd0 : 0 ≤ d) (hd : d ≤ D) (hw1 : -W ≤ w) (hw2 : w ≤ W) :
    -(D * W) ≤ d * w ∧ d * w ≤ D * W := by
  have hW : 0 ≤ W := by omega
  constructor
  · nlinarith [mul_nonneg hd0 (show 0 ≤ w + W by omega), mul_nonneg (show 0 ≤ D - d by omega) hW]
  · nlinarith [mul_nonneg hd0 (show 0 ≤ W - w by omega), mul_nonneg (show 0 ≤ D - d by omega) hW]

/-! ## Binary32 rounding -/

theorem log2Fuel_spec : ∀ (fuel n : Nat), n ≤ fuel → n ≠ 0 →
    2 ^ log2Fuel fuel n ≤ n ∧ n < 2 ^ (log2Fuel fuel n + 1) := by
  intro fuel
  induction fuel with
  | zero =>
    intro n h0 h1
    omega
  | succ fuel ih =>
    intro n h0 h1
    unfold log2Fuel
    by_cases h2 : 2 ≤ n
    · rw [if_pos h2]
      obtain ⟨a, b⟩ := ih (n / 2) (by omega) (by omega)
      rw [pow_succ] at b
      rw [pow_succ, pow_succ, pow_succ]
      constructor <;> omega
    · rw [if_neg h2]
      have : n = 1 := by omega
      subst this
      decide

/-- The halvings of `log2` are not cut short: `log2 n` is the position of the leading binary
digit of `n`. -/
theorem log2_spec (n : Nat) (h : n ≠ 0) : 2 ^ log2 n ≤ n ∧ n < 2 ^ (log2 n + 1) :=
  log2Fuel_spec n n (le_refl n) h

/-- Values of the rounding: `0.1f`, `0.001f` and `0.0025f`; integers up to `2 ^ 24` are
binary32 values, the tie `2 ^ 24 + 1` goes to the even neighbour and `2 ^ 24 + 3` to
`2 ^ 24 + 4`; below the normal range the spacing stays `2 ^ -149`; the rounding is odd. -/
theorem f32_values :
    f32 (1 / 10) = 13421773 / 134217728 ∧
    f32 (1 / 1000) = 8589935 / 8589934592 ∧
    f32 (1 / 400) = 5368709 / 2147483648 ∧
    f32 0 = 0 ∧ f32 1 = 1 ∧ f32 (7 / 2) = 7 / 2 ∧ f32 (181 / 2) = 181 / 2 ∧
    f32 32767 = 32767 ∧ f32 (-32768) = -32768 ∧
    f32 16777216 = 16777216 ∧ f32 16777217 = 16777216 ∧ f32 16777219 = 16777220 ∧
    f32 (-16777219) = -16777220 ∧
    f32 (1 / 2 ^ 149) = 1 / 2 ^ 149 ∧ f32 (1 / 2 ^ 150) = 0 ∧ f32 (3 / 2 ^ 150) = 1 / 2 ^ 148 := by
  decide!

/-! ## The table search -/

/-- The loop keeps the bracket `curve[lower] <= force < curve[higher]` and, given at least
`higher - lower - 1` iterations, ends with adjacent indices. -/
theorem binarySearch_adjacent (curve : Nat → Int) (force : Int) :
    ∀ (n lower higher : Nat), lower < higher → higher ≤ lower + n + 1 →
      curve lower ≤ force → force < curve higher →
      (binarySearch curve force n lower higher).2 = (binarySearch curve force n lower higher).1 + 1 ∧
      lower ≤ (binarySearch curve force n lower higher).1 ∧
      (binarySearch curve force n lower higher).2 ≤ higher ∧
      curve (binarySearch curve force n lower higher).1 ≤ force ∧
      force < curve (binarySearch curve force n lower higher).2 := by
  intro n
  induction n with
  | zero =>
    intro lower higher hlt hw hl hh
    have : higher = lower + 1 := by omega
    subst this
    simp [binarySearch, hl, hh]
  | succ n ih =>
    intro lower higher hlt hw hl hh
    unfold binarySearch
    by_cases hgt : higher > lower + 1
    · rw [if_pos hgt]
      have hm1 : lower < (lower + higher) / 2 := by omega
      have hm2 : (lower + higher) / 2 < higher := by omega
      by_cases hc : curve ((lower + higher) / 2) > force
      · simp only [hc, if_true]
        have h := ih lower ((lower + higher) / 2) hm1 (by omega) hl hc
        refine ⟨h.1, h.2.1, by omega, h.2.2.2.1, h.2.2.2.2⟩
      · simp only [hc, if_false]
        have h := ih ((lower + higher) / 2) higher hm2 (by omega) (by omega) hh
        refine ⟨h.1, by omega, h.2.2.1, h.2.2.2.1, h.2.2.2.2⟩
    · rw [if_neg hgt]
      have : higher = lower + 1 := by omega
      subst this
      simp [hl, hh]

/-- The interpolation on an adjacent bracket, when the two `int` intermediate results
(the bracket width and ten times the offset) are representable. -/
theorem interpolate_adjacent (curve : Nat → Int) (force : Int) (l : Nat) (hl : l ≤ 98)
    (hd : curve (l + 1) - curve l ≤ 2147483647) (hn : (force - curve l) * 10 ≤ 2147483647)
    (h1 : curve l ≤ force) (h2 : force < curve (l + 1)) :
    interpolate curve force l (l + 1)
      = some (400 + 10 * (l : Int) + (force - curve l) * 10 / (curve (l + 1) - curve l)) ∧
    0 ≤ (force - curve l) * 10 / (curve (l + 1) - curve l) ∧
    (force - curve l) * 10 / (curve (l + 1) - curve l) ≤ 9 := by
  have hden : 0 < curve (l + 1) - curve l := by omega
  have hq0 : 0 ≤ (force - curve l) * 10 / (curve (l + 1) - curve l) :=
    Int.ediv_nonneg (by omega) (le_of_lt hden)
  have hq9 : (force - curve l) * 10 / (curve (l + 1) - curve l) < 10 :=
    Int.ediv_lt_of_lt_mul hden (by omega)
  refine ⟨?_, hq0, by omega⟩
  unfold interpolate
  rw [i32_of_bounds (by omega) (by omega)]
  simp only [Option.bind_eq_bind, Option.some_bind]
  rw [i32_of_bounds (by omega) (by omega)]
  simp only [Option.some_bind]
  rw [i32_of_bounds (by omega) (by omega)]
  simp only [Option.some_bind]
  rw [divI32_of_pos (by omega) (by omega) hden]
  simp only [Option.some_bind, TRI_TAIL_SERVO_ANGLE_MID, TRI_TAIL_SERVO_MAX_ANGLE]
  rw [i32_of_bounds (by omega) (by omega)]
  simp only [Option.some_bind, pure]
  rw [toUint16_of_bounds (by omega) (by omega)]
  congr 1
  omega

theorem getAngle_below (curve : Nat → Int) (force : Int) (h : force < curve 0) :
    getAngleFromYawForceCurve curve force = some 400 := by
  unfold getAngleFromYawForceCurve
  rw [if_pos h]
  rfl

theorem getAngle_above (curve : Nat → Int) (force : Int) (h0 : curve 0 ≤ force)
    (h : curve 99 ≤ force) : getAngleFromYawForceCurve curve force = some 1400 := by
  unfold getAngleFromYawForceCurve
  rw [if_neg (by omega)]
  simp only [TRI_YAW_FORCE_CURVE_SIZE]
  rw [if_pos (by simp; exact h)]
  rfl

/-- Inside the table the binary search ends on an adjacent bracket around `force`. -/
theorem getAngle_bracket (curve : Nat → Int) (force : Int)
    (h0 : curve 0 ≤ force) (h99 : force < curve 99) :
    ∃ l : Nat, l ≤ 98 ∧ curve l ≤ force ∧ force < curve (l + 1) ∧
      getAngleFromYawForceCurve curve force = interpolate curve force l (l + 1) := by
  have hs := binarySearch_adjacent curve force 99 0 99 (by omega) (by omega) h0 h99
  obtain ⟨ha, _, hle, hlo, hhi⟩ := hs
  refine ⟨(binarySearch curve force 99 0 99).1, by omega, hlo, ?_, ?_⟩
  · rw [← ha]; exact hhi
  · unfold getAngleFromYawForceCurve
    rw [if_neg (by omega)]
    simp only [TRI_YAW_FORCE_CURVE_SIZE]
    rw [if_neg (by simp; exact h99)]
    show interpolate curve force (binarySearch curve force 99 0 99).1
      (binarySearch curve force 99 0 99).2 = _
    rw [ha]

/-- Inside the table the lookup returns the interpolated angle of an adjacent bracket. -/
theorem getAngle_interior (curve : Nat → Int) (force : Int)
    (hb : ∀ i, i < 100 → -107374182 ≤ curve i ∧ curve i ≤ 107374182)
    (h0 : curve 0 ≤ force) (h99 : force < curve 99) :
    ∃ l : Nat, l ≤ 98 ∧ curve l ≤ force ∧ force < curve (l + 1) ∧
      getAngleFromYawForceCurve curve force
        = some (400 + 10 * (l : Int) + (force - curve l) * 10 / (curve (l + 1) - curve l)) ∧
      0 ≤ (force - curve l) * 10 / (curve (l + 1) - curve l) ∧
      (force - curve l) * 10 / (curve (l + 1) - curve l) ≤ 9 := by
  obtain ⟨l, hl, hlo, hhi, he⟩ := getAngle_bracket curve force h0 h99
  have b1 := hb l (by omega)
  have b2 := hb (l + 1) (by omega)
  have hi := interpolate_adjacent curve force l hl (by omega) (by omega) hlo hhi
  exact ⟨l, hl, hlo, hhi, by rw [he]; exact hi.1, hi.2.1, hi.2.2⟩

/-- The lookup is defined for every force and its result is in `[400, 1400]`. -/
theorem getAngle_range (curve : Nat → Int) (force : Int)
    (hb : ∀ i, i < 100 → -107374182 ≤ curve i ∧ curve i ≤ 107374182) :
    ∃ a, getAngleFromYawForceCurve curve force = some a ∧ 400 ≤ a ∧ a ≤ 1400 := by
  by_cases h0 : force < curve 0
  · exact ⟨400, getAngle_below curve force h0, by omega, by omega⟩
  · by_cases h99 : curve 99 ≤ force
    · exact ⟨1400, getAngle_above curve force (by omega) h99, by omega, by omega⟩
    · obtain ⟨l, hl, _, _, he, hq0, hq9⟩ := getAngle_interior curve force hb (by omega) (by omega)
      exact ⟨_, he, by omega, by omega⟩

/-- On a non-decreasing table the lookup is non-decreasing in the force. -/
theorem getAngle_mono (curve : Nat → Int)
    (hb : ∀ i, i < 100 → -107374182 ≤ curve i ∧ curve i ≤ 107374182)
    (hmono : ∀ i j, i ≤ j → j < 100 → curve i ≤ curve j)
    (f1 f2 : Int) (hf : f1 ≤ f2) :
    ∃ a1 a2, getAngleFromYawForceCurve curve f1 = some a1 ∧
      getAngleFromYawForceCurve curve f2 = some a2 ∧ a1 ≤ a2 := by
  have hc := hmono 0 99 (by omega) (by omega)
  by_cases h1 : f1 < curve 0
  · obtain ⟨a2, he2, hlo, _⟩ := getAngle_range curve f2 hb
    exact ⟨400, a2, getAngle_below curve f1 h1, he2, hlo⟩
  · by_cases h2 : curve 99 ≤ f2
    · obtain ⟨a1, he1, _, hhi⟩ := getAngle_range curve f1 hb
      exact ⟨a1, 1400, he1, getAngle_above curve f2 (by omega) h2, hhi⟩
    · obtain ⟨l1, hl1, hlo1, hhi1, he1, hq10, hq19⟩ :=
        getAngle_interior curve f1 hb (by omega) (by omega)
      obtain ⟨l2, hl2, hlo2, hhi2, he2, hq20, hq29⟩ :=
        getAngle_interior curve f2 hb (by omega) (by omega)
      refine ⟨_, _, he1, he2, ?_⟩
      have hle : l1 ≤ l2 := by
        by_contra hcon
        have := hmono (l2 + 1) l1 (by omega) (by omega)
        omega
      rcases Nat.lt_or_eq_of_le hle with hlt | heq
      · omega
      · subst heq
        have hden : 0 < curve (l1 + 1) - curve l1 := by omega
        have := Int.ediv_le_ediv hden (show (f1 - curve l1) * 10 ≤ (f2 - curve l1) * 10 by omega)
        omega

/-- On a strictly increasing table the force of sample `i` is looked up at bracket `i`. -/
theorem getAngle_at_sample (curve : Nat → Int)
    (hb : ∀ i, i < 100 → -1073741824 ≤ curve i ∧ curve i ≤ 1073741823)
    (hmono : ∀ i j, i < j → j < 100 → curve i < curve j)
    (i : Nat) (hi : i ≤ 98) :
    getAngleFromYawForceCurve curve (curve i) = some (400 + 10 * (i : Int)) := by
  have h0 : curve 0 ≤ curve i := by
    rcases Nat.eq_zero_or_pos i with h | h
    · subst h; exact le_refl _
    · exact le_of_lt (hmono 0 i h (by omega))
  have h99 : curve i < curve 99 := hmono i 99 (by omega) (by omega)
  obtain ⟨l, hl, hlo, hhi, he⟩ := getAngle_bracket curve (curve i) h0 h99
  have hli : l = i := by
    by_contra hne
    rcases Nat.lt_or_gt_of_ne hne with hlt | hgt
    · rcases Nat.lt_or_eq_of_le (show l + 1 ≤ i by omega) with h | h
      · have := hmono (l + 1) i h (by omega)
        omega
      · rw [h] at hhi; omega
    · have := hmono i l hgt (by omega)
      omega
  subst hli
  have b1 := hb l (by omega)
  have b2 := hb (l + 1) (by omega)
  have hint := interpolate_adjacent curve (curve l) l hl (by omega) (by omega) hlo hhi
  rw [he, hint.1]
  simp

/-! ## The force curve accumulation -/

/-- Invariant of the `for` loop of `initYawForceCurve`: the loop angle, the samples stored so
far, and the two running extremes over the samples inside `[minAngle, maxAngle]`. -/
theorem initYawForceCurveLoop_spec (force : Int → Int) (minAngle maxAngle : Int)
    (old : Nat → Int) :
    ∀ i : Nat, i ≤ 100 →
      (initYawForceCurveLoop force minAngle maxAngle old i).angle = 400 + 10 * (i : Int) ∧
      (∀ j, j < i → (initYawForceCurveLoop force minAngle maxAngle old i).yawForceCurve j
          = force (400 + 10 * (j : Int))) ∧
      (initYawForceCurveLoop force minAngle maxAngle old i).maxNegForce ≤ 0 ∧
      0 ≤ (initYawForceCurveLoop force minAngle maxAngle old i).maxPosForce ∧
      (∀ j, j < i → minAngle ≤ 400 + 10 * (j : Int) → 400 + 10 * (j : Int) ≤ maxAngle →
          (initYawForceCurveLoop force minAngle maxAngle old i).maxNegForce
            ≤ force (400 + 10 * (j : Int)) ∧
          force (400 + 10 * (j : Int))
            ≤ (initYawForceCurveLoop force minAngle maxAngle old i).maxPosForce) ∧
      ((initYawForceCurveLoop force minAngle maxAngle old i).maxNegForce = 0 ∨
        ∃ j, j < i ∧ minAngle ≤ 400 + 10 * (j : Int) ∧ 400 + 10 * (j : Int) ≤ maxAngle ∧
          force (400 + 10 * (j : Int))
            = (initYawForceCurveLoop force minAngle maxAngle old i).maxNegForce) ∧
      ((initYawForceCurveLoop force minAngle maxAngle old i).maxPosForce = 0 ∨
        ∃ j, j < i ∧ minAngle ≤ 400 + 10 * (j : Int) ∧ 400 + 10 * (j : Int) ≤ maxAngle ∧
          force (400 + 10 * (j : Int))
            = (initYawForceCurveLoop force minAngle maxAngle old i).maxPosForce) := by
  intro i
  induction i with
  | zero =>
    intro _
    simp [initYawForceCurveLoop, TRI_TAIL_SERVO_ANGLE_MID, TRI_TAIL_SERVO_MAX_ANGLE, toInt16]
  | succ n ih =>
    intro hn
    obtain ⟨hang, hcurve, hneg, hpos, hbnd, hexn, hexp⟩ := ih (by omega)
    generalize hst : initYawForceCurveLoop force minAngle maxAngle old n = st at *
    have hstep : initYawForceCurveLoop force minAngle maxAngle old (n + 1) =
        { angle := toInt16 (st.angle + 10),
          maxNegForce := if decide (st.angle ≥ minAngle ∧ st.angle ≤ maxAngle) = true
            then MIN (Function.update st.yawForceCurve n (force st.angle) n) st.maxNegForce
            else st.maxNegForce,
          maxPosForce := if decide (st.angle ≥ minAngle ∧ st.angle ≤ maxAngle) = true
            then MAX (Function.update st.yawForceCurve n (force st.angle) n) st.maxPosForce
            else st.maxPosForce,
          yawForceCurve := Function.update st.yawForceCurve n (force st.angle) } := by
      rw [← hst]; rfl
    rw [hstep]
    simp only [Function.update_same, decide_eq_true_eq, hang]
    refine ⟨?_, ?_, ?_, ?_, ?_, ?_, ?_⟩
    · rw [toInt16_of_bounds (by omega) (by omega)]; push_cast; ring
    · intro j hj
      by_cases hjn : j = n
      · subst hjn; simp
      · rw [Function.update_noteq hjn]; exact hcurve j (by omega)
    · split
      · unfold MIN; split <;> omega
      · exact hneg
    · split
      · unfold MAX; split <;> omega
      · exact hpos
    · intro j hj h1 h2
      by_cases hjn : j = n
      · subst hjn
        rw [if_pos ⟨h1, h2⟩, if_pos ⟨h1, h2⟩]
        unfold MIN MAX
        constructor <;> split <;> omega
      · have := hbnd j (by omega) h1 h2
        constructor
        · split
          · unfold MIN; split <;> omega
          · exact this.1
        · split
          · unfold MAX; split <;> omega
          · exact this.2
    · split
      · rename_i hin
        unfold MIN
        split
        · exact Or.inr ⟨n, by omega, hin.1, hin.2, rfl⟩
        · rcases hexn with h | ⟨j, hj, h1, h2, h3⟩
          · exact Or.inl h
          · exact Or.inr ⟨j, by omega, h1, h2, h3⟩
      · rcases hexn with h | ⟨j, hj, h1, h2, h3⟩
        · exact Or.inl h
        · exact Or.inr ⟨j, by omega, h1, h2, h3⟩
    · split
      · rename_i hin
        unfold MAX
        split
        · exact Or.inr ⟨n, by omega, hin.1, hin.2, rfl⟩
        · rcases hexp with h | ⟨j, hj, h1, h2, h3⟩
          · exact Or.inl h
          · exact Or.inr ⟨j, by omega, h1, h2, h3⟩
      · rcases hexp with h | ⟨j, hj, h1, h2, h3⟩
        · exact Or.inl h
        · exact Or.inr ⟨j, by omega, h1, h2, h3⟩

theorem MIN_eq_min (a b : Int) : MIN a b = min a b := by
  unfold MIN
  split
  · rw [min_eq_left (by omega)]
  · rw [min_eq_right (by omega)]

/-- The table and `maxYawForce` built by `initYawForceCurve`, in terms of the loop result,
when the limits `900 ± maxAngle` fit an `int16_t` and no sample is `INT32_MIN`. -/
theorem initYawForceCurveTable_eq (force : Int → Int) (maxAngle : Int) (old : Nat → Int)
    (hM1 : -31867 ≤ maxAngle) (hM2 : maxAngle ≤ 31867)
    (hs : ∀ j : Nat, j < 100 → -2147483647 ≤ force (400 + 10 * (j : Int))) :
    initYawForceCurveTable force maxAngle old
      = some ((initYawForceCurveLoop force (900 - maxAngle) (900 + maxAngle) old 100).yawForceCurve,
          min (-(initYawForceCurveLoop force (900 - maxAngle) (900 + maxAngle) old 100).maxNegForce)
            (initYawForceCurveLoop force (900 - maxAngle) (900 + maxAngle) old 100).maxPosForce) := by
  obtain ⟨_, _, hneg, hpos, _, hexn, _⟩ :=
    initYawForceCurveLoop_spec force (900 - maxAngle) (900 + maxAngle) old 100 (le_refl _)
  unfold initYawForceCurveTable
  simp only [TRI_TAIL_SERVO_ANGLE_MID, TRI_YAW_FORCE_CURVE_SIZE]
  rw [toInt16_of_bounds (by omega) (by omega), toInt16_of_bounds (by omega) (by omega)]
  generalize initYawForceCurveLoop force (900 - maxAngle) (900 + maxAngle) old 100 = st at *
  have hlow : -2147483647 ≤ st.maxNegForce := by
    rcases hexn with h | ⟨j, hj, _, _, h3⟩
    · omega
    · rw [← h3]; exact hs j hj
  have h1 : ABS st.maxNegForce = some (-st.maxNegForce) := by
    unfold ABS
    rw [if_neg (by omega)]
    exact i32_of_bounds (by omega) (by omega)
  have h2 : ABS st.maxPosForce = some st.maxPosForce := by
    unfold ABS
    split
    · rfl
    · have : st.maxPosForce = 0 := by omega
      rw [this]; rfl
  rw [h1, h2]
  simp only [Option.bind_eq_bind, Option.some_bind, pure, MIN_eq_min]

/-- Bounds of the truncating division by the force precision. -/
theorem tdiv_scale_bound (F c : Int) (hF : 0 ≤ F) (hc1 : -1000 ≤ c) (hc2 : c ≤ 1000) :
    -F ≤ Int.tdiv (F * c) 1000 ∧ Int.tdiv (F * c) 1000 ≤ F := by
  rcases le_or_lt 0 c with h | h
  · have hp : 0 ≤ F * c := Int.mul_nonneg hF h
    rw [Int.tdiv_eq_ediv hp (by omega)]
    have h1 : 0 ≤ F * c / 1000 := Int.ediv_nonneg hp (by omega)
    have h2 : F * c ≤ F * 1000 := Int.mul_le_mul_of_nonneg_left hc2 hF
    have h3 : F * c / 1000 ≤ F * 1000 / 1000 := Int.ediv_le_ediv (by omega) h2
    rw [Int.mul_ediv_cancel F (by omega)] at h3
    omega
  · have hp : 0 ≤ F * (-c) := Int.mul_nonneg hF (by omega)
    have he : F * c = -(F * (-c)) := by ring
    rw [he, Int.neg_tdiv, Int.tdiv_eq_ediv hp (by omega)]
    have h1 : 0 ≤ F * (-c) / 1000 := Int.ediv_nonneg hp (by omega)
    have h2 : F * (-c) ≤ F * 1000 := Int.mul_le_mul_of_nonneg_left (by omega) hF
    have h3 : F * (-c) / 1000 ≤ F * 1000 / 1000 := Int.ediv_le_ediv (by omega) h2
    rw [Int.mul_ediv_cancel F (by omega)] at h3
    omega

/-- The scaled force of linear mode is defined and within `[-maxYawForce, maxYawForce]`. -/
theorem linearYawForceAtValue_bound (F c : Int) (hF : 0 ≤ F) (hF2 : F ≤ 2147483)
    (hc1 : -1000 ≤ c) (hc2 : c ≤ 1000) :
    linearYawForceAtValue F c = some (Int.tdiv (F * c) 1000) ∧
      -F ≤ Int.tdiv (F * c) 1000 ∧ Int.tdiv (F * c) 1000 ≤ F := by
  have hb := tdiv_scale_bound F c hF hc1 hc2
  refine ⟨?_, hb⟩
  have h1 : -2147483000 ≤ F * c := by nlinarith
  have h2 : F * c ≤ 2147483000 := by nlinarith
  unfold linearYawForceAtValue
  rw [i32_of_bounds (by omega) (by omega)]
  simp only [Option.bind_eq_bind, Option.some_bind, divI32, TRI_YAW_FORCE_PRECISION]
  rw [if_neg (by omega)]
  exact i32_of_bounds (by omega) (by omega)

/-! ## Claims on the force curve -/

/-- C1, as stated, fails: the saturation angles are the ends of the table (`400` and
`1400` deci-degrees), not `900 ∓ maxAngle`.  With a configured max angle of `200` the claim
asks for `700` below the first sample and `1100` at the last sample. -/
theorem getAngleFromYawForceCurve_saturation_counterexample :
    (-501 : Int) < rampCurve 0 ∧
    getAngleFromYawForceCurve rampCurve (-501) = some 400 ∧ (400 : Int) ≠ 900 - 200 ∧
    rampCurve 99 ≤ 490 ∧
    getAngleFromYawForceCurve rampCurve 490 = some 1400 ∧ (1400 : Int) ≠ 900 + 200 := by
  decide

/-- C1, amended: for every force curve and every force, `getAngleFromYawForceCurve` returns
`900 - TRI_TAIL_SERVO_MAX_ANGLE = 400` when the force is below the first sample, and
`900 + TRI_TAIL_SERVO_MAX_ANGLE = 1400` when the force is at or above the last sample and not
below the first one; the configured max angle plays no part. -/
theorem getAngleFromYawForceCurve_saturation (yawForceCurve : Nat → Int) (force : Int) :
    (force < yawForceCurve 0 →
      getAngleFromYawForceCurve yawForceCurve force
        = some (TRI_TAIL_SERVO_ANGLE_MID - TRI_TAIL_SERVO_MAX_ANGLE)) ∧
    (yawForceCurve 0 ≤ force → yawForceCurve 99 ≤ force →
      getAngleFromYawForceCurve yawForceCurve force
        = some (TRI_TAIL_SERVO_ANGLE_MID + TRI_TAIL_SERVO_MAX_ANGLE)) :=
  ⟨fun h => getAngle_below yawForceCurve force h,
   fun h0 h => getAngle_above yawForceCurve force h0 h⟩

/-- The saturation theorem on the ramp table: one force below the table, one at its end. -/
theorem getAngleFromYawForceCurve_saturation_witness :
    getAngleFromYawForceCurve rampCurve (-501)
        = some (TRI_TAIL_SERVO_ANGLE_MID - TRI_TAIL_SERVO_MAX_ANGLE) ∧
    getAngleFromYawForceCurve rampCurve 490
        = some (TRI_TAIL_SERVO_ANGLE_MID + TRI_TAIL_SERVO_MAX_ANGLE) :=
  ⟨(getAngleFromYawForceCurve_saturation rampCurve (-501)).1 (by decide),
   (getAngleFromYawForceCurve_saturation rampCurve 490).2 (by decide) (by decide)⟩

/-- C2: on a non-decreasing table of 100 samples whose magnitudes keep the interpolation
inside `int` (at most `107374182`), the lookup is defined for every force and is
non-decreasing: `f1 <= f2` gives `getAngleFromYawForceCurve f1 <= getAngleFromYawForceCurve f2`. -/
theorem getAngleFromYawForceCurve_monotone (yawForceCurve : Nat → Int)
    (hb : ∀ i, i < 100 → -107374182 ≤ yawForceCurve i ∧ yawForceCurve i ≤ 107374182)
    (hmono : ∀ i j, i ≤ j → j < 100 → yawForceCurve i ≤ yawForceCurve j)
    (f1 f2 : Int) (hf : f1 ≤ f2) :
    ∃ a1 a2, getAngleFromYawForceCurve yawForceCurve f1 = some a1 ∧
      getAngleFromYawForceCurve yawForceCurve f2 = some a2 ∧ a1 ≤ a2 :=
  getAngle_mono yawForceCurve hb hmono f1 f2 hf

/-- The monotonicity theorem on the ramp table, for the forces `-7` and `7`. -/
theorem getAngleFromYawForceCurve_monotone_witness :
    ∃ a1 a2, getAngleFromYawForceCurve rampCurve (-7) = some a1 ∧
      getAngleFromYawForceCurve rampCurve 7 = some a2 ∧ a1 ≤ a2 :=
  getAngleFromYawForceCurve_monotone rampCurve
    (by intro i hi; simp only [rampCurve]; omega)
    (by intro i j hij hj; simp only [rampCurve]; omega)
    (-7) 7 (by decide)

/-- C3: on a strictly increasing table of 100 samples (magnitudes at most `2^30`, so that the
width of a bracket is an `int`), looking up the force of sample `i` gives an angle within one
table step (10 deci-degrees) of `400 + 10 * i`: exactly `400 + 10 * i` for `i <= 98`, and
`1400` for `i = 99`. -/
theorem getAngleFromYawForceCurve_round_trip (yawForceCurve : Nat → Int)
    (hb : ∀ i, i < 100 → -1073741824 ≤ yawForceCurve i ∧ yawForceCurve i ≤ 1073741823)
    (hmono : ∀ i j, i < j → j < 100 → yawForceCurve i < yawForceCurve j)
    (i : Nat) (hi : i < 100) :
    ∃ a, getAngleFromYawForceCurve yawForceCurve (yawForceCurve i) = some a ∧
      |a - (400 + 10 * (i : Int))| ≤ 10 ∧
      (i ≤ 98 → a = 400 + 10 * (i : Int)) ∧ (i = 99 → a = 1400) := by
  rcases Nat.lt_or_eq_of_le (show i ≤ 99 by omega) with h | h
  · refine ⟨400 + 10 * (i : Int), getAngle_at_sample yawForceCurve hb hmono i (by omega), ?_,
      fun _ => rfl, fun h99 => by omega⟩
    simp
  · subst h
    refine ⟨1400, getAngle_above yawForceCurve _ ?_ (le_refl _), ?_, fun h => by omega,
      fun _ => rfl⟩
    · exact le_of_lt (hmono 0 99 (by omega) (by omega))
    · norm_num

/-- The round-trip theorem on the ramp table, at sample `37`. -/
theorem getAngleFromYawForceCurve_round_trip_witness :
    ∃ a, getAngleFromYawForceCurve rampCurve (rampCurve 37) = some a ∧
      |a - (400 + 10 * ((37 : Nat) : Int))| ≤ 10 ∧
      (37 ≤ 98 → a = 400 + 10 * ((37 : Nat) : Int)) ∧ (37 = 99 → a = 1400) :=
  getAngleFromYawForceCurve_round_trip rampCurve
    (by intro i hi; simp only [rampCurve]; omega)
    (by intro i j hij hj; simp only [rampCurve]; omega)
    37 (by decide)

set_option maxRecDepth 100000 in
/-- C4, as stated, fails: the running extremes start at `0`, so when every sample inside
the configured range is positive the stored `maxYawForce` is `0`.  Here the samples are
`400, 410, ..., 1390` and the max angle is `500`: the smallest sample is `400`, the largest
`1390`, the claim gives `min(|400|, |1390|) = 400`, the code stores `0`. -/
theorem initYawForceCurve_maxYawForce_counterexample :
    (∀ j : Nat, j < 100 → (400 : Int) ≤ (fun a : Int => a) (400 + 10 * (j : Int)) ∧
      (fun a : Int => a) (400 + 10 * (j : Int)) ≤ 1390) ∧
    (fun a : Int => a) (400 + 10 * ((0 : Nat) : Int)) = 400 ∧
    (fun a : Int => a) (400 + 10 * ((99 : Nat) : Int)) = 1390 ∧
    (initYawForceCurveTable (fun a => a) 500 (fun _ => 0)).map Prod.snd = some 0 ∧
    (0 : Int) ≠ min |400| |1390| := by
  refine ⟨?_, by decide, by decide, by decide, by decide⟩
  intro j hj
  simp only
  omega

/-- C4, amended: for every sequence of 100 computed samples (none equal to `INT32_MIN`) and
every configured max angle (with `900 ± maxAngle` inside `int16_t`), `initYawForceCurve`
stores the samples and `maxYawForce = min(|m|, |M|)`, where `m` is the smallest and `M` the
largest value among `0` and the samples whose angle `400 + 10 * i` lies in
`[900 - maxAngle, 900 + maxAngle]`.  Samples outside that range do not enter `m` or `M`. -/
theorem initYawForceCurve_maxYawForce (force : Int → Int) (maxAngle : Int) (old : Nat → Int)
    (hM1 : -31867 ≤ maxAngle) (hM2 : maxAngle ≤ 31867)
    (hs : ∀ j : Nat, j < 100 → -2147483647 ≤ force (400 + 10 * (j : Int))) :
    ∃ (curve : Nat → Int) (m M : Int),
      initYawForceCurveTable force maxAngle old = some (curve, min |m| |M|) ∧
      (∀ j, j < 100 → curve j = force (400 + 10 * (j : Int))) ∧
      m ≤ 0 ∧ 0 ≤ M ∧
      (∀ j : Nat, j < 100 → 900 - maxAngle ≤ 400 + 10 * (j : Int) →
        400 + 10 * (j : Int) ≤ 900 + maxAngle →
        m ≤ force (400 + 10 * (j : Int)) ∧ force (400 + 10 * (j : Int)) ≤ M) ∧
      (m = 0 ∨ ∃ j : Nat, j < 100 ∧ 900 - maxAngle ≤ 400 + 10 * (j : Int) ∧
        400 + 10 * (j : Int) ≤ 900 + maxAngle ∧ force (400 + 10 * (j : Int)) = m) ∧
      (M = 0 ∨ ∃ j : Nat, j < 100 ∧ 900 - maxAngle ≤ 400 + 10 * (j : Int) ∧
        400 + 10 * (j : Int) ≤ 900 + maxAngle ∧ force (400 + 10 * (j : Int)) = M) := by
  obtain ⟨_, hcurve, hneg, hpos, hbnd, hexn, hexp⟩ :=
    initYawForceCurveLoop_spec force (900 - maxAngle) (900 + maxAngle) old 100 (le_refl _)
  refine ⟨_, _, _, ?_, hcurve, hneg, hpos, hbnd, hexn, hexp⟩
  rw [initYawForceCurveTable_eq force maxAngle old hM1 hM2 hs, abs_of_nonpos hneg,
    abs_of_nonneg hpos]

/-- The accumulation theorem for the samples `angle - 900` and a max angle of `200`. -/
theorem initYawForceCurve_maxYawForce_witness :
    ∃ (curve : Nat → Int) (m M : Int),
      initYawForceCurveTable (fun a => a - 900) 200 (fun _ => 0) = some (curve, min |m| |M|) ∧
      (∀ j, j < 100 → curve j = (fun a : Int => a - 900) (400 + 10 * (j : Int))) ∧
      m ≤ 0 ∧ 0 ≤ M ∧
      (∀ j : Nat, j < 100 → 900 - 200 ≤ 400 + 10 * (j : Int) →
        400 + 10 * (j : Int) ≤ 900 + 200 →
        m ≤ (fun a : Int => a - 900) (400 + 10 * (j : Int)) ∧
        (fun a : Int => a - 900) (400 + 10 * (j : Int)) ≤ M) ∧
      (m = 0 ∨ ∃ j : Nat, j < 100 ∧ 900 - 200 ≤ 400 + 10 * (j : Int) ∧
        400 + 10 * (j : Int) ≤ 900 + 200 ∧ (fun a : Int => a - 900) (400 + 10 * (j : Int)) = m) ∧
      (M = 0 ∨ ∃ j : Nat, j < 100 ∧ 900 - 200 ≤ 400 + 10 * (j : Int) ∧
        400 + 10 * (j : Int) ≤ 900 + 200 ∧ (fun a : Int => a - 900) (400 + 10 * (j : Int)) = M) :=
  initYawForceCurve_maxYawForce (fun a => a - 900) 200 (fun _ => 0) (by decide) (by decide)
    (by intro j hj; simp only; omega)

set_option maxRecDepth 100000 in
/-- C5, as stated, fails in two ways.  (a) A strictly increasing curve that is negative over
the whole configured range (samples `angle - 2000`, max angle `100`): `maxYawForce` is `0`,
every command looks up force `0`, above the last sample, and the angle is `1400`, outside
`[800, 1000]`.  (b) Max angle `490` with samples `angle - 900`: the command `1000` looks up
the last sample and gets `1400`, above `900 + 490`. -/
theorem linear_angle_travel_counterexample :
    (∀ i j : Nat, i < j → j < 100 →
      (fun a : Int => a - 2000) (400 + 10 * (i : Int))
        < (fun a : Int => a - 2000) (400 + 10 * (j : Int))) ∧
    linearAngleAfterInit (fun a => a - 2000) 100 (fun _ => 0) 0 = some 1400 ∧
    ¬ ((1400 : Int) ≤ 900 + 100) ∧
    (∀ i j : Nat, i < j → j < 100 →
      (fun a : Int => a - 900) (400 + 10 * (i : Int))
        < (fun a : Int => a - 900) (400 + 10 * (j : Int))) ∧
    linearAngleAfterInit (fun a => a - 900) 490 (fun _ => 0) 1000 = some 1400 ∧
    ¬ ((1400 : Int) ≤ 900 + 490) := by
  refine ⟨?_, by decide, by decide, ?_, by decide, by decide⟩
  · intro i j hij _; simp only; omega
  · intro i j hij _; simp only; omega

/-- C5, amended: for every strictly increasing curve with samples of magnitude at most
`2147483` (so that `maxYawForce * 1000` is an `int`), every configured max angle
`maxAngle = 10 * k` with `0 < maxAngle <= 480`, such that the curve is `<= 0` at the angle
`900 - maxAngle` and `>= 0` at the angle `900 + maxAngle`, with the table and `maxYawForce`
built by `initYawForceCurve`, and every command `c` in `[-1000, 1000]`: the angle looked up
for `maxYawForce * c / 1000` is defined and lies in `[900 - maxAngle, 900 + maxAngle]`. -/
theorem linear_angle_within_travel (force : Int → Int) (old : Nat → Int) (k : Nat)
    (hk1 : 1 ≤ k) (hk2 : k ≤ 48)
    (hb : ∀ j : Nat, j < 100 → -2147483 ≤ force (400 + 10 * (j : Int)) ∧
      force (400 + 10 * (j : Int)) ≤ 2147483)
    (hmono : ∀ i j : Nat, i < j → j < 100 →
      force (400 + 10 * (i : Int)) < force (400 + 10 * (j : Int)))
    (hz1 : force (900 - 10 * (k : Int)) ≤ 0) (hz2 : 0 ≤ force (900 + 10 * (k : Int)))
    (c : Int) (hc1 : -1000 ≤ c) (hc2 : c ≤ 1000) :
    ∃ a, linearAngleAfterInit force (10 * (k : Int)) old c = some a ∧
      900 - 10 * (k : Int) ≤ a ∧ a ≤ 900 + 10 * (k : Int) := by
  obtain ⟨_, hcurve, hneg, hpos, hbnd, hexn, hexp⟩ :=
    initYawForceCurveLoop_spec force (900 - 10 * (k : Int)) (900 + 10 * (k : Int)) old 100
      (le_refl _)
  have htab := initYawForceCurveTable_eq force (10 * (k : Int)) old (by omega) (by omega)
    (fun j hj => by have := (hb j hj).1; omega)
  generalize initYawForceCurveLoop force (900 - 10 * (k : Int)) (900 + 10 * (k : Int)) old 100
    = st at *
  -- the two ends of the configured travel, as table indices
  have elo : (400 + 10 * ((50 - k : Nat) : Int)) = 900 - 10 * (k : Int) := by omega
  have ehi : (400 + 10 * ((50 + k : Nat) : Int)) = 900 + 10 * (k : Int) := by omega
  have hmonole : ∀ i j : Nat, i ≤ j → j < 100 →
      force (400 + 10 * (i : Int)) ≤ force (400 + 10 * (j : Int)) := by
    intro i j hij hj
    rcases Nat.lt_or_eq_of_le hij with h | h
    · exact le_of_lt (hmono i j h hj)
    · subst h; exact le_refl _
  have hm : force (900 - 10 * (k : Int)) ≤ st.maxNegForce := by
    rcases hexn with h | ⟨j, hj, h1, _, h3⟩
    · omega
    · rw [← h3, ← elo]; exact hmonole (50 - k) j (by omega) hj
  have hMx : st.maxPosForce ≤ force (900 + 10 * (k : Int)) := by
    rcases hexp with h | ⟨j, hj, _, h2, h3⟩
    · omega
    · rw [← h3, ← ehi]; exact hmonole j (50 + k) (by omega) (by omega)
  have hlo := hb (50 - k) (by omega)
  have hhi := hb (50 + k) (by omega)
  rw [elo] at hlo
  rw [ehi] at hhi
  have hF0 : 0 ≤ min (-st.maxNegForce) st.maxPosForce := le_min (by omega) hpos
  have hF1 : min (-st.maxNegForce) st.maxPosForce ≤ -st.maxNegForce := min_le_left _ _
  have hF2 : min (-st.maxNegForce) st.maxPosForce ≤ st.maxPosForce := min_le_right _ _
  obtain ⟨hlin, hf1, hf2⟩ := linearYawForceAtValue_bound
    (min (-st.maxNegForce) st.maxPosForce) c hF0 (by omega) hc1 hc2
  generalize Int.tdiv (min (-st.maxNegForce) st.maxPosForce * c) 1000 = f at *
  -- properties of the stored table
  have cb : ∀ i, i < 100 → -107374182 ≤ st.yawForceCurve i ∧ st.yawForceCurve i ≤ 107374182 := by
    intro i hi
    rw [hcurve i hi]
    have := hb i hi
    omega
  have cb2 : ∀ i, i < 100 →
      -1073741824 ≤ st.yawForceCurve i ∧ st.yawForceCurve i ≤ 1073741823 := by
    intro i hi
    have := cb i hi
    omega
  have cmono : ∀ i j, i < j → j < 100 → st.yawForceCurve i < st.yawForceCurve j := by
    intro i j hij hj
    rw [hcurve i (by omega), hcurve j hj]
    exact hmono i j hij hj
  have cmonole : ∀ i j, i ≤ j → j < 100 → st.yawForceCurve i ≤ st.yawForceCurve j := by
    intro i j hij hj
    rw [hcurve i (by omega), hcurve j hj]
    exact hmonole i j hij hj
  have hslo := getAngle_at_sample st.yawForceCurve cb2 cmono (50 - k) (by omega)
  have hshi := getAngle_at_sample st.yawForceCurve cb2 cmono (50 + k) (by omega)
  have hflo : st.yawForceCurve (50 - k) ≤ f := by
    rw [hcurve _ (by omega), elo]; omega
  have hfhi : f ≤ st.yawForceCurve (50 + k) := by
    rw [hcurve _ (by omega), ehi]; omega
  obtain ⟨a1, a2, e1, e2, h12⟩ := getAngle_mono st.yawForceCurve cb cmonole _ _ hflo
  obtain ⟨b1, b2, e3, e4, h34⟩ := getAngle_mono st.yawForceCurve cb cmonole _ _ hfhi
  rw [hslo] at e1
  rw [hshi] at e4
  rw [e2] at e3
  have q1 := Option.some.inj e1
  have q3 := Option.some.inj e3
  have q4 := Option.some.inj e4
  refine ⟨a2, ?_, by omega, by omega⟩
  unfold linearAngleAfterInit
  rw [htab]
  simp only [Option.bind_eq_bind, Option.some_bind]
  rw [hlin]
  simp only [Option.some_bind]
  exact e2

/-- The travel theorem for the samples `angle - 900`, a max angle of `200` and the command `500`. -/
theorem linear_angle_within_travel_witness :
    ∃ a, linearAngleAfterInit (fun a => a - 900) (10 * ((20 : Nat) : Int)) (fun _ => 0) 500
        = some a ∧
      900 - 10 * ((20 : Nat) : Int) ≤ a ∧ a ≤ 900 + 10 * ((20 : Nat) : Int) :=
  linear_angle_within_travel (fun a => a - 900) (fun _ => 0) 20 (by decide) (by decide)
    (by intro j hj; simp only; omega)
    (by intro i j hij hj; simp only; omega)
    (by decide) (by decide) 500 (by decide) (by decide)

/-! ## Gain scheduling -/

/-- The value computed by `getScaledPIDatThrottle`, when no intermediate result overflows. -/
theorem getScaledPIDatThrottle_eq (throttleRange minthrottle : Int) (virtualFeedBack : ℚ)
    (pmin pmax c half mid d : Int)
    (hhalf : halfRange throttleRange = half) (hpos : 0 < half) (hh : half ≤ 32767)
    (hmid : throttleMidpoint throttleRange minthrottle = mid)
    (hd : floatToInt16 (virtualFeedBack - (mid : ℚ)) = some d)
    (hp1 : -2147483648 ≤ d * yawGain virtualFeedBack mid pmin pmax ∧
      d * yawGain virtualFeedBack mid pmin pmax ≤ 2147483647)
    (hp2 : -2147483647 ≤ d * yawGain virtualFeedBack mid pmin pmax * c ∧
      d * yawGain virtualFeedBack mid pmin pmax * c ≤ 2147483647)
    (hr : -32768 ≤ c - Int.tdiv (d * yawGain virtualFeedBack mid pmin pmax * c) (half * 100) ∧
      c - Int.tdiv (d * yawGain virtualFeedBack mid pmin pmax * c) (half * 100) ≤ 32767) :
    getScaledPIDatThrottle throttleRange minthrottle virtualFeedBack pmin pmax c
      = some (constrain
          (c - Int.tdiv (d * yawGain virtualFeedBack mid pmin pmax * c) (half * 100))
          (-1000) 1000) := by
  have hq := tdiv_bounds (d * yawGain virtualFeedBack mid pmin pmax * c) (half * 100)
    (-2147483647) 2147483647 (by omega) hp2.1 hp2.2 (by omega) (by omega)
  unfold getScaledPIDatThrottle
  simp only [hhalf, hmid, hd, Option.bind_eq_bind, Option.some_bind]
  rw [i32_of_bounds hp1.1 hp1.2]
  simp only [Option.some_bind]
  rw [i32_of_bounds (by omega) hp2.2]
  simp only [Option.some_bind]
  rw [i32_of_bounds (by omega) (by omega)]
  simp only [Option.some_bind, divI32]
  rw [if_neg (by omega), i32_of_bounds (by omega) (by omega)]
  simp only [Option.some_bind]
  rw [i32_of_bounds (by omega) (by omega)]
  simp only [Option.some_bind, pure]
  rw [toInt16_of_bounds hr.1 (by omega)]
  congr 1
  apply toInt16_of_bounds
  · unfold constrain; split <;> [omega; (split <;> omega)]
  · unfold constrain; split <;> [omega; (split <;> omega)]

/-- The gain below the midpoint, for a min-throttle percentage of 50: `50 - 100` stored in
a `uint16_t`. -/
theorem yawGain_below_50 : yawGain 1499 1500 50 100 = 65486 := by
  unfold yawGain
  rw [if_pos (by norm_num)]
  decide

/-- The gain above the midpoint, for a max-throttle percentage of 150: `100 - 150` stored in
a `uint16_t`. -/
theorem yawGain_above_150 : yawGain 1501 1500 100 150 = 65486 := by
  unfold yawGain
  rw [if_neg (by norm_num)]
  decide

theorem getServoValueAtAngle_mid (servoConf : ServoParam) (maxAngle direction : Int) :
    getServoValueAtAngle servoConf maxAngle direction 900 = some (toUint16 servoConf.middle) := by
  unfold getServoValueAtAngle
  simp [TRI_TAIL_SERVO_ANGLE_MID]

/-- The min side of `getServoValueAtAngle`, for an angle off centre. -/
theorem getServoValueAtAngle_minSide (servoConf : ServoParam) (maxAngle direction angle : Int)
    (hne : angle ≠ 900) (ha1 : 0 ≤ angle) (ha2 : angle ≤ 65535)
    (hA1 : 0 < maxAngle) (hA2 : maxAngle ≤ 65535)
    (hside : (angle < 900 ∧ direction > 0) ∨ (angle > 900 ∧ ¬ direction > 0))
    (hm1 : -32768 ≤ servoConf.middle) (hm2 : servoConf.middle ≤ 32767)
    (hp1 : -2147450879 ≤ |angle - 900| * (servoConf.middle - servoConf.min))
    (hp2 : |angle - 900| * (servoConf.middle - servoConf.min) ≤ 2147450879) :
    getServoValueAtAngle servoConf maxAngle direction angle
      = some (toUint16 (servoConf.middle
          - Int.tdiv (|angle - 900| * (servoConf.middle - servoConf.min)) maxAngle)) := by
  have hq := tdiv_bounds (|angle - 900| * (servoConf.middle - servoConf.min)) maxAngle
    (-2147450879) 2147450879 hA1 hp1 hp2 (by omega) (by omega)
  have hdiff : (if angle < 900 then toUint16 (900 - angle) else toUint16 (angle - 900))
      = |angle - 900| := by
    split
    · rw [toUint16_of_bounds (by omega) (by omega), abs_of_nonpos (by omega)]; ring
    · rw [toUint16_of_bounds (by omega) (by omega), abs_of_nonneg (by omega)]
  have hrange : (if angle < 900 then (if direction > 0 then (-1 : Int) else 1)
      else (if direction > 0 then 1 else -1)) < 0 := by
    rcases hside with ⟨h1, h2⟩ | ⟨h1, h2⟩
    · rw [if_pos h1, if_pos h2]; decide
    · rw [if_neg (by omega), if_neg h2]; decide
  unfold getServoValueAtAngle
  simp only [TRI_TAIL_SERVO_ANGLE_MID]
  rw [if_neg hne, if_pos hrange, hdiff, toUint16_of_bounds (by omega) (by omega)]
  rw [i32_of_bounds (by omega) (by omega)]
  simp only [Option.bind_eq_bind, Option.some_bind, divI32]
  rw [if_neg (by omega), i32_of_bounds (by omega) (by omega)]
  simp only [Option.some_bind]
  rw [i32_of_bounds (by omega) (by omega)]
  rfl

/-- The max side of `getServoValueAtAngle`, for an angle off centre. -/
theorem getServoValueAtAngle_maxSide (servoConf : ServoParam) (maxAngle direction angle : Int)
    (hne : angle ≠ 900) (ha1 : 0 ≤ angle) (ha2 : angle ≤ 65535)
    (hA1 : 0 < maxAngle) (hA2 : maxAngle ≤ 65535)
    (hside : ¬ ((angle < 900 ∧ direction > 0) ∨ (angle > 900 ∧ ¬ direction > 0)))
    (hm1 : -32768 ≤ servoConf.middle) (hm2 : servoConf.middle ≤ 32767)
    (hp1 : -2147450879 ≤ |angle - 900| * (servoConf.max - servoConf.middle))
    (hp2 : |angle - 900| * (servoConf.max - servoConf.middle) ≤ 2147450879) :
    getServoValueAtAngle servoConf maxAngle direction angle
      = some (toUint16 (servoConf.middle
          + Int.tdiv (|angle - 900| * (servoConf.max - servoConf.middle)) maxAngle)) := by
  have hq := tdiv_bounds (|angle - 900| * (servoConf.max - servoConf.middle)) maxAngle
    (-2147450879) 2147450879 hA1 hp1 hp2 (by omega) (by omega)
  have hdiff : (if angle < 900 then toUint16 (900 - angle) else toUint16 (angle - 900))
      = |angle - 900| := by
    split
    · rw [toUint16_of_bounds (by omega) (by omega), abs_of_nonpos (by omega)]; ring
    · rw [toUint16_of_bounds (by omega) (by omega), abs_of_nonneg (by omega)]
  have hrange : ¬ (if angle < 900 then (if direction > 0 then (-1 : Int) else 1)
      else (if direction > 0 then 1 else -1)) < 0 := by
    by_cases h1 : angle < 900
    · have h2 : ¬ direction > 0 := fun h => hside (Or.inl ⟨h1, h⟩)
      rw [if_pos h1, if_neg h2]; decide
    · have h2 : direction > 0 := by
        by_contra h
        exact hside (Or.inr ⟨by omega, h⟩)
      rw [if_neg h1, if_pos h2]; decide
  unfold getServoValueAtAngle
  simp only [TRI_TAIL_SERVO_ANGLE_MID]
  rw [if_neg hne, if_neg hrange, hdiff, toUint16_of_bounds (by omega) (by omega)]
  rw [i32_of_bounds (by omega) (by omega)]
  simp only [Option.bind_eq_bind, Option.some_bind, divI32]
  rw [if_neg (by omega), i32_of_bounds (by omega) (by omega)]
  simp only [Option.some_bind]
  rw [i32_of_bounds (by omega) (by omega)]
  rfl

/-- The product of the angle offset and a span of servo limits fits the `int` arithmetic
when the limits are non-negative `int16_t` values and the angle a `uint16_t`. -/
theorem servo_product_bounds (angle lo hi : Int) (ha1 : 0 ≤ angle) (ha2 : angle ≤ 65535)
    (h1 : 0 ≤ lo) (h2 : lo ≤ 32767) (h3 : 0 ≤ hi) (h4 : hi ≤ 32767) :
    -2147450879 ≤ |angle - 900| * (hi - lo) ∧ |angle - 900| * (hi - lo) ≤ 2147450879 := by
  have hd0 : 0 ≤ |angle - 900| := abs_nonneg _
  have hd1 : |angle - 900| ≤ 64635 := abs_le.mpr ⟨by omega, by omega⟩
  have := mul_bounds |angle - 900| (hi - lo) 64635 32767 hd0 hd1 (by omega) (by omega)
  omega

/-- The value at the lower end angle `900 - maxAngle`, on either side. -/
theorem getServoValueAtAngle_lowEnd (servoConf : ServoParam) (maxAngle direction : Int)
    (hmin0 : 0 ≤ servoConf.min) (hmin1 : servoConf.min ≤ 32767)
    (hmid0 : 0 ≤ servoConf.middle) (hmid1 : servoConf.middle ≤ 32767)
    (hmax0 : 0 ≤ servoConf.max) (hmax1 : servoConf.max ≤ 32767)
    (hA1 : 0 < maxAngle) (hA2 : maxAngle ≤ 900) :
    getServoValueAtAngle servoConf maxAngle direction (900 - maxAngle)
      = some (if direction > 0 then servoConf.min else servoConf.max) := by
  have habs : |900 - maxAngle - 900| = maxAngle := by
    rw [abs_of_nonpos (by omega)]; ring
  by_cases hd : direction > 0
  · rw [if_pos hd, getServoValueAtAngle_minSide servoConf maxAngle direction (900 - maxAngle)
      (by omega) (by omega) (by omega) hA1 (by omega) (Or.inl ⟨by omega, hd⟩) (by omega) hmid1
      (servo_product_bounds _ _ _ (by omega) (by omega) hmin0 hmin1 hmid0 hmid1).1
      (servo_product_bounds _ _ _ (by omega) (by omega) hmin0 hmin1 hmid0 hmid1).2]
    rw [habs, Int.mul_tdiv_cancel_left _ (by omega), toUint16_of_bounds (by omega) (by omega)]
    congr 1; ring
  · rw [if_neg hd, getServoValueAtAngle_maxSide servoConf maxAngle direction (900 - maxAngle)
      (by omega) (by omega) (by omega) hA1 (by omega)
      (by rintro (⟨_, h⟩ | ⟨h, _⟩) <;> omega) (by omega) hmid1
      (servo_product_bounds _ _ _ (by omega) (by omega) hmid0 hmid1 hmax0 hmax1).1
      (servo_product_bounds _ _ _ (by omega) (by omega) hmid0 hmid1 hmax0 hmax1).2]
    rw [habs, Int.mul_tdiv_cancel_left _ (by omega), toUint16_of_bounds (by omega) (by omega)]
    congr 1; ring

/-- The value at the upper end angle `900 + maxAngle`, on either side. -/
theorem getServoValueAtAngle_highEnd (servoConf : ServoParam) (maxAngle direction : Int)
    (hmin0 : 0 ≤ servoConf.min) (hmin1 : servoConf.min ≤ 32767)
    (hmid0 : 0 ≤ servoConf.middle) (hmid1 : servoConf.middle ≤ 32767)
    (hmax0 : 0 ≤ servoConf.max) (hmax1 : servoConf.max ≤ 32767)
    (hA1 : 0 < maxAngle) (hA2 : maxAngle ≤ 32767) :
    getServoValueAtAngle servoConf maxAngle direction (900 + maxAngle)
      = some (if direction > 0 then servoConf.max else servoConf.min) := by
  have habs : |900 + maxAngle - 900| = maxAngle := by
    rw [abs_of_nonneg (by omega)]; ring
  by_cases hd : direction > 0
  · rw [if_pos hd, getServoValueAtAngle_maxSide servoConf maxAngle direction (900 + maxAngle)
      (by omega) (by omega) (by omega) hA1 (by omega)
      (by rintro (⟨h, _⟩ | ⟨_, h⟩) <;> omega) (by omega) hmid1
      (servo_product_bounds _ _ _ (by omega) (by omega) hmid0 hmid1 hmax0 hmax1).1
      (servo_product_bounds _ _ _ (by omega) (by omega) hmid0 hmid1 hmax0 hmax1).2]
    rw [habs, Int.mul_tdiv_cancel_left _ (by omega), toUint16_of_bounds (by omega) (by omega)]
    congr 1; ring
  · rw [if_neg hd, getServoValueAtAngle_minSide servoConf maxAngle direction (900 + maxAngle)
      (by omega) (by omega) (by omega) hA1 (by omega) (Or.inr ⟨by omega, hd⟩) (by omega) hmid1
      (servo_product_bounds _ _ _ (by omega) (by omega) hmin0 hmin1 hmid0 hmid1).1
      (servo_product_bounds _ _ _ (by omega) (by omega) hmin0 hmin1 hmid0 hmid1).2]
    rw [habs, Int.mul_tdiv_cancel_left _ (by omega), toUint16_of_bounds (by omega) (by omega)]
    congr 1; ring

/-- C6: for every servo configuration (limits non-negative `int16_t` values) with
`0 < maxAngle`, every direction sign and every `uint16_t` angle, `getServoValueAtAngle`
returns `mid` at `900`; otherwise, with `d = |angle - 900|`, it returns
`mid - d * (mid - min) / maxAngle` on the min side and `mid + d * (max - mid) / maxAngle` on
the max side (truncating division, result as `uint16_t`), the min side being used when the
angle is below centre and the direction positive, or above centre and the direction not
positive.  With positive direction `900 - maxAngle` maps to `min` and `900 + maxAngle` to
`max`; otherwise the two ends swap (`900 - maxAngle` is an angle when `maxAngle <= 900`). -/
theorem getServoValueAtAngle_piecewise (servoConf : ServoParam) (maxAngle direction : Int)
    (hmin0 : 0 ≤ servoConf.min) (hmin1 : servoConf.min ≤ 32767)
    (hmid0 : 0 ≤ servoConf.middle) (hmid1 : servoConf.middle ≤ 32767)
    (hmax0 : 0 ≤ servoConf.max) (hmax1 : servoConf.max ≤ 32767)
    (hA1 : 0 < maxAngle) (hA2 : maxAngle ≤ 32767) :
    (∀ angle : Int, 0 ≤ angle → angle ≤ 65535 →
      getServoValueAtAngle servoConf maxAngle direction angle
        = some (if angle = 900 then servoConf.middle
            else if (angle < 900 ∧ direction > 0) ∨ (angle > 900 ∧ ¬ direction > 0) then
              toUint16 (servoConf.middle
                - Int.tdiv (|angle - 900| * (servoConf.middle - servoConf.min)) maxAngle)
            else
              toUint16 (servoConf.middle
                + Int.tdiv (|angle - 900| * (servoConf.max - servoConf.middle)) maxAngle))) ∧
    (maxAngle ≤ 900 →
      getServoValueAtAngle servoConf maxAngle direction (900 - maxAngle)
        = some (if direction > 0 then servoConf.min else servoConf.max)) ∧
    getServoValueAtAngle servoConf maxAngle direction (900 + maxAngle)
      = some (if direction > 0 then servoConf.max else servoConf.min) := by
  refine ⟨?_, fun h => getServoValueAtAngle_lowEnd servoConf maxAngle direction hmin0 hmin1
      hmid0 hmid1 hmax0 hmax1 hA1 h,
    getServoValueAtAngle_highEnd servoConf maxAngle direction hmin0 hmin1
      hmid0 hmid1 hmax0 hmax1 hA1 hA2⟩
  intro angle ha1 ha2
  by_cases hmid : angle = 900
  · subst hmid
    rw [getServoValueAtAngle_mid, if_pos rfl, toUint16_of_bounds hmid0 (by omega)]
  · rw [if_neg hmid]
    by_cases hside : (angle < 900 ∧ direction > 0) ∨ (angle > 900 ∧ ¬ direction > 0)
    · rw [if_pos hside]
      exact getServoValueAtAngle_minSide servoConf maxAngle direction angle hmid ha1 ha2 hA1
        (by omega) hside (by omega) hmid1
        (servo_product_bounds _ _ _ ha1 ha2 hmin0 hmin1 hmid0 hmid1).1
        (servo_product_bounds _ _ _ ha1 ha2 hmin0 hmin1 hmid0 hmid1).2
    · rw [if_neg hside]
      exact getServoValueAtAngle_maxSide servoConf maxAngle direction angle hmid ha1 ha2 hA1
        (by omega) hside (by omega) hmid1
        (servo_product_bounds _ _ _ ha1 ha2 hmid0 hmid1 hmax0 hmax1).1
        (servo_product_bounds _ _ _ ha1 ha2 hmid0 hmid1 hmax0 hmax1).2

/-- The piecewise map on the sample configuration, at `700` and at the two end angles. -/
theorem getServoValueAtAngle_piecewise_witness :
    getServoValueAtAngle sampleServoConf 400 1 700 = some 1250 ∧
    getServoValueAtAngle sampleServoConf 400 1 (900 - 400) = some 1000 ∧
    getServoValueAtAngle sampleServoConf 400 1 (900 + 400) = some 2000 :=
  have h := getServoValueAtAngle_piecewise sampleServoConf 400 1
    (by decide) (by decide) (by decide) (by decide) (by decide) (by decide) (by decide)
    (by decide)
  ⟨(h.1 700 (by decide) (by decide)).trans (by decide),
   (h.2.1 (by decide)).trans (by decide), h.2.2.trans (by decide)⟩

/-- C7, failing input: with a reversed servo (`direction = -1`), limits `1000/1500/2000` and
`maxAngle = 400`, the anchor angle `500 = 900 - maxAngle` maps to the servo value `2000`, and
`getServoAngle` maps `2000` back to `1300`, not `500`: `getServoAngle` does not look at the
direction.  With `direction = 1` the same anchor makes the round trip. -/
theorem getServoAngle_reversed_not_inverse :
    getServoValueAtAngle sampleServoConf 400 (-1) 500 = some 2000 ∧
    getServoAngle sampleServoConf 400 2000 = some 1300 ∧
    getServoValueAtAngle sampleServoConf 400 1 500 = some 1000 ∧
    getServoAngle sampleServoConf 400 1000 = some 500 := by
  decide

/-- C10, evidence: `atanf` returns radians, inside `(-π/2, π/2)`, so for every thrust factor
`k > 0` the value stored in `tailMotor.pitchZeroAngle`, `10 * 2 * atanf(..)`, is defined and
at most `40` in magnitude: it is twenty times an angle in radians, never a value between
`900` and `1800` deci-degrees. -/
theorem pitchZeroAngle_is_radians (m : Libm) (hatan : ∀ x, -2 ≤ m.atanf x ∧ m.atanf x ≤ 2)
    (thrustFactor : ℚ) (hk : 0 < thrustFactor) :
    ∃ v, pitchZeroAngleValue m thrustFactor = some v ∧ -40 ≤ v ∧ v ≤ 40 ∧ ¬ (900 < v) := by
  have h := hatan ((m.sqrtf (thrustFactor * thrustFactor + 1) + 1) / thrustFactor)
  refine ⟨10 * 2 * m.atanf ((m.sqrtf (thrustFactor * thrustFactor + 1) + 1) / thrustFactor),
    ?_, by linarith [h.1], by linarith [h.2], by linarith [h.2]⟩
  unfold pitchZeroAngleValue fdiv
  rw [if_neg (ne_of_gt hk)]
  rfl

/-- The bound on the stored pitch zero angle, for the sample library and thrust factor `1`. -/
theorem pitchZeroAngle_is_radians_witness :
    ∃ v, pitchZeroAngleValue sampleLibm 1 = some v ∧ -40 ≤ v ∧ v ≤ 40 ∧ ¬ (900 < v) :=
  pitchZeroAngle_is_radians sampleLibm
    (by
      intro x
      simp only [sampleLibm]
      constructor
      · exact le_trans (by norm_num) (le_max_left _ _)
      · exact max_le (by norm_num) (le_trans (min_le_left _ _) (by norm_num)))
    1 (by norm_num)

/-! ## The yaw mixer tick -/

theorem constrain_idem (c lo hi : Int) (h : lo ≤ hi) :
    constrain (constrain c lo hi) lo hi = constrain c lo hi := by
  unfold constrain
  split_ifs <;> omega

theorem toInt16_constrain (c : Int) :
    toInt16 (constrain c (-1000) 1000) = constrain c (-1000) 1000 := by
  apply toInt16_of_bounds
  · unfold constrain; split <;> [omega; (split <;> omega)]
  · unfold constrain; split <;> [omega; (split <;> omega)]

/-- Reading the feedback sample changes only `tailServo.ADC` and the filter. -/
theorem mixerServoValue_readServoFeedback (ext : External) (inp : TickInput) (st st1 : State)
    (h : readServoFeedback ext inp st = some st1) (p : Int) :
    mixerServoValue inp st1 p = mixerServoValue inp st p := by
  unfold readServoFeedback at h
  split at h
  · simp only [Option.bind_eq_bind, Option.bind_eq_some, pure] at h
    obtain ⟨adc, _, h2⟩ := h
    have := Option.some.inj h2
    subst this
    rfl
  · have := Option.some.inj h
    subst this
    rfl

/-- With the tune switch inactive `triTailTuneStep` is defined and touches only the two
flags and the session mode. -/
theorem triTailTuneStep_inactive (ext : External) (inp : TickInput) (st : State)
    (hbox : inp.boxTailTune = false) :
    ∃ st', triTailTuneStep ext inp st = some st' ∧
      st'.tailServoValue = st.tailServoValue ∧ st'.mixerConfig = st.mixerConfig ∧
      st'.tailServo = st.tailServo ∧ st'.tailServoConf = st.tailServoConf := by
  unfold triTailTuneStep
  rw [if_pos (by simp [hbox])]
  split
  · exact ⟨_, rfl, rfl, rfl, rfl, rfl⟩
  · exact ⟨_, rfl, rfl, rfl, rfl, rfl⟩

theorem getServoValueAtAngle_range (servoConf : ServoParam) (maxAngle direction angle v : Int)
    (h : getServoValueAtAngle servoConf maxAngle direction angle = some v) :
    0 ≤ v ∧ v ≤ 65535 := by
  unfold getServoValueAtAngle at h
  simp only [Option.bind_eq_bind, pure] at h
  split_ifs at h
  all_goals first
    | (have hv := Option.some.inj h
       rw [← hv]; exact toUint16_range _)
    | (simp only [Option.bind_eq_some] at h
       obtain ⟨_, _, _, _, x, _, hx⟩ := h
       have hv := Option.some.inj hx
       rw [← hv]; exact toUint16_range _)

theorem predictGyroOnDecceleration_tailServoValue (st : State) :
    (predictGyroOnDecceleration st).tailServoValue = st.tailServoValue := by
  unfold predictGyroOnDecceleration
  simp only
  split <;> rfl

theorem tailMotorStep_tailServoValue (ext : External) (setpoint : Int) (dT : ℚ) (st : State) :
    (tailMotorStep ext setpoint dT st).tailServoValue = st.tailServoValue := rfl

theorem mixerServoValue_range (inp : TickInput) (st : State) (p v : Int)
    (h : mixerServoValue inp st p = some v) : 0 ≤ v ∧ v ≤ 65535 := by
  unfold mixerServoValue at h
  split at h
  · unfold getLinearServoValue at h
    simp only [Option.bind_eq_bind, Option.bind_eq_some] at h
    obtain ⟨_, _, _, _, h3⟩ := h
    exact getServoValueAtAngle_range _ _ _ _ _ h3
  · unfold getNormalServoValue at h
    simp only [Option.bind_eq_bind, Option.bind_eq_some] at h
    obtain ⟨_, _, _, _, h3⟩ := h
    exact getServoValueAtAngle_range _ _ _ _ _ h3

theorem floatToUint16_intCast (z : Int) (h1 : 0 ≤ z) (h2 : z ≤ 65535) :
    floatToUint16 (z : ℚ) = some z := by
  unfold floatToUint16
  rw [truncQ_intCast, if_pos ⟨h1, h2⟩]

/-- The tick of `triServoMixer` with the tune switch inactive, when each fallible step is
defined: the servo variable holds the value computed before the calibration supervisor. -/
theorem triServoMixer_inactive (ext : External) (inp : TickInput) (c : Int) (st st1 : State)
    (s v angle : Int) (hbox : inp.boxTailTune = false)
    (hs : getScaledPIDatThrottle st.throttleRange inp.minthrottle st.tailMotor.virtualFeedBack
      inp.tri_dynamic_yaw_minthrottle inp.tri_dynamic_yaw_maxthrottle
      (constrain c (-1000) 1000) = some s)
    (hadc : readServoFeedback ext inp st = some st1)
    (hv : mixerServoValue inp st s = some v)
    (hang : updateServoAngle st1.mixerConfig st1.tailServo inp.dT st1.tailServoConf (toInt16 v)
      = some angle) :
    ∃ st', triServoMixer ext inp c st = some st' ∧ st'.tailServoValue = toInt16 v := by
  obtain ⟨st3, h3, e1, e2, e3, e4⟩ :=
    triTailTuneStep_inactive ext inp { st1 with tailServoValue := toInt16 v } hbox
  unfold triServoMixer
  simp only [Option.bind_eq_bind, toInt16_constrain, hs, Option.some_bind, hadc,
    mixerServoValue_readServoFeedback ext inp st st1 hadc, hv, h3, e1, e2, e3, e4, hang]
  refine ⟨_, rfl, ?_⟩
  rw [predictGyroOnDecceleration_tailServoValue, tailMotorStep_tailServoValue]

/-- The command enters `triServoMixer` only through its clamped value. -/
theorem triServoMixer_clamp (ext : External) (inp : TickInput) (c : Int) (st : State) :
    triServoMixer ext inp c st = triServoMixer ext inp (constrain c (-1000) 1000) st := by
  unfold triServoMixer
  rw [constrain_idem c (-1000) 1000 (by decide)]

/-- C8: for every yaw command `c` and every state, with the tune switch inactive and every
fallible step of the tick defined (gain scheduling gives `s` for the clamped command, the
feedback sample is read, the servo value `v` is `getLinearServoValue(s)` when armed and
`getNormalServoValue(s)` when unarmed, and the angle estimator returns): `triServoMixer`
returns and the servo command is `v`, as stored in the `int16_t` servo variable (it is `v`
itself when `v <= 32767`); the calibration supervisor leaves it alone, and a command outside
`[-1000, 1000]` gives the same tick as the clamped command. -/
theorem triServoMixer_servo_command (ext : External) (inp : TickInput) (c : Int)
    (st st1 : State) (s v angle : Int) (hbox : inp.boxTailTune = false)
    (hs : getScaledPIDatThrottle st.throttleRange inp.minthrottle st.tailMotor.virtualFeedBack
      inp.tri_dynamic_yaw_minthrottle inp.tri_dynamic_yaw_maxthrottle
      (constrain c (-1000) 1000) = some s)
    (hadc : readServoFeedback ext inp st = some st1)
    (hv : (if inp.armed then
        getLinearServoValue st.yawForceCurve st.tailServo inp.direction st.tailServoConf s
      else getNormalServoValue st.tailServo inp.direction st.tailServoConf s) = some v)
    (hang : updateServoAngle st1.mixerConfig st1.tailServo inp.dT st1.tailServoConf (toInt16 v)
      = some angle) :
    (∃ st', triServoMixer ext inp c st = some st' ∧ st'.tailServoValue = toInt16 v ∧
      (v ≤ 32767 → st'.tailServoValue = v)) ∧
    triServoMixer ext inp c st = triServoMixer ext inp (constrain c (-1000) 1000) st := by
  refine ⟨?_, triServoMixer_clamp ext inp c st⟩
  obtain ⟨st', h1, h2⟩ := triServoMixer_inactive ext inp c st st1 s v angle hbox hs hadc hv hang
  refine ⟨st', h1, h2, fun hle => ?_⟩
  have hr := mixerServoValue_range inp st s v hv
  rw [h2, toInt16_of_bounds (by omega) (by omega)]

/-- The tick theorem on the sample state: armed, command `2000`, servo command `2000`. -/
theorem triServoMixer_servo_command_witness :
    (∃ st', triServoMixer (sampleExternal sampleLibm) sampleInput 2000 sampleState = some st' ∧
      st'.tailServoValue = toInt16 2000 ∧ ((2000 : Int) ≤ 32767 → st'.tailServoValue = 2000)) ∧
    triServoMixer (sampleExternal sampleLibm) sampleInput 2000 sampleState
      = triServoMixer (sampleExternal sampleLibm) sampleInput (constrain 2000 (-1000) 1000)
          sampleState := by
  have hg : yawGain 1000 1500 150 100 = 50 := by
    unfold yawGain
    rw [if_pos (by norm_num)]
    decide
  have hs : getScaledPIDatThrottle 1000 1000 1000 150 100 1000 = some 1000 := by
    have h := getScaledPIDatThrottle_eq 1000 1000 1000 150 100 1000 500 1500 (-500)
      (by decide) (by decide) (by decide) (by decide)
      (by have := floatToInt16_intCast (-500) (by decide) (by decide)
          norm_num at this ⊢; exact this)
      (by rw [hg]; decide) (by rw [hg]; decide) (by rw [hg]; decide)
    rw [h, hg]
    decide
  have hdA : floatToUint16 (servoStepValue (1 / 1000) 300) = some 3 := by decide!
  have hang : updateServoAngle sampleState.mixerConfig sampleState.tailServo sampleInput.dT
      sampleState.tailServoConf (toInt16 2000) = some 903 := by
    unfold updateServoAngle
    rw [if_pos (by decide)]
    show virtualServoStep 400 900 300 (1 / 1000) sampleServoConf (toUint16 (toInt16 2000))
      = some 903
    unfold virtualServoStep
    rw [show getServoAngle sampleServoConf 400 (toUint16 (toInt16 2000)) = some 1300 by decide,
      hdA]
    decide
  exact triServoMixer_servo_command (sampleExternal sampleLibm) sampleInput 2000 sampleState
    sampleState 1000 2000 903 rfl hs rfl (by decide) hang

/-! ## The calibration session -/

theorem tailTuneModeThrustTorque_flags (ext : External) (inp : TickInput) (b : Bool)
    (st st' : State) (h : tailTuneModeThrustTorque ext inp b st = some st') :
    st'.tailTune.mode = st.tailTune.mode ∧ st'.tailTuneFlightMode = st.tailTuneFlightMode ∧
      st'.preventArming = st.preventArming := by
  unfold tailTuneModeThrustTorque at h
  simp only [Option.bind_eq_bind, pure] at h
  split at h
  all_goals (split_ifs at h)
  all_goals (try simp only [Option.bind_eq_some] at h)
  all_goals (try obtain ⟨_, _, h⟩ := h)
  all_goals (try obtain ⟨_, _, h⟩ := h)
  all_goals (try obtain ⟨_, _, h⟩ := h)
  all_goals (try obtain ⟨_, _, h⟩ := h)
  all_goals first | (cases h; simp [State.emit, State.setTT]) | simp [State.emit, State.setTT]

theorem servoSetupModeSelect_flags (inp : TickInput) (st : State) :
    (servoSetupModeSelect inp st).tailTune.mode = st.tailTune.mode ∧
    (servoSetupModeSelect inp st).tailTuneFlightMode = st.tailTuneFlightMode ∧
    (servoSetupModeSelect inp st).preventArming = st.preventArming := by
  unfold servoSetupModeSelect
  simp only
  split_ifs <;> simp [State.emit, State.setSS]

theorem servoSetupTrim_flags (inp : TickInput) (st st' : State)
    (h : servoSetupTrim inp st = some st') :
    st'.tailTune.mode = st.tailTune.mode ∧ st'.tailTuneFlightMode = st.tailTuneFlightMode ∧
      st'.preventArming = st.preventArming := by
  unfold servoSetupTrim at h
  simp only [Option.bind_eq_bind, pure] at h
  split_ifs at h
  all_goals (try simp only [Option.bind_eq_some] at h)
  all_goals (try obtain ⟨_, _, h⟩ := h)
  all_goals (try obtain ⟨_, _, h⟩ := h)
  all_goals first | (cases h; simp [State.emit, State.setSS]) | simp [State.emit, State.setSS]

theorem servoCalibTransition_flags (inp : TickInput) (st st' : State)
    (h : servoCalibTransition inp st = some st') :
    st'.tailTune.mode = st.tailTune.mode ∧ st'.tailTuneFlightMode = st.tailTuneFlightMode ∧
      st'.preventArming = st.preventArming := by
  unfold servoCalibTransition at h
  simp only [Option.bind_eq_bind, pure] at h
  split_ifs at h
  all_goals (try split at h)
  all_goals (try simp only [Option.some_bind, Option.bind_eq_some] at h)
  all_goals (try obtain ⟨d, hd, h⟩ := h)
  all_goals (try split_ifs at h)
  all_goals first | (cases h; simp [State.emit, State.setSS]) | simp [State.emit, State.setSS]

theorem servoCalibStep_flags (inp : TickInput) (st st' : State)
    (h : servoCalibStep inp st = some st') :
    st'.tailTune.mode = st.tailTune.mode ∧ st'.tailTuneFlightMode = st.tailTuneFlightMode ∧
      st'.preventArming = st.preventArming := by
  unfold servoCalibStep at h
  simp only [Option.bind_eq_bind, pure] at h
  split at h
  all_goals (try split at h)
  all_goals (try split_ifs at h)
  all_goals (try simp only [Option.some_bind, Option.bind_eq_some] at h)
  all_goals (try obtain ⟨d, hd, h⟩ := h)
  all_goals (try split_ifs at h)
  all_goals (try simp only [Option.some_bind, Option.bind_eq_some] at h)
  all_goals (try obtain ⟨e, he, h⟩ := h)
  all_goals first | (cases h; simp [State.emit, State.setSS]) | simp [State.emit, State.setSS]

theorem tailTuneModeServoSetup_flags (inp : TickInput) (st st' : State)
    (h : tailTuneModeServoSetup inp st = some st') :
    st'.tailTune.mode = st.tailTune.mode ∧ st'.tailTuneFlightMode = st.tailTuneFlightMode ∧
      st'.preventArming = st.preventArming := by
  have hs := servoSetupModeSelect_flags inp st
  unfold tailTuneModeServoSetup at h
  simp only [Option.bind_eq_bind, pure] at h
  split at h
  · simp only [Option.some_bind, Option.bind_eq_some] at h
    obtain ⟨v, _, h⟩ := h
    cases h
    exact hs
  · simp only [Option.bind_eq_some] at h
    obtain ⟨st2, h2, v, _, h⟩ := h
    cases h
    have t := servoSetupTrim_flags inp _ _ h2
    exact ⟨t.1.trans hs.1, t.2.1.trans hs.2.1, t.2.2.trans hs.2.2⟩
  · simp only [Option.bind_eq_some] at h
    obtain ⟨st3, h3, st2, h2, v, _, h⟩ := h
    cases h
    have t1 := servoCalibTransition_flags inp _ _ h3
    have t2 := servoCalibStep_flags inp _ _ h2
    exact ⟨(t2.1.trans t1.1).trans hs.1, (t2.2.1.trans t1.2.1).trans hs.2.1,
      (t2.2.2.trans t1.2.2).trans hs.2.2⟩

theorem triTailTuneStep_sessionInv (ext : External) (inp : TickInput) (st st' : State)
    (hi : sessionInv st) (h : triTailTuneStep ext inp st = some st') : sessionInv st' := by
  unfold triTailTuneStep at h
  by_cases hb : inp.boxTailTune = true
  · rw [if_neg (by simp [hb])] at h
    intro _
    dsimp only at h
    split at h
    · exact (tailTuneModeThrustTorque_flags ext inp _ _ _ h).2.1.trans (by split_ifs <;> rfl)
    · exact (tailTuneModeServoSetup_flags inp _ _ h).2.1.trans (by split_ifs <;> rfl)
    · cases h; split_ifs <;> rfl
  · rw [if_pos hb] at h
    split_ifs at h with hf
    · cases h; intro hm; exact absurd rfl hm
    · cases h; intro hm; exact absurd (hi hm) hf

theorem runTailTune_sessionInv (ext : External) (inps : List TickInput) :
    ∀ (st st' : State), sessionInv st → runTailTune ext inps st = some st' → sessionInv st' := by
  induction inps with
  | nil => intro st st' hi h; cases h; exact hi
  | cons inp rest ih =>
    intro st st' hi h
    unfold runTailTune at h
    simp only [Option.bind_eq_some] at h
    obtain ⟨st1, h1, h2⟩ := h
    exact ih st1 st' (triTailTuneStep_sessionInv ext inp st st1 hi h1) h2

/-- C12: in every state reached from an initial state (session mode none, tune flag clear)
by any sequence of `triTailTuneStep` ticks, an active session mode implies that the tune flag
is set; hence a tick with the tune switch inactive returns, leaves the mode none and the tune
flag clear, and clears the prevent-arming flag when a session was active. -/
theorem triTailTuneStep_deactivation (ext : External) (inps : List TickInput)
    (st0 st : State) (inp : TickInput)
    (hmode : st0.tailTune.mode = .TT_MODE_NONE)
    (hreach : runTailTune ext inps st0 = some st) (hbox : inp.boxTailTune = false) :
    (st.tailTune.mode ≠ .TT_MODE_NONE → st.tailTuneFlightMode = true) ∧
    ∃ st', triTailTuneStep ext inp st = some st' ∧
      st'.tailTune.mode = .TT_MODE_NONE ∧ st'.tailTuneFlightMode = false ∧
      (st.tailTune.mode ≠ .TT_MODE_NONE → st'.preventArming = false) := by
  have hinv : sessionInv st :=
    runTailTune_sessionInv ext inps st0 st (fun hm => absurd hmode hm) hreach
  refine ⟨hinv, ?_⟩
  unfold triTailTuneStep
  rw [if_pos (by simp [hbox])]
  by_cases hf : st.tailTuneFlightMode = true
  · rw [if_pos hf]
    exact ⟨_, rfl, rfl, rfl, fun _ => rfl⟩
  · rw [if_neg hf]
    refine ⟨_, rfl, ?_, by simpa using hf, fun hm => absurd (hinv hm) hf⟩
    by_contra hm
    exact hf (hinv hm)

theorem gestureMin_run :
    runTailTune (sampleExternal sampleLibm) [gestureMinInput] sampleState =
      triTailTuneStep (sampleExternal sampleLibm) gestureMinInput sampleState := by
  unfold runTailTune runTailTune
  cases triTailTuneStep (sampleExternal sampleLibm) gestureMinInput sampleState <;> rfl

theorem gestureMin_mode :
    (triTailTuneStep (sampleExternal sampleLibm) gestureMinInput sampleState).map
      (fun s => (s.tailTune.mode, s.tailTune.ss.state, s.preventArming)) =
      some (.TT_MODE_SERVO_SETUP, .SS_SETUP, true) := by
  decide!

theorem triTailTuneStep_deactivation_witness :
    ∃ st, runTailTune (sampleExternal sampleLibm) [gestureMinInput] sampleState = some st ∧
      st.tailTune.mode = .TT_MODE_SERVO_SETUP ∧
      ∃ st', triTailTuneStep (sampleExternal sampleLibm) sampleInput st = some st' ∧
        st'.tailTune.mode = .TT_MODE_NONE ∧ st'.tailTuneFlightMode = false ∧
        st'.preventArming = false := by
  obtain ⟨st, hst, hp⟩ := Option.map_eq_some'.1 gestureMin_mode
  have hm : st.tailTune.mode = .TT_MODE_SERVO_SETUP := congrArg (fun p => p.1) hp
  have hr := gestureMin_run.trans hst
  obtain ⟨_, st', h1, h2, h3, h4⟩ := triTailTuneStep_deactivation (sampleExternal sampleLibm)
    [gestureMinInput] sampleState st sampleInput rfl hr rfl
  exact ⟨st, hr, hm, st', h1, h2, h3, h4 (by rw [hm]; decide)⟩

/-- C11: an activation while disarmed does not restart the servo setup from `SS_IDLE`.
From the sample state (no session, limits 1000/1500/2000) the ticks "roll left with the tune
switch on", "switch off" leave the mode none and the setup state `SS_SETUP`; on the next
activation with centred sticks the mode becomes servo setup with arming prevented, but the
setup state after the tick is `SS_SETUP`, not `SS_IDLE`, and with the yaw stick deflected
that tick stores 1499 into the `min` limit.  The armed activation does reset its state
machine: the step from a leftover `TT_FAIL` ends in `TT_IDLE`. -/
theorem triTailTuneStep_activation_keeps_setup_state :
    (runTailTune (sampleExternal sampleLibm) [gestureMinInput, switchOffInput] sampleState).map
        (fun s => (s.tailTune.mode, s.tailTune.ss.state, s.tailServoConf.min)) =
      some (.TT_MODE_NONE, .SS_SETUP, 1000) ∧
    (runTailTune (sampleExternal sampleLibm) [gestureMinInput, switchOffInput, switchOnInput]
        sampleState).map
        (fun s => (s.tailTune.mode, s.preventArming, s.tailTune.ss.state)) =
      some (.TT_MODE_SERVO_SETUP, true, .SS_SETUP) ∧
    (runTailTune (sampleExternal sampleLibm) [gestureMinInput, switchOffInput, yawTrimInput]
        sampleState).map
        (fun s => (s.tailTune.mode, s.tailTune.ss.state, s.tailServoConf.min)) =
      some (.TT_MODE_SERVO_SETUP, .SS_SETUP, 1499) ∧
    (triTailTuneStep (sampleExternal sampleLibm) { sampleInput with boxTailTune := true }
        (sampleState.setTT { sampleState.tailTune.tt with state := .TT_FAIL })).map
        (fun s => (s.tailTune.mode, s.tailTune.tt.state)) =
      some (.TT_MODE_THRUST_TORQUE, .TT_IDLE) := by
  refine ⟨?_, ?_, ?_, ?_⟩ <;> decide!

theorem servoSetupModeSelect_events (inp : TickInput) (st : State) :
    ((servoSetupModeSelect inp st).events = st.events ∨
      (servoSetupModeSelect inp st).tailTune.ss.state = .SS_SETUP) ∧
    (servoSetupModeSelect inp st).mixerConfig = st.mixerConfig ∧
    (servoSetupModeSelect inp st).tailServo = st.tailServo := by
  unfold servoSetupModeSelect
  simp only
  split_ifs <;> simp [State.emit, State.setSS]

theorem servoSetupTrim_state (inp : TickInput) (st st' : State)
    (h : servoSetupTrim inp st = some st') :
    st'.tailTune.ss.state = st.tailTune.ss.state ∧ st'.events = st.events ∧
      st'.mixerConfig = st.mixerConfig ∧ st'.tailServo = st.tailServo := by
  unfold servoSetupTrim at h
  simp only [Option.bind_eq_bind, pure] at h
  split_ifs at h
  all_goals (try simp only [Option.bind_eq_some] at h)
  all_goals (try obtain ⟨_, _, h⟩ := h)
  all_goals (try obtain ⟨_, _, h⟩ := h)
  all_goals first | (cases h; simp [State.emit, State.setSS]) | simp [State.emit, State.setSS]

theorem servoCalibTransition_events (inp : TickInput) (st st' : State)
    (h : servoCalibTransition inp st = some st') :
    (st'.tailTune.ss.state = .SS_IDLE ∨
      (st'.tailTune.ss.state = st.tailTune.ss.state ∧ st'.events = st.events)) ∧
    st'.mixerConfig = st.mixerConfig ∧ st'.tailServo = st.tailServo := by
  unfold servoCalibTransition at h
  simp only [Option.bind_eq_bind, pure] at h
  split_ifs at h
  all_goals (try split at h)
  all_goals (try simp only [Option.some_bind, Option.bind_eq_some] at h)
  all_goals (try obtain ⟨d, hd, h⟩ := h)
  all_goals (try split_ifs at h)
  all_goals first | (cases h; simp [State.emit, State.setSS]) | simp [State.emit, State.setSS]

theorem servoCalibStep_state (inp : TickInput) (st st' : State)
    (h : servoCalibStep inp st = some st') :
    st'.tailTune.ss.state = st.tailTune.ss.state ∧ st'.events = st.events := by
  unfold servoCalibStep at h
  simp only [Option.bind_eq_bind, pure] at h
  split at h
  all_goals (try split at h)
  all_goals (try split_ifs at h)
  all_goals (try simp only [Option.some_bind, Option.bind_eq_some] at h)
  all_goals (try obtain ⟨d, hd, h⟩ := h)
  all_goals (try split_ifs at h)
  all_goals (try simp only [Option.some_bind, Option.bind_eq_some] at h)
  all_goals (try obtain ⟨e, he, h⟩ := h)
  all_goals first | (cases h; simp [State.emit, State.setSS]) | simp [State.emit, State.setSS]

theorem tailTuneModeServoSetup_calib_events (inp : TickInput) (st st' : State)
    (h : tailTuneModeServoSetup inp st = some st')
    (hc : st'.tailTune.ss.state = .SS_CALIB) : st'.events = st.events := by
  have hs := (servoSetupModeSelect_events inp st).1
  unfold tailTuneModeServoSetup at h
  simp only [Option.bind_eq_bind, pure] at h
  split at h
  · rename_i hst
    simp only [Option.some_bind, Option.bind_eq_some] at h
    obtain ⟨v, _, h⟩ := h
    cases h
    simp only [hst] at hc
    cases hc
  · rename_i hst
    simp only [Option.bind_eq_some] at h
    obtain ⟨st2, h2, v, _, h⟩ := h
    cases h
    have t := servoSetupTrim_state inp _ _ h2
    simp only [t.1, hst] at hc
    cases hc
  · rename_i hst
    simp only [Option.bind_eq_some] at h
    obtain ⟨st3, h3, st2, h2, v, _, h⟩ := h
    cases h
    have t1 := (servoCalibTransition_events inp _ _ h3).1
    have t2 := servoCalibStep_state inp _ _ h2
    simp only [t2.1] at hc
    show st2.events = st.events
    rw [t2.2]
    rcases t1 with t1 | t1
    · rw [t1] at hc; cases hc
    · rw [t1.2]
      rcases hs with hs | hs
      · exact hs
      · rw [hs] at hst; cases hst
theorem gestureCalib_step :
    (triTailTuneStep (sampleExternal sampleLibm) gestureCalibInput feedbackState).map
      (fun s => s.tailTune.ss.state) = some .SS_CALIB := by
  decide!

/-- C13 (counterexample): from the sample state with a feedback reading of 1234 and a min
ADC reference of 0, the ticks "calibration gesture at 0 ms", "sticks centred at 550 ms" and
"at 650 ms" complete the min stop, the session still being in `SS_CALIB`; switching the tune
switch off at 651 ms ends the session without a save, and the min ADC reference of the
configuration is 1234, not its value before the session. -/
theorem triTailTuneStep_deactivation_mid_calib_counterexample :
    feedbackState.mixerConfig.tri_servo_min_adc = 0 ∧
    (runTailTune (sampleExternal sampleLibm)
        [gestureCalibInput, { switchOnInput with now_ms := 550 },
          { switchOnInput with now_ms := 650 }] feedbackState).map
        (fun s => (s.tailTune.mode, s.tailTune.ss.state, s.tailTune.ss.cal.state,
          s.tailTune.ss.cal.subState)) =
      some (.TT_MODE_SERVO_SETUP, .SS_CALIB, .SS_C_CALIB_MIN_MID_MAX, .SS_C_MIN) ∧
    (runTailTune (sampleExternal sampleLibm)
        [gestureCalibInput, { switchOnInput with now_ms := 550 },
          { switchOnInput with now_ms := 650 }, { switchOffInput with now_ms := 651 }]
        feedbackState).map
        (fun s => (s.tailTune.mode, s.mixerConfig.tri_servo_min_adc, s.events)) =
      some (.TT_MODE_NONE, 1234, []) := by
  refine ⟨rfl, ?_, ?_⟩ <;> decide!

/-- C13 (amended): a tick of the servo setup that ends in `SS_CALIB` makes no call into
another module (no save), and a following tick with the tune switch inactive returns, sets
the session mode to none and changes neither the mixer configuration (ADC references and
servo speed), nor the tail servo data, nor the servo limits, nor makes a call: what the
calibration has stored so far stays in the configuration, unsaved. -/
theorem triTailTuneStep_deactivation_mid_calib (ext : External) (inp1 inp2 : TickInput)
    (st st1 : State)
    (hmode : st.tailTune.mode = .TT_MODE_SERVO_SETUP ∨
      (st.tailTune.mode = .TT_MODE_NONE ∧ inp1.armed = false))
    (hon : inp1.boxTailTune = true)
    (h1 : triTailTuneStep ext inp1 st = some st1)
    (hcal : st1.tailTune.ss.state = .SS_CALIB)
    (hoff : inp2.boxTailTune = false) :
    st1.events = st.events ∧
    ∃ st2, triTailTuneStep ext inp2 st1 = some st2 ∧ st2.tailTune.mode = .TT_MODE_NONE ∧
      st2.mixerConfig = st1.mixerConfig ∧ st2.tailServo = st1.tailServo ∧
      st2.tailServoConf = st1.tailServoConf ∧ st2.events = st.events := by
  have key : st1.events = st.events ∧ st1.tailTuneFlightMode = true := by
    unfold triTailTuneStep at h1
    rw [if_neg (by simp [hon])] at h1
    dsimp only at h1
    rcases hmode with hm | ⟨hm, ha⟩
    · simp only [hm, if_neg (by decide : ¬ TailTuneMode.TT_MODE_SERVO_SETUP = .TT_MODE_NONE)]
        at h1
      have e := tailTuneModeServoSetup_calib_events inp1 _ _ h1 hcal
      have f := (tailTuneModeServoSetup_flags inp1 _ _ h1).2.1
      exact ⟨e, f⟩
    · simp only [hm, ha, if_true, Bool.false_eq_true, if_false] at h1
      have e := tailTuneModeServoSetup_calib_events inp1 _ _ h1 hcal
      have f := (tailTuneModeServoSetup_flags inp1 _ _ h1).2.1
      exact ⟨e, f⟩
  refine ⟨key.1, ?_⟩
  unfold triTailTuneStep
  rw [if_pos (by simp [hoff]), if_pos key.2]
  exact ⟨_, rfl, rfl, rfl, rfl, rfl, key.1⟩

theorem triTailTuneStep_deactivation_mid_calib_witness :
    ∃ st1, triTailTuneStep (sampleExternal sampleLibm) gestureCalibInput feedbackState =
        some st1 ∧ st1.events = feedbackState.events ∧
      ∃ st2, triTailTuneStep (sampleExternal sampleLibm) switchOffInput st1 = some st2 ∧
        st2.tailTune.mode = .TT_MODE_NONE ∧ st2.mixerConfig = st1.mixerConfig ∧
        st2.tailServo = st1.tailServo ∧ st2.tailServoConf = st1.tailServoConf ∧
        st2.events = feedbackState.events := by
  obtain ⟨st1, hst, hp⟩ := Option.map_eq_some'.1 gestureCalib_step
  obtain ⟨he, h⟩ := triTailTuneStep_deactivation_mid_calib (sampleExternal sampleLibm)
    gestureCalibInput switchOffInput feedbackState st1 (Or.inr ⟨rfl, rfl⟩) rfl hst hp rfl
  exact ⟨st1, hst, he, h⟩

/-- C14: in state `TT_WAIT_FOR_DISARM`, on a step where the craft is disarmed (the number of
samples being non-zero and the gyro limit times ten an `int16_t`), with `avg` the binary32
value of `sum / 10 / numOf` and `t` the binary32 value of `(avg - 90) * RAD`: exactly when
`90.5 < avg < 120` the state becomes `TT_DONE`, the configured thrust factor, an `int16_t`,
becomes the integer part of the binary32 quotient `10 * cos_approx t / sin_approx t` and the
configuration is saved; otherwise the state becomes `TT_FAIL`, the mixer configuration is
unchanged and nothing is saved. -/
theorem tailTuneModeThrustTorque_wait_for_disarm (ext : External) (inp : TickInput)
    (isThrottleHigh : Bool) (st : State) (g : Int) (avg t : ℚ)
    (hstate : st.tailTune.tt.state = .TT_WAIT_FOR_DISARM) (harmed : inp.armed = false)
    (hnum : st.tailTune.tt.servoAvgAngle.numOf ≠ 0)
    (hg : floatToInt16 (f32 (st.tailTune.tt.tailTuneGyroLimit * 10)) = some g)
    (havg : avg = f32 (f32 (f32 (st.tailTune.tt.servoAvgAngle.sum : ℚ) / 10) /
      f32 (st.tailTune.tt.servoAvgAngle.numOf : ℚ)))
    (ht : t = f32 (f32 (avg - 90) * ext.libm.RAD))
    (hsin : 181 / 2 < avg → avg < 120 → ext.libm.sin_approx t ≠ 0 ∧
      -32768 ≤ truncQ (f32 (f32 (10 * ext.libm.cos_approx t) / ext.libm.sin_approx t)) ∧
      truncQ (f32 (f32 (10 * ext.libm.cos_approx t) / ext.libm.sin_approx t)) ≤ 32767) :
    ∃ st', tailTuneModeThrustTorque ext inp isThrottleHigh st = some st' ∧
      if 181 / 2 < avg ∧ avg < 120 then
        st'.tailTune.tt.state = .TT_DONE ∧
        st'.mixerConfig.tri_tail_motor_thrustfactor =
          truncQ (f32 (f32 (10 * ext.libm.cos_approx t) / ext.libm.sin_approx t)) ∧
        st'.events = st.events ++ [.saveConfigAndNotify]
      else
        st'.tailTune.tt.state = .TT_FAIL ∧ st'.mixerConfig = st.mixerConfig ∧
        st'.events = st.events := by
  have havg2 : averageServoAngleValue st.tailTune.tt.servoAvgAngle.sum
      st.tailTune.tt.servoAvgAngle.numOf = avg := havg.symm
  unfold tailTuneModeThrustTorque
  simp only [hstate, harmed, Option.bind_eq_bind, pure, Bool.false_eq_true, not_false_eq_true,
    if_true]
  simp only [divU32, hnum, if_false, Option.some_bind, hg, havg2, gt_iff_lt]
  by_cases hr : 181 / 2 < avg ∧ avg < 120
  · obtain ⟨h1, h2, h3⟩ := hsin hr.1 hr.2
    simp only [if_pos hr]
    simp only [← ht, fdiv, h1, if_false, Option.some_bind, floatToInt16, h2, h3, and_self,
      if_true]
    refine ⟨_, rfl, ?_⟩
    simp [State.emit, State.setTT]
  · simp only [if_neg hr]
    refine ⟨_, rfl, ?_⟩
    simp [State.emit, State.setTT]

theorem taylor_ratio_15 :
    averageServoAngleValue 525000 500 = 105 ∧
    truncQ (f32 (f32 (10 * taylorLibm.cos_approx (f32 (f32 (105 - 90) * taylorLibm.RAD))) /
      taylorLibm.sin_approx (f32 (f32 (105 - 90) * taylorLibm.RAD)))) = 37 ∧
    taylorLibm.sin_approx (f32 (f32 (105 - 90) * taylorLibm.RAD)) ≠ 0 ∧
    averageServoAngleValue 650000 500 = 130 := by
  decide!

/-- The configured thrust factor is not the quotient `10 * cos(t) / sin(t)`: for an average of
105 degrees the quotient lies between 37.3 and 37.4, evaluated exactly as well as in
binary32, and the step stores 37 in the `int16_t` field. -/
theorem tailTuneModeThrustTorque_thrust_factor_counterexample :
    (tailTuneModeThrustTorque (sampleExternal taylorLibm) switchOffInput false
        (waitForDisarmState 525000 500)).map
      (fun s => (s.tailTune.tt.state, s.mixerConfig.tri_tail_motor_thrustfactor)) =
      some (.TT_DONE, 37) ∧
    averageServoAngleValue 525000 500 = 105 ∧
    373 / 10 < 10 * taylorLibm.cos_approx ((105 - 90) * taylorLibm.RAD) /
      taylorLibm.sin_approx ((105 - 90) * taylorLibm.RAD) ∧
    10 * taylorLibm.cos_approx ((105 - 90) * taylorLibm.RAD) /
      taylorLibm.sin_approx ((105 - 90) * taylorLibm.RAD) < 374 / 10 ∧
    373 / 10 < f32 (f32 (10 * taylorLibm.cos_approx (f32 (f32 (105 - 90) * taylorLibm.RAD))) /
      taylorLibm.sin_approx (f32 (f32 (105 - 90) * taylorLibm.RAD))) ∧
    f32 (f32 (10 * taylorLibm.cos_approx (f32 (f32 (105 - 90) * taylorLibm.RAD))) /
      taylorLibm.sin_approx (f32 (f32 (105 - 90) * taylorLibm.RAD))) < 374 / 10 := by
  decide!

theorem tailTuneModeThrustTorque_wait_for_disarm_witness :
    (∃ st', tailTuneModeThrustTorque (sampleExternal taylorLibm) switchOffInput false
        (waitForDisarmState 525000 500) = some st' ∧
      st'.tailTune.tt.state = .TT_DONE ∧ st'.mixerConfig.tri_tail_motor_thrustfactor = 37 ∧
      st'.events = [.saveConfigAndNotify]) ∧
    (∃ st', tailTuneModeThrustTorque (sampleExternal taylorLibm) switchOffInput false
        (waitForDisarmState 650000 500) = some st' ∧
      st'.tailTune.tt.state = .TT_FAIL ∧ st'.mixerConfig.tri_tail_motor_thrustfactor = 138 ∧
      st'.events = []) := by
  constructor
  · obtain ⟨st', h, hc⟩ := tailTuneModeThrustTorque_wait_for_disarm (sampleExternal taylorLibm)
      switchOffInput false (waitForDisarmState 525000 500) 35 105
      (f32 (f32 (105 - 90) * taylorLibm.RAD)) rfl rfl (by decide) (by decide!)
      taylor_ratio_15.1.symm rfl
      (fun _ _ => ⟨taylor_ratio_15.2.2.1, le_of_le_of_eq (by decide) taylor_ratio_15.2.1.symm,
        le_of_eq_of_le taylor_ratio_15.2.1 (by decide)⟩)
    rw [if_pos (by norm_num)] at hc
    exact ⟨st', h, hc.1, hc.2.1.trans taylor_ratio_15.2.1, hc.2.2⟩
  · obtain ⟨st', h, hc⟩ := tailTuneModeThrustTorque_wait_for_disarm (sampleExternal taylorLibm)
      switchOffInput false (waitForDisarmState 650000 500) 35 130
      (f32 (f32 (130 - 90) * taylorLibm.RAD)) rfl rfl (by decide) (by decide!)
      taylor_ratio_15.2.2.2.symm rfl
      (fun h1 h2 => absurd h2 (by norm_num))
    rw [if_neg (by norm_num)] at hc
    exact ⟨st', h, hc.1, by rw [hc.2.1]; rfl, hc.2.2⟩

/-! ## The servo speed calibration -/

theorem servoCalibStep_speed (inp : TickInput) (st st1 : State) (s : Int)
    (hI : speedCalibInv st.tailTune.ss.cal)
    (hs : st.tailTune.ss.cal.avg.sum = s % 4294967296)
    (h : servoCalibStep inp st = some st1) :
    st1.tailServo.maxAngle = st.tailServo.maxAngle ∧
    (st1.tailTune.ss.cal.done = true →
      ∃ d, speedMeasurement inp st = some d ∧ st.tailTune.ss.cal.avg.numOf = 5 ∧
        st1.tailServo.speed = truncQ (2 * (st.tailServo.maxAngle : ℚ) / 10 /
          (((s + d) % 4294967296 / 6 : Int) : ℚ) * 1000) ∧
        st1.mixerConfig.tri_tail_servo_speed = st1.tailServo.speed) ∧
    (st1.tailTune.ss.cal.done = false →
      speedCalibInv st1.tailTune.ss.cal ∧
      st1.tailTune.ss.cal.avg.numOf =
        st.tailTune.ss.cal.avg.numOf + ((speedMeasurement inp st).toList.length : Int) ∧
      st1.tailTune.ss.cal.avg.sum = (s + (speedMeasurement inp st).toList.sum) % 4294967296) := by
  obtain ⟨hst, hd, h0, h5, hm, hp⟩ := hI
  unfold servoCalibStep at h
  unfold speedMeasurement
  simp only [hst, Option.bind_eq_bind, pure] at h ⊢
  cases hsub : st.tailTune.ss.cal.subState
  · simp only [hsub, true_iff] at h hp ⊢
    by_cases hadc : st.tailServo.ADC < st.mixerConfig.tri_servo_min_adc + 10
    · by_cases hw : st.tailTune.ss.cal.waitingServoToStop = true
      · simp only [hadc, hw, not_true_eq_false, if_false, if_true, and_false, iff_true] at h hp ⊢
        split_ifs at h <;> cases h <;>
          simp [speedCalibInv, State.setSS, hst, hd, h0, h5, hp, hs, hsub, hw]
      · simp only [hadc, hw, not_false_eq_true, if_true, and_self, iff_false] at h hp ⊢
        have hu16 : toUint16 (st.tailTune.ss.cal.avg.numOf + 1) =
            st.tailTune.ss.cal.avg.numOf + 1 := by
          unfold toUint16; omega
        have hu32 : toUint32 (st.tailTune.ss.cal.avg.sum +
              GetCurrentDelay_ms inp.now_ms st.tailTune.ss.cal.timestamp_ms) =
            (s + GetCurrentDelay_ms inp.now_ms st.tailTune.ss.cal.timestamp_ms) % 4294967296 := by
          rw [hs]; unfold toUint32; omega
        rw [hu16, hu32] at h
        have hodd : st.tailTune.ss.cal.avg.numOf % 2 = 1 := by
          have hne : ¬ st.tailTune.ss.cal.avg.numOf % 2 = 0 := fun h2 => by simpa using hp.1 h2
          omega
        by_cases hk : st.tailTune.ss.cal.avg.numOf = 5
        · rw [hk] at h
          simp only [Bool.false_eq_true, not_false_eq_true, if_true, Int.reduceAdd, gt_iff_lt,
            Int.reduceLT, divU32, OfNat.ofNat_ne_zero, if_false, Option.some_bind] at h
          split_ifs at h with ha
          unfold floatToInt16 at h
          split_ifs at h
          · simp only [Option.some_bind] at h
            cases h
            simp [State.setSS, hk]
          · simp at h
        · have hlt : ¬ st.tailTune.ss.cal.avg.numOf + 1 > 5 := by omega
          simp only [Bool.false_eq_true, not_false_eq_true, if_true, hlt, if_false] at h
          cases h
          simp [speedCalibInv, State.setSS, hst, hd, h0, h5, hp, hs, hsub, hw]
          omega
    · simp only [hadc, if_false, false_and] at h ⊢
      cases h
      simp [speedCalibInv, hst, hd, h0, h5, hsub, hp, hs]
  · exact absurd hsub hm
  · simp only [hsub, false_iff, reduceCtorEq] at h hp ⊢
    by_cases hadc : st.tailServo.ADC > st.mixerConfig.tri_servo_max_adc - 10
    · by_cases hw : st.tailTune.ss.cal.waitingServoToStop = true
      · simp only [hadc, hw, not_true_eq_false, if_false, if_true, and_false, iff_true,
          not_true_eq_false, iff_false] at h hp ⊢
        split_ifs at h <;> cases h <;>
          simp [speedCalibInv, State.setSS, hst, hd, h0, h5, hp, hs, hsub, hw]
      · simp only [hadc, hw, not_false_eq_true, if_true, and_self, iff_true] at h hp ⊢
        have hu16 : toUint16 (st.tailTune.ss.cal.avg.numOf + 1) =
            st.tailTune.ss.cal.avg.numOf + 1 := by
          unfold toUint16; omega
        have hu32 : toUint32 (st.tailTune.ss.cal.avg.sum +
              GetCurrentDelay_ms inp.now_ms st.tailTune.ss.cal.timestamp_ms) =
            (s + GetCurrentDelay_ms inp.now_ms st.tailTune.ss.cal.timestamp_ms) % 4294967296 := by
          rw [hs]; unfold toUint32; omega
        rw [hu16, hu32] at h
        simp only [Bool.false_eq_true, not_false_eq_true, if_true] at h
        cases h
        have hev : st.tailTune.ss.cal.avg.numOf % 2 = 0 := hp.2 (by simp)
        simp [speedCalibInv, State.setSS, hst, hd, h0, h5, hp, hs, hsub, hw]
        omega
    · simp only [hadc, if_false, false_and] at h ⊢
      cases h
      simp [speedCalibInv, hst, hd, h0, h5, hsub, hp, hs]

theorem runSpeedCalib_spec (ticks : List (TickInput × Int)) :
    ∀ (st st' : State) (s : Int) (ms : List Int),
      speedCalibInv st.tailTune.ss.cal → st.tailTune.ss.cal.avg.sum = s % 4294967296 →
      runSpeedCalib ticks st = some (st', ms) → st'.tailTune.ss.cal.done = true →
      st.tailTune.ss.cal.avg.numOf + (ms.length : Int) = 6 ∧
      st'.tailServo.speed = truncQ (2 * (st.tailServo.maxAngle : ℚ) / 10 /
        (((s + ms.sum) % 4294967296 / 6 : Int) : ℚ) * 1000) ∧
      st'.mixerConfig.tri_tail_servo_speed = st'.tailServo.speed := by
  induction ticks with
  | nil =>
    intro st st' s ms hI _ h hdone
    unfold runSpeedCalib at h
    cases h
    rw [hI.2.1] at hdone
    cases hdone
  | cons tick rest ih =>
    intro st st' s ms hI hs h hdone
    obtain ⟨inp, adc⟩ := tick
    unfold runSpeedCalib at h
    simp only [Option.bind_eq_some] at h
    obtain ⟨st1, h1, h2⟩ := h
    obtain ⟨hmax, hyes, hno⟩ := servoCalibStep_speed inp (st.setADC adc) st1 s hI hs h1
    generalize speedMeasurement inp (st.setADC adc) = m at h2 hyes hno
    have hmax0 : (st.setADC adc).tailServo.maxAngle = st.tailServo.maxAngle := rfl
    have hnum0 : (st.setADC adc).tailTune.ss.cal.avg.numOf = st.tailTune.ss.cal.avg.numOf := rfl
    rw [hmax0] at hmax hyes
    rw [hnum0] at hyes hno
    by_cases hd1 : st1.tailTune.ss.cal.done = true
    · rw [if_pos hd1] at h2
      cases h2
      obtain ⟨d, hm, hk, hsp, hcfg⟩ := hyes hd1
      subst hm
      refine ⟨?_, ?_, hcfg⟩
      · rw [hk]
        rfl
      · rw [hsp]
        simp
    · rw [if_neg hd1] at h2
      simp only [Option.map_eq_some'] at h2
      obtain ⟨r, hr, hrr⟩ := h2
      cases hrr
      have hd0 : st1.tailTune.ss.cal.done = false := by simpa using hd1
      obtain ⟨hI1, hn1, hs1⟩ := hno hd0
      obtain ⟨a1, a2, a3⟩ := ih st1 r.1 _ r.2 hI1 hs1 (by rw [hr]) hdone
      refine ⟨?_, ?_, a3⟩
      · rw [hn1] at a1
        simp only [List.length_append, Nat.cast_add]
        omega
      · rw [a2, hmax, List.sum_append, add_assoc]

theorem speedCalibTrace_run :
    ((servoCalibTransition switchOnInput maxStopDoneState).bind
        (runSpeedCalib speedCalibTrace)).map
      (fun r => (r.1.tailTune.ss.cal.done, r.1.tailServo.speed,
        r.1.mixerConfig.tri_tail_servo_speed, r.2)) =
      some (true, 727, 727, [100, 100, 100, 100, 100, 160]) := by
  decide!

theorem speedCalibTrace_prefix_run :
    ((servoCalibTransition switchOnInput maxStopDoneState).bind
        (runSpeedCalib (speedCalibTrace.take 11))).map
      (fun r => (r.1.tailTune.ss.cal.done, r.1.tailServo.speed,
        r.1.mixerConfig.tri_tail_servo_speed, r.2)) =
      some (false, 300, 300, [100, 100, 100, 100, 100]) := by
  decide!

theorem servoSetupModeSelect_noGesture (inp : TickInput) (st : State)
    (hg : noSelectionGesture inp) : servoSetupModeSelect inp st = st := by
  obtain ⟨h1, h2, h3, h4⟩ := hg
  unfold servoSetupModeSelect
  simp only [if_neg h1, if_neg h2, if_neg h3, if_neg h4]

theorem ABS_eq_abs (x : Int) (h1 : -2147483648 < x) (h2 : x ≤ 2147483647) :
    ABS x = some |x| := by
  unfold ABS i32
  split_ifs with h3 h4
  · rw [abs_of_pos h3]
  · rw [abs_of_nonpos (by omega)]
  · omega

theorem IsDelayElapsed_ms_self (now_ms delay_ms : Int) (h : 0 < delay_ms) :
    IsDelayElapsed_ms now_ms now_ms delay_ms = false := by
  unfold IsDelayElapsed_ms toUint32
  simp
  omega

/-- C16: on a servo setup tick without selection gesture, in `SS_CALIB` with the `mid` stop of
the feedback calibration done: the tick returns and changes neither the mixer configuration
(the `min` and `mid` references measured so far, the `max` reference, the servo speed) nor the
tail servo data; when `|min ADC reference - mid ADC reference| < 100` the setup state becomes
`SS_IDLE` and the tick raises the failure beep and saves the configuration; otherwise the
calibration proceeds to the `max` stop (sub-state `SS_C_MAX`, servo at the `max` limit, the
`max` reference selected) and nothing is saved. -/
theorem tailTuneModeServoSetup_calib_abort (inp : TickInput) (st : State) (v : Int)
    (hg : noSelectionGesture inp)
    (hss : st.tailTune.ss.state = .SS_CALIB)
    (hcs : st.tailTune.ss.cal.state = .SS_C_CALIB_MIN_MID_MAX)
    (hsub : st.tailTune.ss.cal.subState = .SS_C_MID)
    (hdone : st.tailTune.ss.cal.done = true)
    (hmin : 0 ≤ st.mixerConfig.tri_servo_min_adc ∧ st.mixerConfig.tri_servo_min_adc ≤ 65535)
    (hmid : 0 ≤ st.mixerConfig.tri_servo_mid_adc ∧ st.mixerConfig.tri_servo_mid_adc ≤ 65535)
    (hv : floatToInt16 st.tailTune.ss.servoVal = some v)
    (hmax : -32768 ≤ st.tailServoConf.max ∧ st.tailServoConf.max ≤ 32767) :
    ∃ st', tailTuneModeServoSetup inp st = some st' ∧
      st'.mixerConfig = st.mixerConfig ∧ st'.tailServo = st.tailServo ∧
      if |st.mixerConfig.tri_servo_min_adc - st.mixerConfig.tri_servo_mid_adc| < 100 then
        st'.tailTune.ss.state = .SS_IDLE ∧
        st'.events = st.events ++
          [.beeper .BEEPER_ACC_CALIBRATION_FAIL, .saveConfigAndNotify]
      else
        st'.tailTune.ss.state = .SS_CALIB ∧
        st'.tailTune.ss.cal.state = .SS_C_CALIB_MIN_MID_MAX ∧
        st'.tailTune.ss.cal.subState = .SS_C_MAX ∧
        st'.tailTune.ss.cal.avg.pCalibConfig = some .tri_servo_max_adc ∧
        st'.tailTune.ss.servoVal = st.tailServoConf.max ∧
        st'.tailServoValue = st.tailServoConf.max ∧
        st'.events = st.events := by
  have habs := ABS_eq_abs (st.mixerConfig.tri_servo_min_adc - st.mixerConfig.tri_servo_mid_adc)
    (by omega) (by omega)
  have hel := IsDelayElapsed_ms_self inp.now_ms 500 (by decide)
  unfold tailTuneModeServoSetup
  rw [servoSetupModeSelect_noGesture inp st hg]
  simp only [hss, Option.bind_eq_bind, pure]
  unfold servoCalibTransition
  simp only [hcs, hsub, hdone, true_or, if_true, Option.bind_eq_bind, pure, reduceCtorEq,
    if_false, habs, Option.some_bind]
  by_cases hd : |st.mixerConfig.tri_servo_min_adc - st.mixerConfig.tri_servo_mid_adc| < 100
  · simp only [if_pos hd, Option.some_bind]
    unfold servoCalibStep
    simp only [State.setSS, State.emit, hcs, hel, Bool.false_eq_true, if_false, Option.some_bind,
      hv]
    exact ⟨_, rfl, rfl, rfl, rfl, by simp⟩
  · simp only [if_neg hd, Option.some_bind]
    unfold servoCalibStep
    simp only [State.setSS, State.emit, hcs, hel, Bool.false_eq_true, if_false, Option.some_bind,
      floatToInt16_intCast _ hmax.1 hmax.2]
    exact ⟨_, rfl, rfl, rfl, hss, rfl, rfl, rfl, rfl, rfl, rfl⟩

theorem tailTuneModeServoSetup_calib_abort_witness :
    (∃ st', tailTuneModeServoSetup switchOnInput (midStopDoneState 2000) = some st' ∧
      st'.tailTune.ss.cal.subState = .SS_C_MAX ∧ st'.tailServoValue = 2000 ∧ st'.events = []) ∧
    (∃ st', tailTuneModeServoSetup switchOnInput (midStopDoneState 1050) = some st' ∧
      st'.tailTune.ss.state = .SS_IDLE ∧ st'.mixerConfig.tri_servo_mid_adc = 1050 ∧
      st'.events = [.beeper .BEEPER_ACC_CALIBRATION_FAIL, .saveConfigAndNotify]) := by
  constructor
  · obtain ⟨st', h, _, _, hc⟩ := tailTuneModeServoSetup_calib_abort switchOnInput
      (midStopDoneState 2000) 2000
      (by decide) rfl rfl rfl rfl (by decide) (by decide) (by decide!) (by decide)
    rw [if_neg (by decide)] at hc
    exact ⟨st', h, hc.2.2.1, hc.2.2.2.2.2.1, hc.2.2.2.2.2.2⟩
  · obtain ⟨st', h, hm, _, hc⟩ := tailTuneModeServoSetup_calib_abort switchOnInput
      (midStopDoneState 1050) 2000
      (by decide) rfl rfl rfl rfl (by decide) (by decide) (by decide!) (by decide)
    rw [if_pos (by decide)] at hc
    exact ⟨st', h, hc.1, by rw [hm]; rfl, hc.2⟩

/-! ## Initialisation -/

set_option maxRecDepth 100000 in
theorem triInitMixer_negative_run :
    (triInitMixer sampleLibm { sampleServoConf with angleAtMax := 30 } 1500
        negativeThrustConfig 2000 1000 sampleState).map
      (fun s => (s.tailServo.thrustFactor, s.tailServo.maxAngle, s.tailServo.maxYawForce,
        s.yawForceCurve 50, s.yawForceCurve 99)) = some (-1, 300, 0, -1000, -1000) := by
  decide!

/-- C17 (counterexample): from the sample state (runtime thrust factor `13.8`, max angle
`400`, `maxYawForce` `400`, the ramp table) `triInitMixer` with a configured thrust factor of
`-10` and an angle at max of `30` returns and replaces the geometry: thrust factor `-1`, max
angle `300`, `maxYawForce` `0` and table samples `-1000`. -/
theorem triInitMixer_rejects_counterexample :
    negativeThrustConfig.tri_tail_motor_thrustfactor ≤ 0 ∧
    (sampleState.tailServo.thrustFactor, sampleState.tailServo.maxAngle,
      sampleState.tailServo.maxYawForce, sampleState.yawForceCurve 50,
      sampleState.yawForceCurve 99) = (138 / 10, 400, 400, 0, 490) ∧
    (triInitMixer sampleLibm { sampleServoConf with angleAtMax := 30 } 1500
        negativeThrustConfig 2000 1000 sampleState).map
      (fun s => (s.tailServo.thrustFactor, s.tailServo.maxAngle, s.tailServo.maxYawForce,
        s.yawForceCurve 50, s.yawForceCurve 99)) = some (-1, 300, 0, -1000, -1000) :=
  ⟨by decide, by decide!, triInitMixer_negative_run⟩

/-- C17 (amended): `triInitMixer` does not validate the configuration.  For every prior state
and every configuration, a thrust factor `<= 0` included, whenever the call returns the
runtime thrust factor is the configured one divided by ten, the max angle is ten times the
configured angle at max, the servo speed is the configured one, and the force table and
`maxYawForce` are those computed anew from this thrust factor and max angle, every table
sample being the sample of its angle. -/
theorem triInitMixer_overwrites_geometry (m : Libm) (pTailServoConfig : ServoParam)
    (pTailServo : Int) (mixerConfig : MixerConfig) (maxthrottle minthrottle : Int)
    (st st' : State)
    (h : triInitMixer m pTailServoConfig pTailServo mixerConfig maxthrottle minthrottle st =
      some st') :
    st'.tailServo.thrustFactor = (mixerConfig.tri_tail_motor_thrustfactor : ℚ) / 10 ∧
    st'.tailServo.maxAngle = toInt16 (pTailServoConfig.angleAtMax * 10) ∧
    st'.tailServo.speed = mixerConfig.tri_tail_servo_speed ∧
    initYawForceCurveTable
        (fun angle => (yawForceSample m ((mixerConfig.tri_tail_motor_thrustfactor : ℚ) / 10)
          angle).getD 0)
        (toInt16 (pTailServoConfig.angleAtMax * 10)) st.yawForceCurve =
      some (st'.yawForceCurve, st'.tailServo.maxYawForce) ∧
    ∀ j : Nat, j < 100 →
      yawForceSample m ((mixerConfig.tri_tail_motor_thrustfactor : ℚ) / 10)
        (400 + 10 * (j : Int)) = some (st'.yawForceCurve j) := by
  unfold triInitMixer at h
  simp only [Option.bind_eq_bind, Option.bind_eq_some] at h
  obtain ⟨acc, _, h⟩ := h
  unfold initYawForceCurve at h
  simp only [Option.bind_eq_bind, Option.bind_eq_some, pure] at h
  obtain ⟨pz, _, pza, _, a, _, d, _, h⟩ := h
  split_ifs at h with hall
  simp only [Option.bind_eq_some] at h
  obtain ⟨r, hr, h⟩ := h
  cases h
  refine ⟨rfl, rfl, rfl, hr, ?_⟩
  intro j hj
  have hsome : (yawForceSample m ((mixerConfig.tri_tail_motor_thrustfactor : ℚ) / 10)
      (400 + 10 * (j : Int))).isSome = true := by
    rw [List.all_eq_true] at hall
    exact hall j (List.mem_range.2 hj)
  obtain ⟨f, hf⟩ := Option.isSome_iff_exists.1 hsome
  unfold initYawForceCurveTable at hr
  simp only [Option.bind_eq_bind, Option.bind_eq_some, pure] at hr
  obtain ⟨_, _, _, _, hr⟩ := hr
  cases hr
  have hc := (initYawForceCurveLoop_spec
    (fun angle => (yawForceSample m ((mixerConfig.tri_tail_motor_thrustfactor : ℚ) / 10)
      angle).getD 0)
    (toInt16 (TRI_TAIL_SERVO_ANGLE_MID - toInt16 (pTailServoConfig.angleAtMax * 10)))
    (toInt16 (TRI_TAIL_SERVO_ANGLE_MID + toInt16 (pTailServoConfig.angleAtMax * 10)))
    st.yawForceCurve 100 (le_refl _)).2.1 j hj
  simp only [hf, Option.getD_some] at hc
  rw [hf]
  exact congrArg some hc.symm

theorem triInitMixer_overwrites_geometry_witness :
    ∃ st', triInitMixer sampleLibm { sampleServoConf with angleAtMax := 30 } 1500
        negativeThrustConfig 2000 1000 sampleState = some st' ∧
      st'.tailServo.thrustFactor = -1 ∧ st'.tailServo.maxAngle = 300 ∧
      st'.tailServo.speed = 300 ∧
      ∀ j : Nat, j < 100 →
        yawForceSample sampleLibm ((negativeThrustConfig.tri_tail_motor_thrustfactor : ℚ) / 10)
          (400 + 10 * (j : Int)) = some (st'.yawForceCurve j) := by
  obtain ⟨st', hst, _⟩ := Option.map_eq_some'.1 triInitMixer_negative_run
  obtain ⟨h1, h2, h3, _, h5⟩ := triInitMixer_overwrites_geometry sampleLibm
    { sampleServoConf with angleAtMax := 30 } 1500 negativeThrustConfig 2000 1000 sampleState
    st' hst
  exact ⟨st', hst, h1.trans (by decide!), h2.trans (by decide), h3, h5⟩

/-! ## The value-to-angle maps -/

/-- Truncating division by any divisor does not increase the magnitude. -/
theorem tdiv_abs_bound (a b B : Int) (h1 : -B ≤ a) (h2 : a ≤ B) :
    -B ≤ Int.tdiv a b ∧ Int.tdiv a b ≤ B := by
  have h := Int.natAbs_tdiv a b
  have hle : (Int.tdiv a b).natAbs ≤ a.natAbs := by
    rw [h]
    exact Nat.div_le_self _ _
  omega

theorem toInt16_injOn (a b : Int) (ha1 : 0 ≤ a) (ha2 : a ≤ 65535) (hb1 : 0 ≤ b) (hb2 : b ≤ 65535)
    (h : a ≠ b) : toInt16 a - toInt16 b ≠ 0 := by
  unfold toInt16
  omega

theorem toInt16_range (x : Int) : -32768 ≤ toInt16 x ∧ toInt16 x ≤ 32767 := by
  unfold toInt16
  omega

theorem mul_abs_bounds (x y X Y : Int) (hx1 : -X ≤ x) (hx2 : x ≤ X) (hy1 : -Y ≤ y) (hy2 : y ≤ Y) :
    -(X * Y) ≤ x * y ∧ x * y ≤ X * Y := by
  have hX : 0 ≤ X := by omega
  have hY : 0 ≤ Y := by omega
  have h : |x * y| ≤ X * Y := by
    rw [abs_mul]
    exact mul_le_mul (abs_le.2 ⟨hx1, hx2⟩) (abs_le.2 ⟨hy1, hy2⟩) (abs_nonneg _) hX
  exact abs_le.1 h

/-- The quotient `e * w / d + 900` of the value-to-angle maps is defined for a non-zero
divisor when the product stays inside `int`. -/
theorem angle_quotient_defined (e w d : Int) (he1 : -20000 ≤ e) (he2 : e ≤ 20000)
    (hw1 : -98303 ≤ w) (hw2 : w ≤ 98303) (hd : d ≠ 0) :
    ∃ a, ((i32 (e * w)).bind fun p => (divI32 p d).bind fun q =>
      (i32 (q + TRI_TAIL_SERVO_ANGLE_MID)).bind fun r => some (toUint16 (toInt16 r))) = some a := by
  have hp := mul_abs_bounds e w 20000 98303 he1 he2 hw1 hw2
  have hq := tdiv_abs_bound (e * w) d (20000 * 98303) hp.1 hp.2
  rw [i32_of_bounds (by omega) (by omega)]
  simp only [Option.some_bind, divI32, if_neg hd]
  rw [i32_of_bounds (by omega) (by omega)]
  simp only [Option.some_bind]
  rw [i32_of_bounds (by unfold TRI_TAIL_SERVO_ANGLE_MID; omega)
    (by unfold TRI_TAIL_SERVO_ANGLE_MID; omega)]
  exact ⟨_, rfl⟩

theorem endAngle_bounds (c : Prop) [Decidable c] (x : Int) (h1 : -20000 ≤ x) (h2 : x ≤ 20000) :
    -20000 ≤ toInt16 (if c then TRI_TAIL_SERVO_ANGLE_MID - x else TRI_TAIL_SERVO_ANGLE_MID + x)
        - TRI_TAIL_SERVO_ANGLE_MID ∧
      toInt16 (if c then TRI_TAIL_SERVO_ANGLE_MID - x else TRI_TAIL_SERVO_ANGLE_MID + x)
        - TRI_TAIL_SERVO_ANGLE_MID ≤ 20000 := by
  unfold TRI_TAIL_SERVO_ANGLE_MID
  split_ifs
  · rw [toInt16_of_bounds (by omega) (by omega)]; omega
  · rw [toInt16_of_bounds (by omega) (by omega)]; omega

/-- C18 (counterexample): with the `max` limit equal to the `middle` limit `getServoAngle` has
no value at the servo value 1500, and with the `max` ADC reference equal to the `mid`
reference `feedbackServoStep` has no value at the sample 2000: both divide by
`endValue - midValue = 0`. -/
theorem value_to_angle_zero_width_counterexample :
    getServoAngle { min := 1000, middle := 1500, max := 1500, angleAtMax := 40 } 400 1500 = none ∧
    feedbackServoStep sampleServoConf
      { sampleState.mixerConfig with tri_servo_min_adc := 1000, tri_servo_mid_adc := 2000,
                                     tri_servo_max_adc := 2000 } 2000 = none := by
  constructor <;> decide

/-- C18 (amended): when the `middle` limit differs from the `min` and the `max` limit,
`getServoAngle` returns an angle for every servo value, and when the `mid` ADC reference
differs from the `min` and the `max` reference, `feedbackServoStep` returns an angle for every
ADC sample (limits `int16_t`, references, value and sample `uint16_t`, the max angle at most
20000 deci-degrees in magnitude, so that the `int` product cannot overflow). -/
theorem value_to_angle_defined (servoConf : ServoParam) (tailServoMaxAngle servoValue : Int)
    (mixerConf : MixerConfig) (tailServoADC : Int)
    (hmid : -32768 ≤ servoConf.middle ∧ servoConf.middle ≤ 32767)
    (hne1 : servoConf.middle ≠ servoConf.min) (hne2 : servoConf.middle ≠ servoConf.max)
    (hang : -20000 ≤ tailServoMaxAngle ∧ tailServoMaxAngle ≤ 20000)
    (hv : 0 ≤ servoValue ∧ servoValue ≤ 65535)
    (hamin : 0 ≤ mixerConf.tri_servo_min_adc ∧ mixerConf.tri_servo_min_adc ≤ 65535)
    (hamid : 0 ≤ mixerConf.tri_servo_mid_adc ∧ mixerConf.tri_servo_mid_adc ≤ 65535)
    (hamax : 0 ≤ mixerConf.tri_servo_max_adc ∧ mixerConf.tri_servo_max_adc ≤ 65535)
    (hane1 : mixerConf.tri_servo_mid_adc ≠ mixerConf.tri_servo_min_adc)
    (hane2 : mixerConf.tri_servo_mid_adc ≠ mixerConf.tri_servo_max_adc)
    (hconf : -2000 ≤ servoConf.angleAtMax ∧ servoConf.angleAtMax ≤ 2000)
    (hadc : 0 ≤ tailServoADC ∧ tailServoADC ≤ 65535) :
    (∃ a, getServoAngle servoConf tailServoMaxAngle servoValue = some a) ∧
    (∃ a, feedbackServoStep servoConf mixerConf tailServoADC = some a) := by
  constructor
  · unfold getServoAngle
    simp only [Option.bind_eq_bind, pure]
    apply angle_quotient_defined
    · exact (endAngle_bounds _ _ hang.1 hang.2).1
    · exact (endAngle_bounds _ _ hang.1 hang.2).2
    · omega
    · omega
    · split_ifs <;> omega
  · unfold feedbackServoStep
    simp only [Option.bind_eq_bind, pure]
    have hm := toInt16_range mixerConf.tri_servo_mid_adc
    have h1 := toInt16_injOn _ _ hamin.1 hamin.2 hamid.1 hamid.2 (Ne.symm hane1)
    have h2 := toInt16_injOn _ _ hamax.1 hamax.2 hamid.1 hamid.2 (Ne.symm hane2)
    have ha : toInt16 (servoConf.angleAtMax * 10) = servoConf.angleAtMax * 10 :=
      toInt16_of_bounds (by omega) (by omega)
    rw [ha]
    apply angle_quotient_defined
    · exact (endAngle_bounds _ _ (by omega) (by omega)).1
    · exact (endAngle_bounds _ _ (by omega) (by omega)).2
    · omega
    · omega
    · split_ifs <;> assumption

theorem value_to_angle_defined_witness :
    (∃ a, getServoAngle sampleServoConf 400 1250 = some a) ∧
    (∃ a, feedbackServoStep sampleServoConf maxStopDoneState.mixerConfig 2500 = some a) :=
  value_to_angle_defined sampleServoConf 400 1250 maxStopDoneState.mixerConfig 2500
    (by decide) (by decide) (by decide) (by decide) (by decide) (by decide) (by decide)
    (by decide) (by decide) (by decide) (by decide) (by decide)

/-! ## The virtual tail motor -/

/-- The slew limiter applied `n` times with the set-point held: the set-point once it is
within `n` steps, `n` steps towards it before. -/
theorem tailMotorSlew_iterate (setpoint : Int) (dS : ℚ) (hdS : 0 < dS) (n : Nat) :
    ∀ c : ℚ, (fun x => tailMotorSlew x setpoint dS)^[n] c =
      if |c - (setpoint : ℚ)| ≤ (n : ℚ) * dS then (setpoint : ℚ)
      else if c < (setpoint : ℚ) then c + (n : ℚ) * dS else c - (n : ℚ) * dS := by
  induction n with
  | zero =>
    intro c
    simp only [Function.iterate_zero, id_eq, Nat.cast_zero, zero_mul, abs_nonpos_iff, add_zero,
      sub_zero, ite_self]
    split_ifs with h
    · linarith [sub_eq_zero.1 h]
    · rfl
  | succ n ih =>
    intro c
    rw [Function.iterate_succ_apply, ih]
    have hn : (0 : ℚ) ≤ (n : ℚ) * dS := mul_nonneg (Nat.cast_nonneg n) (le_of_lt hdS)
    push_cast
    unfold tailMotorSlew
    by_cases h1 : |c - (setpoint : ℚ)| < dS
    · rw [if_pos h1, sub_self, abs_zero, if_pos hn, if_pos (by linarith)]
    · rw [if_neg h1]
      push_neg at h1
      by_cases h2 : c < (setpoint : ℚ)
      · rw [if_pos h2]
        have h3 : |c - (setpoint : ℚ)| = (setpoint : ℚ) - c := by
          rw [abs_of_neg (by linarith)]; ring
        have h4 : |c + dS - (setpoint : ℚ)| = (setpoint : ℚ) - c - dS := by
          rw [abs_of_nonpos (by linarith)]; ring
        rw [h3] at h1 ⊢
        rw [h4]
        by_cases h5 : (setpoint : ℚ) - c - dS ≤ (n : ℚ) * dS
        · have h6 : (setpoint : ℚ) - c ≤ ((n : ℚ) + 1) * dS := by linarith
          rw [if_pos h5, if_pos h6]
        · have h6 : ¬ ((setpoint : ℚ) - c ≤ ((n : ℚ) + 1) * dS) := by
            intro h; apply h5; linarith
          have h7 : c + dS < (setpoint : ℚ) := by
            push_neg at h5; linarith
          rw [if_neg h5, if_pos h7, if_neg h6, if_pos h2]
          ring
      · rw [if_neg h2]
        push_neg at h2
        have h3 : |c - (setpoint : ℚ)| = c - (setpoint : ℚ) := abs_of_nonneg (by linarith)
        rw [h3] at h1 ⊢
        have h4 : |c - dS - (setpoint : ℚ)| = c - (setpoint : ℚ) - dS := by
          rw [abs_of_nonneg (by linarith)]; ring
        rw [h4]
        by_cases h5 : c - (setpoint : ℚ) - dS ≤ (n : ℚ) * dS
        · have h6 : c - (setpoint : ℚ) ≤ ((n : ℚ) + 1) * dS := by linarith
          rw [if_pos h5, if_pos h6]
        · have h6 : ¬ (c - (setpoint : ℚ) ≤ ((n : ℚ) + 1) * dS) := by
            intro h; apply h5; linarith
          have h7 : ¬ (c - dS < (setpoint : ℚ)) := by
            push_neg at h5 ⊢; linarith
          have h8 : ¬ (c < (setpoint : ℚ)) := not_lt.2 h2
          rw [if_neg h5, if_neg h7, if_neg h6, if_neg h8]
          ring

theorem tailMotorSlew_iterate_eq_iff (setpoint : Int) (dS : ℚ) (hdS : 0 < dS) (n : Nat) (c : ℚ) :
    (fun x => tailMotorSlew x setpoint dS)^[n] c = (setpoint : ℚ) ↔
      ⌈|(setpoint : ℚ) - c| / dS⌉₊ ≤ n := by
  rw [tailMotorSlew_iterate setpoint dS hdS n c, Nat.ceil_le, div_le_iff₀ hdS, abs_sub_comm]
  have hn : (0 : ℚ) ≤ (n : ℚ) * dS := mul_nonneg (Nat.cast_nonneg n) (le_of_lt hdS)
  constructor
  · intro h
    by_contra hc
    rw [if_neg hc] at h
    split_ifs at h with h2
    · rw [abs_of_pos (by linarith)] at hc
      linarith
    · push_neg at h2
      rw [abs_of_nonpos (by linarith)] at hc
      linarith
  · intro h
    rw [if_pos h]

theorem tailMotorStep_iterate (ext : External) (setpoint : Int) (dT : ℚ) (st : State) (n : Nat) :
    ((tailMotorStep ext setpoint dT)^[n] st).current =
        (fun x => tailMotorSlew x setpoint (dT * st.motorAcceleration))^[n] st.current ∧
      ((tailMotorStep ext setpoint dT)^[n] st).motorAcceleration = st.motorAcceleration := by
  induction n with
  | zero => exact ⟨rfl, rfl⟩
  | succ n ih =>
    rw [Function.iterate_succ_apply', Function.iterate_succ_apply']
    have e1 : (tailMotorStep ext setpoint dT ((tailMotorStep ext setpoint dT)^[n] st)).current =
        tailMotorSlew ((tailMotorStep ext setpoint dT)^[n] st).current setpoint
          (dT * ((tailMotorStep ext setpoint dT)^[n] st).motorAcceleration) := rfl
    have e2 : (tailMotorStep ext setpoint dT
        ((tailMotorStep ext setpoint dT)^[n] st)).motorAcceleration =
        ((tailMotorStep ext setpoint dT)^[n] st).motorAcceleration := rfl
    rw [e1, e2, ih.1, ih.2]
    exact ⟨rfl, rfl⟩

/-- C19: with floats as exact rationals and a step `dS = dT * motorAcceleration > 0`, one call
of `tailMotorStep` changes `current` by at most `dS` and moves it towards the set-point
without passing it; with the set-point held, `current` equals the set-point after `n` calls
exactly when `n >= ceil(|setpoint - current| / dS)`: it arrives at that call, not before, and
stays. -/
theorem tailMotorStep_slew_limit (ext : External) (setpoint : Int) (dT : ℚ) (st : State)
    (hdS : 0 < dT * st.motorAcceleration) :
    |(tailMotorStep ext setpoint dT st).current - st.current| ≤ dT * st.motorAcceleration ∧
    (st.current ≤ (setpoint : ℚ) → st.current ≤ (tailMotorStep ext setpoint dT st).current ∧
      (tailMotorStep ext setpoint dT st).current ≤ (setpoint : ℚ)) ∧
    ((setpoint : ℚ) ≤ st.current → (setpoint : ℚ) ≤ (tailMotorStep ext setpoint dT st).current ∧
      (tailMotorStep ext setpoint dT st).current ≤ st.current) ∧
    ∀ n : Nat, ((tailMotorStep ext setpoint dT)^[n] st).current = (setpoint : ℚ) ↔
      ⌈|(setpoint : ℚ) - st.current| / (dT * st.motorAcceleration)⌉₊ ≤ n := by
  have e : (tailMotorStep ext setpoint dT st).current =
      tailMotorSlew st.current setpoint (dT * st.motorAcceleration) := rfl
  rw [e]
  refine ⟨?_, ?_, ?_, ?_⟩
  · unfold tailMotorSlew
    split_ifs with h1 h2
    · rw [abs_sub_comm]; exact le_of_lt h1
    · rw [add_sub_cancel_left, abs_of_pos hdS]
    · rw [sub_sub_cancel_left, abs_neg, abs_of_pos hdS]
  · intro hle
    unfold tailMotorSlew
    split_ifs with h1 h2
    · exact ⟨hle, le_refl _⟩
    · push_neg at h1
      rw [abs_of_neg (by linarith)] at h1
      constructor <;> linarith
    · exact absurd (lt_of_le_of_ne hle (fun h => by
        rw [h, sub_self, abs_zero] at h1; exact h1 hdS)) h2
  · intro hle
    unfold tailMotorSlew
    split_ifs with h1 h2
    · exact ⟨le_refl _, hle⟩
    · linarith
    · push_neg at h1
      rw [abs_of_nonneg (by linarith)] at h1
      constructor <;> linarith
  · intro n
    rw [(tailMotorStep_iterate ext setpoint dT st n).1]
    exact tailMotorSlew_iterate_eq_iff setpoint _ hdS n st.current

theorem tailMotorStep_slew_limit_witness :
    ((tailMotorStep (sampleExternal sampleLibm) 1012 (1 / 1000))^[3] sampleState).current = 1012 ∧
    ((tailMotorStep (sampleExternal sampleLibm) 1012 (1 / 1000))^[2] sampleState).current ≠ 1012 ∧
    |(tailMotorStep (sampleExternal sampleLibm) 1012 (1 / 1000) sampleState).current
      - sampleState.current| ≤ 5 := by
  have hdS : (0 : ℚ) < 1 / 1000 * sampleState.motorAcceleration := by decide!
  obtain ⟨h1, _, _, h4⟩ := tailMotorStep_slew_limit (sampleExternal sampleLibm) 1012 (1 / 1000)
    sampleState hdS
  have hc : ⌈|((1012 : Int) : ℚ) - sampleState.current| /
      (1 / 1000 * sampleState.motorAcceleration)⌉₊ = 3 := by
    have e : |((1012 : Int) : ℚ) - sampleState.current| /
        (1 / 1000 * sampleState.motorAcceleration) = 12 / 5 := by decide!
    rw [e, Nat.ceil_eq_iff (by decide)]
    norm_num
  refine ⟨(h4 3).2 (by rw [hc]), fun h => ?_, le_trans h1 (by decide!)⟩
  have := (h4 2).1 h
  rw [hc] at this
  exact absurd this (by decide)

/-! ## The servo limit trim -/

theorem truncQ_eq_floor (x : ℚ) (h : 0 ≤ x) : truncQ x = ⌊x⌋ := by
  unfold truncQ
  rw [Rat.floor_def, Int.tdiv_eq_ediv (Rat.num_nonneg.2 h) (by exact_mod_cast Nat.zero_le _)]

theorem truncQ_bounds (x : ℚ) (a b : Int) (ha : 0 ≤ a) (h1 : (a : ℚ) ≤ x) (h2 : x ≤ (b : ℚ)) :
    a ≤ truncQ x ∧ truncQ x ≤ b := by
  have h0 : (0 : ℚ) ≤ x := le_trans (by exact_mod_cast ha) h1
  rw [truncQ_eq_floor x h0]
  constructor
  · exact Int.le_floor.2 h1
  · have h3 : ((⌊x⌋ : Int) : ℚ) ≤ (b : ℚ) := le_trans (Int.floor_le x) h2
    exact_mod_cast h3

theorem constrainf_range (x lo hi : ℚ) (h : lo ≤ hi) :
    lo ≤ constrainf x lo hi ∧ constrainf x lo hi ≤ hi := by
  unfold constrainf
  split_ifs with h1 h2
  · exact ⟨le_refl _, h⟩
  · exact ⟨h, le_refl _⟩
  · push_neg at h1 h2
    exact ⟨h1, h2⟩

/-- C20: on a servo setup tick in `SS_SETUP` without selection gesture, a limit being
selected: the tick returns; with the yaw stick outside its dead-band the session value
becomes the binary32 sum `servoVal + direction * -1 * yaw * dT` (each product and the sum
rounded) clamped to `[900, 2100]`, the selected limit, an `int16_t`, is set to the integer
part of the session value, which lies in `[900, 2100]`, and the other limits are unchanged;
with the yaw stick inside the dead-band the servo configuration and the session value are
unchanged.  In both cases the servo command is overwritten with the integer part of the
session value. -/
theorem tailTuneModeServoSetup_trim (inp : TickInput) (st : State) (sel : ServoLimit)
    (hg : noSelectionGesture inp)
    (hss : st.tailTune.ss.state = .SS_SETUP)
    (hsel : st.tailTune.ss.pLimitToAdjust = some sel)
    (hv : inp.yawWithinDeadband = true →
      -32768 ≤ truncQ st.tailTune.ss.servoVal ∧ truncQ st.tailTune.ss.servoVal ≤ 32767) :
    ∃ st', tailTuneModeServoSetup inp st = some st' ∧
      st'.tailServoValue = truncQ st'.tailTune.ss.servoVal ∧
      if inp.yawWithinDeadband = true then
        st'.tailServoConf = st.tailServoConf ∧ st'.tailTune.ss.servoVal = st.tailTune.ss.servoVal
      else
        st'.tailTune.ss.servoVal = constrainf (f32 (st.tailTune.ss.servoVal +
          f32 (f32 (f32 (f32 (inp.direction : ℚ) * (-1)) * f32 (inp.rcCommandYaw : ℚ)) * inp.dT)))
          900 2100 ∧
        900 ≤ st'.tailTune.ss.servoVal ∧ st'.tailTune.ss.servoVal ≤ 2100 ∧
        900 ≤ truncQ st'.tailTune.ss.servoVal ∧ truncQ st'.tailTune.ss.servoVal ≤ 2100 ∧
        (sel = .min → st'.tailServoConf =
          { st.tailServoConf with min := truncQ st'.tailTune.ss.servoVal }) ∧
        (sel = .middle → st'.tailServoConf =
          { st.tailServoConf with middle := truncQ st'.tailTune.ss.servoVal }) ∧
        (sel = .max → st'.tailServoConf =
          { st.tailServoConf with max := truncQ st'.tailTune.ss.servoVal }) := by
  unfold tailTuneModeServoSetup
  rw [servoSetupModeSelect_noGesture inp st hg]
  simp only [hss, Option.bind_eq_bind, pure]
  unfold servoSetupTrim
  by_cases hy : inp.yawWithinDeadband = true
  · obtain ⟨h1, h2⟩ := hv hy
    simp only [hy, not_true_eq_false, if_false, if_true, Option.some_bind, floatToInt16, h1, h2,
      and_self]
    exact ⟨_, rfl, rfl, rfl, rfl⟩
  · simp only [hy, Bool.false_eq_true, not_false_eq_true, if_true, if_false,
      Option.bind_eq_bind, pure]
    have hx : trimmedServoVal st.tailTune.ss.servoVal inp.direction inp.rcCommandYaw inp.dT =
        constrainf (f32 (st.tailTune.ss.servoVal +
          f32 (f32 (f32 (f32 (inp.direction : ℚ) * (-1)) * f32 (inp.rcCommandYaw : ℚ)) * inp.dT)))
          900 2100 := rfl
    have hr := constrainf_range (f32 (st.tailTune.ss.servoVal +
      f32 (f32 (f32 (f32 (inp.direction : ℚ) * (-1)) * f32 (inp.rcCommandYaw : ℚ)) * inp.dT)))
      900 2100 (by norm_num)
    rw [hx]
    generalize constrainf (f32 (st.tailTune.ss.servoVal +
      f32 (f32 (f32 (f32 (inp.direction : ℚ) * (-1)) * f32 (inp.rcCommandYaw : ℚ)) * inp.dT)))
      900 2100 = v at hr
    have hb := truncQ_bounds v 900 2100 (by decide) (by push_cast; exact hr.1)
      (by push_cast; exact hr.2)
    have hf : floatToInt16 v = some (truncQ v) := by
      unfold floatToInt16
      rw [if_pos ⟨by omega, by omega⟩]
    have ht : toInt16 (truncQ v) = truncQ v := toInt16_of_bounds (by omega) (by omega)
    rw [hf]
    simp only [Option.some_bind, hsel]
    cases sel
    all_goals simp only [storeServoLimit, Option.some_bind, State.setSS, hf, ht]
    all_goals exact ⟨_, rfl, rfl, rfl, hr.1, hr.2, hb.1, hb.2, by simp⟩

theorem trimState_step :
    (tailTuneModeServoSetup yawTrimTick trimState).map
      (fun s => (s.tailServoConf, s.tailTune.ss.servoVal, s.tailServoValue)) =
      some ({ sampleServoConf with min := 999 }, 1999 / 2, 999) := by
  decide!

/-- The trimmed limit is not the clamped value `clamp(servoVal - direction * yaw * dT, 900,
2100)`.  With the session value 1000, direction 1, yaw command 500 and the tick duration
`0.001f` the claimed value lies strictly between 999 and 1000, the session value becomes
999.5 and the `int16_t` limit 999.  Nor is the limit the integer part of the claimed value:
from the session value 999.0999755859375 with the yaw command 100 the claimed value is below
999, with integer part 998, and the binary32 sum rounds to 999, which is stored. -/
theorem tailTuneModeServoSetup_trim_counterexample :
    (tailTuneModeServoSetup yawTrimTick trimState).map
      (fun s => (s.tailServoConf.min, s.tailTune.ss.servoVal, s.tailServoValue)) =
      some (999, 1999 / 2, 999) ∧
    999 < max 900 (min 2100 (trimState.tailTune.ss.servoVal -
      (yawTrimTick.direction : ℚ) * (yawTrimTick.rcCommandYaw : ℚ) * yawTrimTick.dT)) ∧
    max 900 (min 2100 (trimState.tailTune.ss.servoVal -
      (yawTrimTick.direction : ℚ) * (yawTrimTick.rcCommandYaw : ℚ) * yawTrimTick.dT)) < 1000 ∧
    f32 (8184627 / 8192) = 8184627 / 8192 ∧
    (tailTuneModeServoSetup { yawTrimTick with rcCommandYaw := 100 }
        (trimState.setSS { trimState.tailTune.ss with servoVal := 8184627 / 8192 })).map
      (fun s => (s.tailServoConf.min, s.tailTune.ss.servoVal, s.tailServoValue)) =
      some (999, 999, 999) ∧
    truncQ (max 900 (min 2100 ((8184627 / 8192 : ℚ) -
      (yawTrimTick.direction : ℚ) * 100 * yawTrimTick.dT))) = 998 := by
  decide!

theorem tailTuneModeServoSetup_trim_witness :
    (∃ st', tailTuneModeServoSetup yawTrimTick trimState = some st' ∧
      st'.tailServoConf = { sampleServoConf with min := 999 } ∧ st'.tailServoValue = 999 ∧
      st'.tailTune.ss.servoVal = 1999 / 2) ∧
    (∃ st', tailTuneModeServoSetup switchOnInput trimState = some st' ∧
      st'.tailServoConf = sampleServoConf ∧ st'.tailServoValue = 1000) := by
  have hval : constrainf (f32 (trimState.tailTune.ss.servoVal +
      f32 (f32 (f32 (f32 (yawTrimTick.direction : ℚ) * (-1)) * f32 (yawTrimTick.rcCommandYaw : ℚ))
        * yawTrimTick.dT))) 900 2100 = 1999 / 2 := by decide!
  have htr : truncQ (1999 / 2 : ℚ) = 999 := by decide!
  constructor
  · obtain ⟨st', h, hcmd, hc⟩ := tailTuneModeServoSetup_trim yawTrimTick trimState .min
      (by decide) rfl rfl (fun h => absurd h (by decide))
    rw [if_neg (by decide)] at hc
    obtain ⟨hs, _, _, _, _, hmin, _, _⟩ := hc
    have hmin2 := hmin rfl
    rw [hval] at hs
    rw [hs, htr] at hmin2
    rw [hs, htr] at hcmd
    exact ⟨st', h, hmin2, hcmd, hs⟩
  · obtain ⟨st', h, hval, hc⟩ := tailTuneModeServoSetup_trim switchOnInput trimState .min
      (by decide) rfl rfl (fun _ => by decide!)
    rw [if_pos (by decide)] at hc
    rw [hc.2] at hval
    exact ⟨st', h, hc.1, hval.trans (by decide!)⟩

/-! ## The table search on an arbitrary table -/

/-- Once the bracket width is within the iteration bound, a larger bound gives the same
result: the loop has ended. -/
theorem binarySearch_fuel (curve : Nat → Int) (force : Int) :
    ∀ (n lower higher : Nat), lower < higher → higher ≤ lower + n + 1 →
      ∀ k, binarySearch curve force (n + k) lower higher =
        binarySearch curve force n lower higher := by
  intro n
  induction n with
  | zero =>
    intro lower higher hlt hw k
    have hh : higher = lower + 1 := by omega
    subst hh
    cases k with
    | zero => rfl
    | succ k =>
      rw [Nat.zero_add]
      unfold binarySearch
      rw [if_neg (by omega)]
  | succ n ih =>
    intro lower higher hlt hw k
    rw [Nat.add_right_comm]
    unfold binarySearch
    by_cases hgt : higher > lower + 1
    · rw [if_pos hgt, if_pos hgt]
      have hm1 : lower < (lower + higher) / 2 := by omega
      have hm2 : (lower + higher) / 2 < higher := by omega
      by_cases hc : curve ((lower + higher) / 2) > force
      · simp only [hc, if_true]
        exact ih lower ((lower + higher) / 2) hm1 (by omega) k
      · simp only [hc, if_false]
        exact ih ((lower + higher) / 2) higher hm2 (by omega) k
    · rw [if_neg hgt, if_neg hgt]

/-- C25: for every table of 100 samples of magnitude at most 107374182, monotonic or not,
and every force with `curve[0] <= force < curve[99]`, the binary search ends (a larger
iteration bound gives the same pair) with `higher = lower + 1` and
`curve[lower] <= force < curve[higher]`; the divisor of the interpolation is not zero, its
quotient is non-negative, so that truncation is the floor, and at most 9, and the lookup
returns `400 + 10 * lower + quotient`.  For every force the lookup returns a value in
`[400, 1400]`. -/
theorem getAngleFromYawForceCurve_search_safe (curve : Nat → Int) (force : Int)
    (hb : ∀ i, i < 100 → -107374182 ≤ curve i ∧ curve i ≤ 107374182) :
    (curve 0 ≤ force → force < curve 99 →
      ∃ lower higher : Nat,
        (∀ k, binarySearch curve force (99 + k) 0 99 = (lower, higher)) ∧
        higher = lower + 1 ∧ higher ≤ 99 ∧ curve lower ≤ force ∧ force < curve higher ∧
        curve higher - curve lower ≠ 0 ∧
        0 ≤ Int.tdiv ((force - curve lower) * 10) (curve higher - curve lower) ∧
        Int.tdiv ((force - curve lower) * 10) (curve higher - curve lower) =
          (force - curve lower) * 10 / (curve higher - curve lower) ∧
        Int.tdiv ((force - curve lower) * 10) (curve higher - curve lower) ≤ 9 ∧
        getAngleFromYawForceCurve curve force = some (400 + 10 * (lower : Int) +
          Int.tdiv ((force - curve lower) * 10) (curve higher - curve lower))) ∧
    ∃ a, getAngleFromYawForceCurve curve force = some a ∧ 400 ≤ a ∧ a ≤ 1400 := by
  refine ⟨?_, getAngle_range curve force hb⟩
  intro h0 h99
  obtain ⟨ha, _, hle, hlo, hhi⟩ :=
    binarySearch_adjacent curve force 99 0 99 (by omega) (by omega) h0 h99
  have hfuel := binarySearch_fuel curve force 99 0 99 (by omega) (by omega)
  generalize hr : binarySearch curve force 99 0 99 = r at ha hle hlo hhi hfuel
  obtain ⟨lower, higher⟩ := r
  simp only at ha hle hlo hhi
  subst ha
  have b1 := hb lower (by omega)
  have b2 := hb (lower + 1) (by omega)
  have hi := interpolate_adjacent curve force lower (by omega) (by omega) (by omega) hlo hhi
  have ht : Int.tdiv ((force - curve lower) * 10) (curve (lower + 1) - curve lower) =
      (force - curve lower) * 10 / (curve (lower + 1) - curve lower) :=
    Int.tdiv_eq_ediv (by omega) (by omega)
  refine ⟨lower, lower + 1, hfuel, rfl, hle, hlo, hhi, by omega, ?_, ht, ?_, ?_⟩
  · rw [ht]; exact hi.2.1
  · rw [ht]; exact hi.2.2
  · rw [ht, ← hi.1]
    unfold getAngleFromYawForceCurve
    rw [if_neg (by omega)]
    simp only [TRI_YAW_FORCE_CURVE_SIZE]
    rw [if_neg (by simp; exact h99)]
    show interpolate curve force (binarySearch curve force 99 0 99).1
      (binarySearch curve force 99 0 99).2 = _
    rw [hr]

theorem dentCurve_bounds :
    ∀ i, i < 100 → -107374182 ≤ dentCurve i ∧ dentCurve i ≤ 107374182 := by
  intro i hi
  unfold dentCurve
  split_ifs <;> omega

theorem getAngleFromYawForceCurve_search_safe_witness :
    (∃ lower higher : Nat, higher = lower + 1 ∧ dentCurve lower ≤ 3 ∧ 3 < dentCurve higher ∧
      getAngleFromYawForceCurve dentCurve 3 = some (400 + 10 * (lower : Int) +
        Int.tdiv ((3 - dentCurve lower) * 10) (dentCurve higher - dentCurve lower))) ∧
    ∃ a, getAngleFromYawForceCurve dentCurve 3 = some a ∧ 400 ≤ a ∧ a ≤ 1400 := by
  obtain ⟨h1, h2⟩ := getAngleFromYawForceCurve_search_safe dentCurve 3 dentCurve_bounds
  obtain ⟨lower, higher, _, ha, _, hlo, hhi, _, _, _, _, he⟩ := h1 (by decide) (by decide)
  exact ⟨⟨lower, higher, ha, hlo, hhi, he⟩, h2⟩

/-! ## Normal mode -/

theorem tdiv_frac_bound (x r M : Int) (hx0 : 0 ≤ x) (hx : x ≤ M) (hM : 0 < M) (hr : 0 ≤ r) :
    0 ≤ Int.tdiv (x * r) M ∧ Int.tdiv (x * r) M ≤ r := by
  have hp : 0 ≤ x * r := Int.mul_nonneg hx0 hr
  rw [Int.tdiv_eq_ediv hp (le_of_lt hM)]
  have h1 : 0 ≤ x * r / M := Int.ediv_nonneg hp (le_of_lt hM)
  have h2 : x * r ≤ r * M := by nlinarith
  have h3 : x * r / M ≤ r * M / M := Int.ediv_le_ediv hM h2
  rw [Int.mul_ediv_cancel r (by omega)] at h3
  exact ⟨h1, h3⟩

/-- Normal mode looks up the angle `900 + c * maxAngle / 1000`. -/
theorem getNormalServoValue_eq (tailServo : TailServo) (direction : Int)
    (servoConf : ServoParam) (c : Int) (hc1 : -1000 ≤ c) (hc2 : c ≤ 1000)
    (hA1 : 0 < tailServo.maxAngle) (hA2 : tailServo.maxAngle ≤ 900) :
    getNormalServoValue tailServo direction servoConf c =
        getServoValueAtAngle servoConf tailServo.maxAngle direction
          (900 + Int.tdiv (c * tailServo.maxAngle) 1000) ∧
      -tailServo.maxAngle ≤ Int.tdiv (c * tailServo.maxAngle) 1000 ∧
      Int.tdiv (c * tailServo.maxAngle) 1000 ≤ tailServo.maxAngle := by
  have hb := tdiv_scale_bound tailServo.maxAngle c (by omega) hc1 hc2
  rw [mul_comm] at hb
  refine ⟨?_, hb⟩
  have hp := mul_abs_bounds c tailServo.maxAngle 1000 900 hc1 hc2 (by omega) hA2
  unfold getNormalServoValue
  rw [i32_of_bounds (by omega) (by omega)]
  simp only [Option.bind_eq_bind, Option.some_bind, divI32]
  rw [if_neg (by omega), i32_of_bounds (by omega) (by omega)]
  simp only [Option.some_bind, TRI_TAIL_SERVO_ANGLE_MID]
  rw [toInt16_of_bounds (by omega) (by omega), toUint16_of_bounds (by omega) (by omega)]

/-- C27: for every command `c` in `[-1000, 1000]`, every servo configuration with
`0 <= min <= middle <= max` (`int16_t`), every max angle with `0 < maxAngle <= 900` and every
direction, `getNormalServoValue` returns a value in `[min, max]`; it returns `middle` for
`c = 0`; for `c = 1000` it returns `max` with a positive direction and `min` otherwise, and
for `c = -1000` it returns `min` with a positive direction and `max` otherwise. -/
theorem getNormalServoValue_within_limits (tailServo : TailServo) (direction : Int)
    (servoConf : ServoParam) (c : Int) (hc1 : -1000 ≤ c) (hc2 : c ≤ 1000)
    (hmin : 0 ≤ servoConf.min) (h12 : servoConf.min ≤ servoConf.middle)
    (h23 : servoConf.middle ≤ servoConf.max) (hmax : servoConf.max ≤ 32767)
    (hA1 : 0 < tailServo.maxAngle) (hA2 : tailServo.maxAngle ≤ 900) :
    (∃ v, getNormalServoValue tailServo direction servoConf c = some v ∧
      servoConf.min ≤ v ∧ v ≤ servoConf.max) ∧
    getNormalServoValue tailServo direction servoConf 0 = some servoConf.middle ∧
    getNormalServoValue tailServo direction servoConf 1000 =
      some (if direction > 0 then servoConf.max else servoConf.min) ∧
    getNormalServoValue tailServo direction servoConf (-1000) =
      some (if direction > 0 then servoConf.min else servoConf.max) := by
  refine ⟨?_, ?_, ?_, ?_⟩
  · obtain ⟨he, hq1, hq2⟩ := getNormalServoValue_eq tailServo direction servoConf c hc1 hc2
      hA1 hA2
    rw [he]
    generalize Int.tdiv (c * tailServo.maxAngle) 1000 = q at hq1 hq2
    have habs0 : 0 ≤ |900 + q - 900| := abs_nonneg _
    have habs : |900 + q - 900| ≤ tailServo.maxAngle := abs_le.2 ⟨by omega, by omega⟩
    by_cases hq : 900 + q = 900
    · rw [hq, getServoValueAtAngle_mid, toUint16_of_bounds (by omega) (by omega)]
      exact ⟨_, rfl, h12, h23⟩
    · by_cases hside : (900 + q < 900 ∧ direction > 0) ∨ (900 + q > 900 ∧ ¬ direction > 0)
      · have hb := servo_product_bounds (900 + q) servoConf.min servoConf.middle
          (by omega) (by omega) hmin (by omega) (by omega) (by omega)
        have ht := tdiv_frac_bound |900 + q - 900| (servoConf.middle - servoConf.min)
          tailServo.maxAngle habs0 habs hA1 (by omega)
        rw [getServoValueAtAngle_minSide servoConf tailServo.maxAngle direction (900 + q) hq
          (by omega) (by omega) hA1 (by omega) hside (by omega) (by omega) hb.1 hb.2,
          toUint16_of_bounds (by omega) (by omega)]
        exact ⟨_, rfl, by omega, by omega⟩
      · have hb := servo_product_bounds (900 + q) servoConf.middle servoConf.max
          (by omega) (by omega) (by omega) (by omega) (by omega) (by omega)
        have ht := tdiv_frac_bound |900 + q - 900| (servoConf.max - servoConf.middle)
          tailServo.maxAngle habs0 habs hA1 (by omega)
        rw [getServoValueAtAngle_maxSide servoConf tailServo.maxAngle direction (900 + q) hq
          (by omega) (by omega) hA1 (by omega) hside (by omega) (by omega) hb.1 hb.2,
          toUint16_of_bounds (by omega) (by omega)]
        exact ⟨_, rfl, by omega, by omega⟩
  · rw [(getNormalServoValue_eq tailServo direction servoConf 0 (by omega) (by omega)
      hA1 hA2).1, Int.zero_mul, Int.zero_tdiv, Int.add_zero, getServoValueAtAngle_mid,
      toUint16_of_bounds (by omega) (by omega)]
  · rw [(getNormalServoValue_eq tailServo direction servoConf 1000 (by omega) (by omega)
      hA1 hA2).1, Int.mul_tdiv_cancel_left _ (by omega)]
    exact getServoValueAtAngle_highEnd servoConf tailServo.maxAngle direction hmin (by omega)
      (by omega) (by omega) (by omega) hmax hA1 (by omega)
  · have e : Int.tdiv (-1000 * tailServo.maxAngle) 1000 = -tailServo.maxAngle := by
      rw [Int.neg_mul, Int.neg_tdiv, Int.mul_tdiv_cancel_left _ (by omega)]
    rw [(getNormalServoValue_eq tailServo direction servoConf (-1000) (by omega) (by omega)
      hA1 hA2).1, e]
    exact getServoValueAtAngle_lowEnd servoConf tailServo.maxAngle direction hmin (by omega)
      (by omega) (by omega) (by omega) hmax hA1 hA2

theorem getNormalServoValue_within_limits_witness :
    (∃ v, getNormalServoValue sampleState.tailServo (-1) sampleServoConf 250 = some v ∧
      1000 ≤ v ∧ v ≤ 2000) ∧
    getNormalServoValue sampleState.tailServo (-1) sampleServoConf 0 = some 1500 ∧
    getNormalServoValue sampleState.tailServo (-1) sampleServoConf 1000 = some 1000 ∧
    getNormalServoValue sampleState.tailServo (-1) sampleServoConf (-1000) = some 2000 :=
  getNormalServoValue_within_limits sampleState.tailServo (-1) sampleServoConf 250
    (by decide) (by decide) (by decide) (by decide) (by decide) (by decide) (by decide)
    (by decide)

/-! ## The phase shift of the pitch correction -/

/-- C22 (counterexample): with the servo at 1000 above its set-point 900, the direction
change angle 900, an acceleration delay angle of 100 and a deceleration delay angle of 30,
the servo is beyond the direction change angle by exactly the acceleration delay angle, not by
more, and the function returns 30, the braking value, not the acceleration delay angle. -/
theorem getPitchCorrectionMaxPhaseShift_boundary_counterexample :
    ¬ ((1000 : Int) > 900 + 100) ∧
    getPitchCorrectionMaxPhaseShift 1000 900 100 30 900 = some 30 ∧ (30 : Int) ≠ 100 := by
  decide

/-- C22 (amended): for `int16_t` angles and non-negative delay angles the function returns
`min(deceleration delay angle, |servo angle - direction change angle|)` when the servo angle is
above its set-point and at least the acceleration delay angle above the direction change
angle, or below its set-point and at least the acceleration delay angle below the direction
change angle; in every other case it returns the acceleration delay angle. -/
theorem getPitchCorrectionMaxPhaseShift_spec (servoAngle servoSetpointAngle acc dec change : Int)
    (hs : -32768 ≤ servoAngle ∧ servoAngle ≤ 32767)
    (hc : -32768 ≤ change ∧ change ≤ 32767)
    (hacc : 0 ≤ acc ∧ acc ≤ 32767) (hdec : 0 ≤ dec ∧ dec ≤ 32767) :
    getPitchCorrectionMaxPhaseShift servoAngle servoSetpointAngle acc dec change =
      some (if (servoAngle > servoSetpointAngle ∧ servoAngle ≥ change + acc) ∨
          (servoAngle < servoSetpointAngle ∧ servoAngle ≤ change - acc) then
        min dec |servoAngle - change| else acc) := by
  unfold getPitchCorrectionMaxPhaseShift
  have habs := ABS_eq_abs (servoAngle - change) (by omega) (by omega)
  have ha0 : 0 ≤ |servoAngle - change| := abs_nonneg _
  have ha1 : |servoAngle - change| ≤ 65535 := abs_le.2 ⟨by omega, by omega⟩
  split_ifs with h
  · simp only [habs, Option.bind_eq_bind, Option.some_bind, pure]
    congr 1
    split_ifs with h2
    · rw [min_eq_left h2, toUint16_of_bounds (by omega) (by omega)]
    · rw [min_eq_right (by omega), toUint16_of_bounds (by omega) (by omega)]
  · rw [toUint16_of_bounds (by omega) (by omega)]

theorem getPitchCorrectionMaxPhaseShift_spec_witness :
    getPitchCorrectionMaxPhaseShift 1200 900 90 300 950 = some 250 ∧
    getPitchCorrectionMaxPhaseShift 1000 900 90 300 950 = some 90 :=
  ⟨getPitchCorrectionMaxPhaseShift_spec 1200 900 90 300 950 (by decide) (by decide) (by decide)
      (by decide),
    getPitchCorrectionMaxPhaseShift_spec 1000 900 90 300 950 (by decide) (by decide) (by decide)
      (by decide)⟩

/-! ## The frame of the thrust/torque disarm step -/

/-- C28: in state `TT_WAIT_FOR_DISARM`, on a step where the craft is disarmed (the number of
samples non-zero, the binary32 product of the gyro limit and 10 with an `int16_t` integer
part `g`, and in the commit case the thrust factor defined), the step returns in `TT_DONE` or
`TT_FAIL`; in both cases the configuration of servo 6 has `max` set to the integer average
`sum / numOf` (as an `int16_t`) and `min` set to `g`, its other fields and the tail servo
configuration being unchanged; in `TT_FAIL` the mixer configuration is unchanged, and in
`TT_DONE` it differs from the previous one in the thrust factor only. -/
theorem tailTuneModeThrustTorque_disarm_frame (ext : External) (inp : TickInput)
    (isThrottleHigh : Bool) (st : State) (g : Int) (avg t : ℚ)
    (hstate : st.tailTune.tt.state = .TT_WAIT_FOR_DISARM) (harmed : inp.armed = false)
    (hnum : st.tailTune.tt.servoAvgAngle.numOf ≠ 0)
    (hg : floatToInt16 (f32 (st.tailTune.tt.tailTuneGyroLimit * 10)) = some g)
    (havg : avg = f32 (f32 (f32 (st.tailTune.tt.servoAvgAngle.sum : ℚ) / 10) /
      f32 (st.tailTune.tt.servoAvgAngle.numOf : ℚ)))
    (ht : t = f32 (f32 (avg - 90) * ext.libm.RAD))
    (hsin : 181 / 2 < avg → avg < 120 → ext.libm.sin_approx t ≠ 0 ∧
      -32768 ≤ truncQ (f32 (f32 (10 * ext.libm.cos_approx t) / ext.libm.sin_approx t)) ∧
      truncQ (f32 (f32 (10 * ext.libm.cos_approx t) / ext.libm.sin_approx t)) ≤ 32767) :
    ∃ st', tailTuneModeThrustTorque ext inp isThrottleHigh st = some st' ∧
      g = truncQ (f32 (st.tailTune.tt.tailTuneGyroLimit * 10)) ∧
      st'.servoConf6 = { st.servoConf6 with
        max := toInt16 (st.tailTune.tt.servoAvgAngle.sum / st.tailTune.tt.servoAvgAngle.numOf),
        min := g } ∧
      st'.tailServoConf = st.tailServoConf ∧
      if 181 / 2 < avg ∧ avg < 120 then
        st'.tailTune.tt.state = .TT_DONE ∧
        st'.mixerConfig =
          { st.mixerConfig with
            tri_tail_motor_thrustfactor :=
              truncQ (f32 (f32 (10 * ext.libm.cos_approx t) / ext.libm.sin_approx t)) }
      else
        st'.tailTune.tt.state = .TT_FAIL ∧ st'.mixerConfig = st.mixerConfig := by
  have hgv : g = truncQ (f32 (st.tailTune.tt.tailTuneGyroLimit * 10)) := by
    unfold floatToInt16 at hg
    split_ifs at hg
    exact (Option.some.inj hg).symm
  have havg2 : averageServoAngleValue st.tailTune.tt.servoAvgAngle.sum
      st.tailTune.tt.servoAvgAngle.numOf = avg := havg.symm
  unfold tailTuneModeThrustTorque
  simp only [hstate, harmed, Option.bind_eq_bind, pure, Bool.false_eq_true, not_false_eq_true,
    if_true]
  simp only [divU32, hnum, if_false, Option.some_bind, hg, havg2, gt_iff_lt]
  by_cases hr : 181 / 2 < avg ∧ avg < 120
  · obtain ⟨h1, h2, h3⟩ := hsin hr.1 hr.2
    simp only [if_pos hr]
    simp only [← ht, fdiv, h1, if_false, Option.some_bind, floatToInt16, h2, h3, and_self,
      if_true]
    refine ⟨_, rfl, hgv, ?_⟩
    simp [State.emit, State.setTT]
  · simp only [if_neg hr]
    refine ⟨_, rfl, hgv, ?_⟩
    simp [State.emit, State.setTT]

/-- The `min` of servo 6 is not 10 times the gyro limit.  Three relaxations of the initial
limit `3.5f` by `0.1f` leave the limit `relaxedGyroLimit`, just below 3.8; ten times this
limit lies between 37 and 38, evaluated exactly as well as in binary32, and the disarm step
stores 37. -/
theorem tailTuneModeThrustTorque_gyro_limit_counterexample :
    (runThrustTorque (sampleExternal sampleLibm)
        [throttleUpInput 0, throttleUpInput 5000, unstableGyroInput 6000,
          unstableGyroInput 7000, unstableGyroInput 8000] sampleState 0).map
      (fun p => (p.1.tailTune.tt.state, p.1.tailTune.tt.tailTuneGyroLimit)) =
      some (.TT_ACTIVE, relaxedGyroLimit) ∧
    (tailTuneModeThrustTorque (sampleExternal taylorLibm) switchOffInput false
        relaxedDisarmState).map
      (fun s => (s.tailTune.tt.state, s.servoConf6.min, s.servoConf6.max)) =
      some (.TT_FAIL, 37, 1300) ∧
    37 < 10 * relaxedGyroLimit ∧ 10 * relaxedGyroLimit < 38 ∧
    37 < f32 (relaxedGyroLimit * 10) ∧ f32 (relaxedGyroLimit * 10) < 38 := by
  decide!

theorem tailTuneModeThrustTorque_disarm_frame_witness :
    (∃ st', tailTuneModeThrustTorque (sampleExternal taylorLibm) switchOffInput false
        (waitForDisarmState 525000 500) = some st' ∧
      st'.servoConf6 = { min := 35, max := 1050, middle := 0, angleAtMax := 0 } ∧
      st'.tailTune.tt.state = .TT_DONE ∧ st'.tailServoConf = sampleServoConf) ∧
    (∃ st', tailTuneModeThrustTorque (sampleExternal taylorLibm) switchOffInput false
        (waitForDisarmState 650000 500) = some st' ∧
      st'.servoConf6 = { min := 35, max := 1300, middle := 0, angleAtMax := 0 } ∧
      st'.tailTune.tt.state = .TT_FAIL ∧
      st'.mixerConfig = sampleState.mixerConfig) := by
  constructor
  · obtain ⟨st', h, _, h6, hc, hs⟩ := tailTuneModeThrustTorque_disarm_frame
      (sampleExternal taylorLibm) switchOffInput false (waitForDisarmState 525000 500) 35 105
      (f32 (f32 (105 - 90) * taylorLibm.RAD)) rfl rfl (by decide) (by decide!)
      taylor_ratio_15.1.symm rfl
      (fun _ _ => ⟨taylor_ratio_15.2.2.1, le_of_le_of_eq (by decide) taylor_ratio_15.2.1.symm,
        le_of_eq_of_le taylor_ratio_15.2.1 (by decide)⟩)
    rw [if_pos (by norm_num)] at hs
    exact ⟨st', h, h6.trans (by decide), hs.1, hc⟩
  · obtain ⟨st', h, _, h6, hc, hs⟩ := tailTuneModeThrustTorque_disarm_frame
      (sampleExternal taylorLibm) switchOffInput false (waitForDisarmState 650000 500) 35 130
      (f32 (f32 (130 - 90) * taylorLibm.RAD)) rfl rfl (by decide) (by decide!)
      taylor_ratio_15.2.2.2.symm rfl
      (fun h1 h2 => absurd h2 (by norm_num))
    rw [if_neg (by norm_num)] at hs
    exact ⟨st', h, h6.trans (by decide), hs.1, hs.2⟩

/-! ## The virtual servo estimator -/

theorem getServoAngle_range (servoConf : ServoParam) (maxAngle servoValue a : Int)
    (h : getServoAngle servoConf maxAngle servoValue = some a) : 0 ≤ a ∧ a ≤ 65535 := by
  unfold getServoAngle at h
  simp only [Option.bind_eq_bind, Option.bind_eq_some, pure] at h
  obtain ⟨_, _, _, _, _, _, h⟩ := h
  rw [← Option.some.inj h]
  exact toUint16_range _

theorem floatToUint16_range (q : ℚ) (d : Int) (h : floatToUint16 q = some d) :
    d = truncQ q ∧ 0 ≤ d ∧ d ≤ 65535 := by
  unfold floatToUint16 at h
  split_ifs at h with hc
  have e := Option.some.inj h
  exact ⟨e.symm, by omega, by omega⟩

/-- One call of the estimator on `uint16_t` values. -/
theorem virtualServoStep_eq (maxAngle cur speed : Int) (dT : ℚ) (servoConf : ServoParam)
    (servoValue target dA : Int)
    (hcur : 0 ≤ cur ∧ cur ≤ 65535)
    (ht : getServoAngle servoConf maxAngle servoValue = some target)
    (hd : floatToUint16 (servoStepValue dT speed) = some dA) :
    virtualServoStep maxAngle cur speed dT servoConf servoValue =
      some (if |cur - target| < dA then target
        else if cur < target then cur + dA else cur - dA) := by
  have htr := getServoAngle_range _ _ _ _ ht
  have hdr := floatToUint16_range _ _ hd
  unfold virtualServoStep
  simp only [ht, hd, Option.bind_eq_bind, Option.some_bind, pure,
    ABS_eq_abs (cur - target) (by omega) (by omega)]
  by_cases h1 : |cur - target| < dA
  · simp only [if_pos h1]
  · simp only [if_neg h1]
    rw [abs_lt] at h1
    split_ifs with h2
    · rw [toUint16_of_bounds (by omega) (by omega)]
    · rw [toUint16_of_bounds (by omega) (by omega)]

/-- The estimator called `n` times: the target once it is within `n` steps, `n` steps towards
it before. -/
theorem runVirtualServo_eq (maxAngle speed : Int) (dT : ℚ) (servoConf : ServoParam)
    (servoValue target dA : Int)
    (ht : getServoAngle servoConf maxAngle servoValue = some target)
    (hd : floatToUint16 (servoStepValue dT speed) = some dA) (n : Nat) :
    ∀ cur : Int, 0 ≤ cur → cur ≤ 65535 →
      runVirtualServo maxAngle speed dT servoConf servoValue n cur =
        some (if |cur - target| ≤ (n : Int) * dA then target
          else if cur < target then cur + (n : Int) * dA else cur - (n : Int) * dA) := by
  have htr := getServoAngle_range _ _ _ _ ht
  have hdr := floatToUint16_range _ _ hd
  induction n with
  | zero =>
    intro cur _ _
    unfold runVirtualServo
    simp only [Nat.cast_zero, zero_mul, abs_nonpos_iff, add_zero, sub_zero, ite_self]
    split_ifs with h
    · congr 1; omega
    · rfl
  | succ n ih =>
    intro cur h0 h1
    unfold runVirtualServo
    rw [virtualServoStep_eq maxAngle cur speed dT servoConf servoValue target dA ⟨h0, h1⟩ ht hd]
    simp only [Option.some_bind]
    have hk : (0 : Int) ≤ (n : Int) * dA := Int.mul_nonneg (Int.ofNat_nonneg n) hdr.2.1
    have hs : ((n + 1 : Nat) : Int) * dA = (n : Int) * dA + dA := by push_cast; ring
    rw [hs]
    generalize (n : Int) * dA = k at ih hk
    by_cases c1 : |cur - target| < dA
    · rw [if_pos c1, ih target htr.1 htr.2]
      rw [abs_lt] at c1
      simp only [sub_self, abs_zero, if_pos hk]
      rw [if_pos (abs_le.2 ⟨by omega, by omega⟩)]
    · rw [if_neg c1]
      rw [abs_lt] at c1
      by_cases c2 : cur < target
      · rw [if_pos c2, ih (cur + dA) (by omega) (by omega)]
        congr 1
        simp only [abs_le]
        split_ifs <;> omega
      · rw [if_neg c2, ih (cur - dA) (by omega) (by omega)]
        congr 1
        simp only [abs_le]
        split_ifs <;> omega

/-- C23: for every `uint16_t` current angle, with `target` the angle of the commanded servo
value and `dA` the `uint16_t` step, the integer part of the product `dT * speed * 10` as the
program computes it in binary32 (`servoStepValue`): `virtualServoStep` returns the
target when `|current - target| < dA` and otherwise the current angle moved by exactly `dA`
towards the target, which it does not pass, so the distance to the target does not increase;
when `dA > 0`, the estimator called `n` times with the same inputs returns the target exactly
when `n >= ceil(|target - current| / dA)`. -/
theorem virtualServoStep_slew (maxAngle cur speed : Int) (dT : ℚ) (servoConf : ServoParam)
    (servoValue target dA : Int)
    (hcur : 0 ≤ cur ∧ cur ≤ 65535)
    (ht : getServoAngle servoConf maxAngle servoValue = some target)
    (hd : floatToUint16 (servoStepValue dT speed) = some dA) :
    dA = truncQ (servoStepValue dT speed) ∧
    ∃ r, virtualServoStep maxAngle cur speed dT servoConf servoValue = some r ∧
      (|cur - target| < dA → r = target) ∧
      (¬ |cur - target| < dA → |r - cur| = dA ∧ |r - target| = |cur - target| - dA) ∧
      (cur ≤ target → cur ≤ r ∧ r ≤ target) ∧ (target ≤ cur → target ≤ r ∧ r ≤ cur) ∧
      |r - target| ≤ |cur - target| ∧
      (0 < dA → ∀ n : Nat, ∃ a,
        runVirtualServo maxAngle speed dT servoConf servoValue n cur = some a ∧
        (a = target ↔ ⌈((|target - cur| : Int) : ℚ) / (dA : ℚ)⌉₊ ≤ n)) := by
  have htr := getServoAngle_range _ _ _ _ ht
  have hdr := floatToUint16_range _ _ hd
  refine ⟨hdr.1, _, virtualServoStep_eq maxAngle cur speed dT servoConf servoValue target dA
    hcur ht hd, ?_, ?_, ?_, ?_, ?_, ?_⟩
  · intro h; rw [if_pos h]
  · intro h
    rw [if_neg h]
    rw [abs_lt] at h
    split_ifs with h2
    · rw [add_sub_cancel_left, abs_of_nonneg hdr.2.1, abs_of_nonpos (by omega),
        abs_of_nonpos (by omega)]
      omega
    · rw [sub_sub_cancel_left, abs_neg, abs_of_nonneg hdr.2.1, abs_of_nonneg (by omega),
        abs_of_nonneg (by omega)]
      omega
  · intro hle
    split_ifs with h1 h2
    · exact ⟨hle, le_refl _⟩
    · rw [abs_lt] at h1; omega
    · rw [abs_lt] at h1; omega
  · intro hle
    split_ifs with h1 h2
    · exact ⟨le_refl _, hle⟩
    · rw [abs_lt] at h1; omega
    · rw [abs_lt] at h1; omega
  · split_ifs with h1 h2
    · rw [sub_self, abs_zero]; exact abs_nonneg _
    · rw [abs_lt] at h1
      rw [abs_of_nonpos (by omega), abs_of_nonpos (by omega)]
      omega
    · rw [abs_lt] at h1
      rw [abs_of_nonneg (by omega), abs_of_nonneg (by omega)]
      omega
  · intro hpos n
    refine ⟨_, runVirtualServo_eq maxAngle speed dT servoConf servoValue target dA ht hd n cur
      hcur.1 hcur.2, ?_⟩
    have hq : (0 : ℚ) < (dA : ℚ) := by exact_mod_cast hpos
    rw [Nat.ceil_le, div_le_iff₀ hq, abs_sub_comm target cur]
    have hcast : (((|cur - target| : Int) : ℚ) ≤ (n : ℚ) * (dA : ℚ)) ↔
        |cur - target| ≤ (n : Int) * dA := by
      constructor
      · intro h; exact_mod_cast h
      · intro h; exact_mod_cast h
    rw [hcast]
    have hk : (0 : Int) ≤ (n : Int) * dA := Int.mul_nonneg (Int.ofNat_nonneg n) hdr.2.1
    generalize (n : Int) * dA = k at hk
    constructor
    · intro h
      by_contra hc
      rw [if_neg hc] at h
      rw [abs_le] at hc
      split_ifs at h <;> omega
    · intro h
      rw [if_pos h]

/-- The claimed step `trunc(dT * speed * 10)` is not the step of the program: for the tick
duration `0.0025f` and the speed 200 the exact product is just below 5 and its integer part
is 4, but the first binary32 product rounds to `0.5f`, the step is 5 and the angle moves from
900 to 905. -/
theorem virtualServoStep_step_counterexample :
    f32 (1 / 400) = 5368709 / 2147483648 ∧
    truncQ (f32 (1 / 400) * ((200 : Int) : ℚ) * 10) = 4 ∧
    getServoAngle sampleServoConf 400 1750 = some 1100 ∧
    floatToUint16 (servoStepValue (f32 (1 / 400)) 200) = some 5 ∧
    virtualServoStep 400 900 200 (f32 (1 / 400)) sampleServoConf 1750 = some 905 ∧
    virtualServoStep 400 900 200 (f32 (1 / 400)) sampleServoConf 1750 ≠
      some (900 + truncQ (f32 (1 / 400) * ((200 : Int) : ℚ) * 10)) := by
  decide!

theorem virtualServoStep_slew_witness :
    getServoAngle sampleServoConf 400 1750 = some 1100 ∧
    floatToUint16 (servoStepValue (f32 (1 / 1000)) 300) = some 3 ∧
    virtualServoStep 400 900 300 (f32 (1 / 1000)) sampleServoConf 1750 = some 903 ∧
    runVirtualServo 400 300 (f32 (1 / 1000)) sampleServoConf 1750 67 900 = some 1100 ∧
    runVirtualServo 400 300 (f32 (1 / 1000)) sampleServoConf 1750 66 900 ≠ some 1100 := by
  have ht : getServoAngle sampleServoConf 400 1750 = some 1100 := by decide
  have hd : floatToUint16 (servoStepValue (f32 (1 / 1000)) 300) = some 3 := by decide!
  obtain ⟨_, r, hr, _, h2, h5, _, _, h6⟩ := virtualServoStep_slew 400 900 300 (f32 (1 / 1000))
    sampleServoConf 1750 1100 3 (by decide) ht hd
  have hc : ⌈((|1100 - 900| : Int) : ℚ) / ((3 : Int) : ℚ)⌉₊ = 67 := by
    rw [Nat.ceil_eq_iff (by decide)]
    norm_num
  refine ⟨ht, hd, ?_, ?_, ?_⟩
  · have h3 := (h2 (by decide)).2
    have h4 := h5 (by decide)
    rw [abs_of_nonpos (by omega)] at h3
    rw [hr]
    congr 1
    have e : |(900 : Int) - 1100| = 200 := by decide
    omega
  · obtain ⟨a, ha, hiff⟩ := h6 (by decide) 67
    rw [ha, hiff.2 (by rw [hc])]
  · obtain ⟨a, ha, hiff⟩ := h6 (by decide) 66
    rw [ha]
    intro he
    have := hiff.1 (Option.some.inj he)
    rw [hc] at this
    exact absurd this (by decide)

/-! ## The start-up of the thrust/torque calibration -/

/-- The step from `TT_IDLE`. -/
theorem tailTuneModeThrustTorque_idle (ext : External) (inp : TickInput) (b : Bool) (st : State)
    (hstate : st.tailTune.tt.state = .TT_IDLE) :
    ∃ st', tailTuneModeThrustTorque ext inp b st = some st' ∧
      if b = true ∧ inp.armed = true then
        st'.tailTune.tt.state = .TT_WAIT ∧ st'.tailTune.tt.servoAvgAngle.sum = 0 ∧
        st'.tailTune.tt.servoAvgAngle.numOf = 0 ∧ st'.tailTune.tt.tailTuneGyroLimit = 7 / 2 ∧
        st'.tailTune.tt.timestamp_ms = inp.now_ms
      else st' = st := by
  unfold tailTuneModeThrustTorque
  simp only [hstate]
  split_ifs with h
  · exact ⟨_, rfl, by simp [State.emit, State.setTT]⟩
  · exact ⟨_, rfl, rfl⟩

/-- The step from `TT_WAIT`. -/
theorem tailTuneModeThrustTorque_wait (ext : External) (inp : TickInput) (b : Bool) (st : State)
    (hstate : st.tailTune.tt.state = .TT_WAIT) :
    ∃ st', tailTuneModeThrustTorque ext inp b st = some st' ∧
      st'.tailTune.tt.servoAvgAngle = st.tailTune.tt.servoAvgAngle ∧
      if b = true ∧ inp.armed = true then
        if toUint32 (inp.now_ms - st.tailTune.tt.timestamp_ms) ≥ 5000 then
          st'.tailTune.tt.state = .TT_ACTIVE
        else
          st'.tailTune.tt.state = .TT_WAIT ∧
          st'.tailTune.tt.timestamp_ms = st.tailTune.tt.timestamp_ms
      else st'.tailTune.tt.state = .TT_IDLE := by
  unfold tailTuneModeThrustTorque
  simp only [hstate, IsDelayElapsed_ms, decide_eq_true_eq]
  split_ifs with h h2 h3
  · exact ⟨_, rfl, by simp [State.emit, State.setTT]⟩
  · exact ⟨_, rfl, by simp [State.emit, State.setTT, hstate]⟩
  · exact ⟨_, rfl, rfl, hstate, rfl⟩
  · exact ⟨_, rfl, by simp [State.emit, State.setTT]⟩

/-- The predecessors of `TT_WAIT` and of `TT_ACTIVE`. -/
theorem tailTuneModeThrustTorque_pred (ext : External) (inp : TickInput) (b : Bool)
    (st st' : State) (h : tailTuneModeThrustTorque ext inp b st = some st') :
    (st'.tailTune.tt.state = .TT_WAIT →
      st.tailTune.tt.state = .TT_IDLE ∨ st.tailTune.tt.state = .TT_WAIT) ∧
    (st'.tailTune.tt.state = .TT_ACTIVE →
      st.tailTune.tt.state = .TT_WAIT ∨ st.tailTune.tt.state = .TT_ACTIVE) := by
  unfold tailTuneModeThrustTorque at h
  simp only [Option.bind_eq_bind, pure] at h
  split at h
  all_goals (rename_i hs)
  all_goals (split_ifs at h)
  all_goals (try simp only [Option.bind_eq_some] at h)
  all_goals (try obtain ⟨_, _, h⟩ := h)
  all_goals (try obtain ⟨_, _, h⟩ := h)
  all_goals (try obtain ⟨_, _, h⟩ := h)
  all_goals (try obtain ⟨_, _, h⟩ := h)
  all_goals first
    | (cases h; simp [State.emit, State.setTT, hs])
    | simp [State.emit, State.setTT, hs]

/-- While the state is `TT_WAIT`, `timestamp_ms` is the time of the latest step from `TT_IDLE`
to `TT_WAIT`. -/
theorem runThrustTorque_entry (ext : External) (ticks : List TickInput) :
    ∀ (st0 st : State) (e0 e : Int),
      (st0.tailTune.tt.state = .TT_WAIT → st0.tailTune.tt.timestamp_ms = e0) →
      runThrustTorque ext ticks st0 e0 = some (st, e) →
      (st.tailTune.tt.state = .TT_WAIT → st.tailTune.tt.timestamp_ms = e) := by
  induction ticks with
  | nil =>
    intro st0 st e0 e hi h
    unfold runThrustTorque at h
    cases h
    exact hi
  | cons inp rest ih =>
    intro st0 st e0 e hi h
    unfold runThrustTorque at h
    simp only [Option.bind_eq_some] at h
    obtain ⟨st1, h1, h2⟩ := h
    refine ih st1 st _ e ?_ h2
    intro hw
    rcases (tailTuneModeThrustTorque_pred ext inp _ st0 st1 h1).1 hw with hs | hs
    · obtain ⟨st', he, hc⟩ := tailTuneModeThrustTorque_idle ext inp inp.throttleHigh st0 hs
      rw [h1] at he
      cases he
      rw [if_pos ⟨hs, hw⟩]
      split_ifs at hc with hb
      · exact hc.2.2.2.2
      · rw [hc, hs] at hw
        cases hw
    · obtain ⟨st', he, _, hc⟩ := tailTuneModeThrustTorque_wait ext inp inp.throttleHigh st0 hs
      rw [h1] at he
      cases he
      rw [if_neg (by rw [hs]; simp)]
      split_ifs at hc with hb h5
      · rw [hc] at hw; cases hw
      · rw [hc.2]; exact hi hs
      · rw [hc] at hw; cases hw

/-- C24: from `TT_IDLE` the step returns, and the state becomes `TT_WAIT` exactly when the
throttle is high and the craft armed, the sample sum and count then being 0, the gyro limit
3.5 and `timestamp_ms` the current time; otherwise nothing changes.  From `TT_WAIT` the step
returns: with throttle high and armed the state becomes `TT_ACTIVE` when
`(uint32_t)(now - timestamp_ms) >= 5000` and stays `TT_WAIT` with `timestamp_ms` unchanged
otherwise; without throttle high and armed it becomes `TT_IDLE`.  In every run that starts in
`TT_IDLE`, a step that enters `TT_ACTIVE` is made from `TT_WAIT` and at least 5000 ms, modulo
2^32, after the latest step from `TT_IDLE` to `TT_WAIT`. -/
theorem tailTuneModeThrustTorque_startup (ext : External) (inp : TickInput) (b : Bool)
    (st : State) :
    (st.tailTune.tt.state = .TT_IDLE →
      ∃ st', tailTuneModeThrustTorque ext inp b st = some st' ∧
        if b = true ∧ inp.armed = true then
          st'.tailTune.tt.state = .TT_WAIT ∧ st'.tailTune.tt.servoAvgAngle.sum = 0 ∧
          st'.tailTune.tt.servoAvgAngle.numOf = 0 ∧ st'.tailTune.tt.tailTuneGyroLimit = 7 / 2 ∧
          st'.tailTune.tt.timestamp_ms = inp.now_ms
        else st' = st) ∧
    (st.tailTune.tt.state = .TT_WAIT →
      ∃ st', tailTuneModeThrustTorque ext inp b st = some st' ∧
        if b = true ∧ inp.armed = true then
          if toUint32 (inp.now_ms - st.tailTune.tt.timestamp_ms) ≥ 5000 then
            st'.tailTune.tt.state = .TT_ACTIVE
          else
            st'.tailTune.tt.state = .TT_WAIT ∧
            st'.tailTune.tt.timestamp_ms = st.tailTune.tt.timestamp_ms
        else st'.tailTune.tt.state = .TT_IDLE) ∧
    ∀ (ticks : List TickInput) (st0 st' : State) (e0 e : Int),
      st0.tailTune.tt.state = .TT_IDLE →
      runThrustTorque ext ticks st0 e0 = some (st, e) →
      tailTuneModeThrustTorque ext inp b st = some st' →
      st.tailTune.tt.state ≠ .TT_ACTIVE → st'.tailTune.tt.state = .TT_ACTIVE →
      st.tailTune.tt.state = .TT_WAIT ∧ toUint32 (inp.now_ms - e) ≥ 5000 := by
  refine ⟨tailTuneModeThrustTorque_idle ext inp b st, ?_, ?_⟩
  · intro hs
    obtain ⟨st', he, _, hc⟩ := tailTuneModeThrustTorque_wait ext inp b st hs
    exact ⟨st', he, hc⟩
  · intro ticks st0 st' e0 e h0 hrun hstep hna hact
    have hw : st.tailTune.tt.state = .TT_WAIT := by
      rcases (tailTuneModeThrustTorque_pred ext inp b st st' hstep).2 hact with h | h
      · exact h
      · exact absurd h hna
    have hts := runThrustTorque_entry ext ticks st0 st e0 e
      (fun h => by rw [h0] at h; cases h) hrun hw
    refine ⟨hw, ?_⟩
    obtain ⟨st2, he, _, hc⟩ := tailTuneModeThrustTorque_wait ext inp b st hw
    rw [hstep] at he
    cases he
    rw [← hts]
    split_ifs at hc with hb h5
    · exact h5
    · rw [hc.1] at hact; cases hact
    · rw [hc] at hact; cases hact

theorem startup_run :
    ((runThrustTorque (sampleExternal sampleLibm) [throttleUpInput 0, throttleUpInput 3000]
        sampleState 0).bind fun r =>
      (tailTuneModeThrustTorque (sampleExternal sampleLibm) (throttleUpInput 5000) true r.1).map
        fun s => (r.1.tailTune.tt.state, r.2, s.tailTune.tt.state)) =
      some (.TT_WAIT, 0, .TT_ACTIVE) := by
  decide!

theorem tailTuneModeThrustTorque_startup_witness :
    (∃ st', tailTuneModeThrustTorque (sampleExternal sampleLibm) (throttleUpInput 0) true
        sampleState = some st' ∧
      st'.tailTune.tt.state = .TT_WAIT ∧ st'.tailTune.tt.servoAvgAngle.numOf = 0) ∧
    ∃ st e st', runThrustTorque (sampleExternal sampleLibm)
        [throttleUpInput 0, throttleUpInput 3000] sampleState 0 = some (st, e) ∧
      tailTuneModeThrustTorque (sampleExternal sampleLibm) (throttleUpInput 5000) true st =
        some st' ∧
      st'.tailTune.tt.state = .TT_ACTIVE ∧ st.tailTune.tt.state = .TT_WAIT ∧
      toUint32 ((throttleUpInput 5000).now_ms - e) ≥ 5000 := by
  constructor
  · obtain ⟨st', h, hc⟩ := (tailTuneModeThrustTorque_startup (sampleExternal sampleLibm)
      (throttleUpInput 0) true sampleState).1 rfl
    rw [if_pos (by decide)] at hc
    exact ⟨st', h, hc.1, hc.2.2.1⟩
  · obtain ⟨r, hr, hm⟩ := Option.bind_eq_some.1 startup_run
    obtain ⟨st', hst, hp⟩ := Option.map_eq_some'.1 hm
    obtain ⟨st, e⟩ := r
    have hw : st.tailTune.tt.state = .TT_WAIT := congrArg (fun p => p.1) hp
    have ha : st'.tailTune.tt.state = .TT_ACTIVE := congrArg (fun p => p.2.2) hp
    have h := (tailTuneModeThrustTorque_startup (sampleExternal sampleLibm)
      (throttleUpInput 5000) true st).2.2 _ sampleState st' 0 e rfl hr hst
      (by rw [hw]; decide) ha
    exact ⟨st, e, st', hr, hst, ha, h.1, h.2⟩

/-! ## The sample count of the thrust/torque calibration -/

/-- One step of the thrust/torque calibration keeps the bounds of the sample count. -/
theorem tailTuneModeThrustTorque_count (ext : External) (inp : TickInput) (b : Bool)
    (st st' : State)
    (h0 : 0 ≤ st.tailTune.tt.servoAvgAngle.numOf)
    (h500 : st.tailTune.tt.servoAvgAngle.numOf ≤ 500)
    (hw : st.tailTune.tt.state = .TT_WAIT → st.tailTune.tt.servoAvgAngle.numOf = 0)
    (ha : st.tailTune.tt.state = .TT_ACTIVE → st.tailTune.tt.servoAvgAngle.numOf ≤ 499)
    (hd : st.tailTune.tt.state = .TT_WAIT_FOR_DISARM →
      st.tailTune.tt.servoAvgAngle.numOf = 500)
    (h : tailTuneModeThrustTorque ext inp b st = some st') :
    0 ≤ st'.tailTune.tt.servoAvgAngle.numOf ∧ st'.tailTune.tt.servoAvgAngle.numOf ≤ 500 ∧
    (st'.tailTune.tt.state = .TT_WAIT → st'.tailTune.tt.servoAvgAngle.numOf = 0) ∧
    (st'.tailTune.tt.state = .TT_ACTIVE → st'.tailTune.tt.servoAvgAngle.numOf ≤ 499) ∧
    (st'.tailTune.tt.state = .TT_WAIT_FOR_DISARM →
      st'.tailTune.tt.servoAvgAngle.numOf = 500) ∧
    st'.tailTune.tt.servoAvgAngle.numOf ≤ st.tailTune.tt.servoAvgAngle.numOf + 1 ∧
    (st.tailTune.tt.servoAvgAngle.numOf < st'.tailTune.tt.servoAvgAngle.numOf →
      st.tailTune.tt.state = .TT_ACTIVE) := by
  unfold tailTuneModeThrustTorque at h
  simp only [Option.bind_eq_bind, pure] at h
  split at h
  all_goals (rename_i hs)
  all_goals (simp only [hs, reduceCtorEq, false_implies, true_implies] at hw ha hd)
  all_goals (split_ifs at h)
  all_goals (try simp only [Option.bind_eq_some] at h)
  all_goals (try obtain ⟨_, _, h⟩ := h)
  all_goals (try obtain ⟨_, _, h⟩ := h)
  all_goals (try obtain ⟨_, _, h⟩ := h)
  all_goals (try obtain ⟨_, _, h⟩ := h)
  all_goals (try cases h)
  all_goals (simp only [State.emit, State.setTT, hs, reduceCtorEq, false_implies,
    true_implies, implies_true, true_and, and_true, toUint16])
  all_goals (try simp only [toUint16] at *)
  all_goals (try omega)

theorem servoSetupModeSelect_tt (inp : TickInput) (st : State) :
    (servoSetupModeSelect inp st).tailTune.tt = st.tailTune.tt ∧
    (servoSetupModeSelect inp st).tailMotor = st.tailMotor := by
  unfold servoSetupModeSelect
  simp only
  split_ifs <;> simp [State.emit, State.setSS]

theorem servoSetupTrim_tt (inp : TickInput) (st st' : State)
    (h : servoSetupTrim inp st = some st') :
    st'.tailTune.tt = st.tailTune.tt ∧ st'.tailMotor = st.tailMotor := by
  unfold servoSetupTrim at h
  simp only [Option.bind_eq_bind, pure] at h
  split_ifs at h
  all_goals (try simp only [Option.bind_eq_some] at h)
  all_goals (try obtain ⟨_, _, h⟩ := h)
  all_goals (try obtain ⟨_, _, h⟩ := h)
  all_goals first | (cases h; simp [State.emit, State.setSS]) | simp [State.emit, State.setSS]

theorem servoCalibTransition_tt (inp : TickInput) (st st' : State)
    (h : servoCalibTransition inp st = some st') :
    st'.tailTune.tt = st.tailTune.tt ∧ st'.tailMotor = st.tailMotor := by
  unfold servoCalibTransition at h
  simp only [Option.bind_eq_bind, pure] at h
  split_ifs at h
  all_goals (try split at h)
  all_goals (try simp only [Option.some_bind, Option.bind_eq_some] at h)
  all_goals (try obtain ⟨d, hd, h⟩ := h)
  all_goals (try split_ifs at h)
  all_goals first | (cases h; simp [State.emit, State.setSS]) | simp [State.emit, State.setSS]

theorem servoCalibStep_tt (inp : TickInput) (st st' : State)
    (h : servoCalibStep inp st = some st') :
    st'.tailTune.tt = st.tailTune.tt ∧ st'.tailMotor = st.tailMotor := by
  unfold servoCalibStep at h
  simp only [Option.bind_eq_bind, pure] at h
  split at h
  all_goals (try split at h)
  all_goals (try split_ifs at h)
  all_goals (try simp only [Option.some_bind, Option.bind_eq_some] at h)
  all_goals (try obtain ⟨d, hd, h⟩ := h)
  all_goals (try split_ifs at h)
  all_goals (try simp only [Option.some_bind, Option.bind_eq_some] at h)
  all_goals (try obtain ⟨e, he, h⟩ := h)
  all_goals first | (cases h; simp [State.emit, State.setSS]) | simp [State.emit, State.setSS]

theorem tailTuneModeServoSetup_tt (inp : TickInput) (st st' : State)
    (h : tailTuneModeServoSetup inp st = some st') :
    st'.tailTune.tt = st.tailTune.tt ∧ st'.tailMotor = st.tailMotor := by
  have hs := servoSetupModeSelect_tt inp st
  unfold tailTuneModeServoSetup at h
  simp only [Option.bind_eq_bind, pure] at h
  split at h
  · simp only [Option.some_bind, Option.bind_eq_some] at h
    obtain ⟨v, _, h⟩ := h
    cases h
    exact hs
  · simp only [Option.bind_eq_some] at h
    obtain ⟨st2, h2, v, _, h⟩ := h
    cases h
    have t := servoSetupTrim_tt inp _ _ h2
    exact ⟨t.1.trans hs.1, t.2.trans hs.2⟩
  · simp only [Option.bind_eq_some] at h
    obtain ⟨st3, h3, st2, h2, v, _, h⟩ := h
    cases h
    have t1 := servoCalibTransition_tt inp _ _ h3
    have t2 := servoCalibStep_tt inp _ _ h2
    exact ⟨(t2.1.trans t1.1).trans hs.1, (t2.2.trans t1.2).trans hs.2⟩

/-- One tick of the calibration supervisor keeps the invariant of the sample count; the
count grows by at most one, and only on a step of an active session in `TT_ACTIVE`. -/
theorem triTailTuneStep_count (ext : External) (inp : TickInput) (st st' : State)
    (hi : sampleCountInv st.tailTune) (h : triTailTuneStep ext inp st = some st') :
    sampleCountInv st'.tailTune ∧
    st'.tailTune.tt.servoAvgAngle.numOf ≤ st.tailTune.tt.servoAvgAngle.numOf + 1 ∧
    (st.tailTune.tt.servoAvgAngle.numOf < st'.tailTune.tt.servoAvgAngle.numOf →
      st.tailTune.mode = .TT_MODE_THRUST_TORQUE ∧ st.tailTune.tt.state = .TT_ACTIVE) := by
  obtain ⟨h0, h500, hm⟩ := hi
  unfold triTailTuneStep at h
  by_cases hb : inp.boxTailTune = true
  · rw [if_neg (by simp [hb])] at h
    dsimp only at h
    by_cases hmode : st.tailTune.mode = .TT_MODE_THRUST_TORQUE
    · obtain ⟨hw, ha, hd⟩ := hm hmode
      simp only [hmode, reduceCtorEq, if_false] at h
      have hf := tailTuneModeThrustTorque_flags ext inp _ _ _ h
      have hc := tailTuneModeThrustTorque_count ext inp _ _ _ (by exact h0) (by exact h500)
        (by exact hw) (by exact ha) (by exact hd) h
      exact ⟨⟨hc.1, hc.2.1, fun _ => ⟨hc.2.2.1, hc.2.2.2.1, hc.2.2.2.2.1⟩⟩,
        hc.2.2.2.2.2.1, fun hlt => ⟨hmode, hc.2.2.2.2.2.2 hlt⟩⟩
    · cases hmd : st.tailTune.mode
      · by_cases harm : inp.armed = true
        · simp only [hmd, harm, if_true] at h
          have hf := tailTuneModeThrustTorque_flags ext inp _ _ _ h
          have hc := tailTuneModeThrustTorque_count ext inp _ _ _ (by exact h0) (by exact h500)
            (by intro hx; cases hx) (by intro hx; cases hx) (by intro hx; cases hx) h
          exact ⟨⟨hc.1, hc.2.1, fun _ => ⟨hc.2.2.1, hc.2.2.2.1, hc.2.2.2.2.1⟩⟩,
            hc.2.2.2.2.2.1, fun hlt => by cases hc.2.2.2.2.2.2 hlt⟩
        · simp only [hmd, harm, if_true, Bool.false_eq_true, if_false] at h
          have hf := (tailTuneModeServoSetup_flags inp _ _ h).1
          have ht := (tailTuneModeServoSetup_tt inp _ _ h).1
          have hf2 : st'.tailTune.mode = .TT_MODE_SERVO_SETUP := hf
          have ht2 : st'.tailTune.tt = st.tailTune.tt := ht
          rw [sampleCountInv, ht2, hf2]
          exact ⟨⟨h0, h500, fun hc => by cases hc⟩, le_of_lt (Int.lt_succ_self _),
            fun hlt => absurd hlt (lt_irrefl _)⟩
      · exact absurd hmd hmode
      · simp only [hmd, reduceCtorEq, if_false] at h
        have hf := (tailTuneModeServoSetup_flags inp _ _ h).1
        have ht := (tailTuneModeServoSetup_tt inp _ _ h).1
        have hf2 : st'.tailTune.mode = .TT_MODE_SERVO_SETUP := hf.trans hmd
        have ht2 : st'.tailTune.tt = st.tailTune.tt := ht
        rw [sampleCountInv, ht2, hf2]
        exact ⟨⟨h0, h500, fun hc => by cases hc⟩, le_of_lt (Int.lt_succ_self _),
          fun hlt => absurd hlt (lt_irrefl _)⟩
  · rw [if_pos hb] at h
    split_ifs at h with hf
    · cases h
      exact ⟨⟨h0, h500, fun hc => by cases hc⟩, le_of_lt (Int.lt_succ_self _),
        fun hlt => absurd hlt (lt_irrefl _)⟩
    · cases h
      exact ⟨⟨h0, h500, hm⟩, le_of_lt (Int.lt_succ_self _),
        fun hlt => absurd hlt (lt_irrefl _)⟩

theorem runTailTune_count (ext : External) (ticks : List TickInput) :
    ∀ (st0 st : State), sampleCountInv st0.tailTune → runTailTune ext ticks st0 = some st →
      sampleCountInv st.tailTune := by
  induction ticks with
  | nil => intro st0 st hi h; cases h; exact hi
  | cons inp rest ih =>
    intro st0 st hi h
    unfold runTailTune at h
    simp only [Option.bind_eq_some] at h
    obtain ⟨st1, h1, h2⟩ := h
    exact ih st1 st (triTailTuneStep_count ext inp st0 st1 hi h1).1 h2

/-- C26: in every state reached by ticks of the calibration supervisor from a state in which
the sample count satisfies its invariant (any state without session and with a count of at
most 500, such as the one at power-up), the count is at most 500; in `TT_WAIT_FOR_DISARM` of
an active thrust/torque session it is exactly 500, so that the integer average of the disarm
step is defined; and one more tick raises the count by at most one, and only when the
session was in `TT_ACTIVE`. -/
theorem triTailTuneStep_sample_count (ext : External) (ticks : List TickInput) (st0 st : State)
    (hstart : sampleCountInv st0.tailTune)
    (hrun : runTailTune ext ticks st0 = some st) :
    0 ≤ st.tailTune.tt.servoAvgAngle.numOf ∧ st.tailTune.tt.servoAvgAngle.numOf ≤ 500 ∧
    (st.tailTune.mode = .TT_MODE_THRUST_TORQUE →
      st.tailTune.tt.state = .TT_WAIT_FOR_DISARM →
      st.tailTune.tt.servoAvgAngle.numOf = 500 ∧
      divU32 st.tailTune.tt.servoAvgAngle.sum st.tailTune.tt.servoAvgAngle.numOf =
        some (st.tailTune.tt.servoAvgAngle.sum / 500)) ∧
    ∀ (inp : TickInput) (st' : State), triTailTuneStep ext inp st = some st' →
      st'.tailTune.tt.servoAvgAngle.numOf ≤ st.tailTune.tt.servoAvgAngle.numOf + 1 ∧
      (st.tailTune.tt.servoAvgAngle.numOf < st'.tailTune.tt.servoAvgAngle.numOf →
        st.tailTune.mode = .TT_MODE_THRUST_TORQUE ∧ st.tailTune.tt.state = .TT_ACTIVE) := by
  have hi := runTailTune_count ext ticks st0 st hstart hrun
  refine ⟨hi.1, hi.2.1, ?_, ?_⟩
  · intro hm hs
    have hn := (hi.2.2 hm).2.2 hs
    refine ⟨hn, ?_⟩
    unfold divU32
    rw [hn, if_neg (by decide)]
  · intro inp st' h
    exact (triTailTuneStep_count ext inp st st' hi h).2

theorem waitForDisarm_run :
    (runTailTune (sampleExternal sampleLibm) [throttleUpInput 100]
        (waitForDisarmState 525000 500)).map
      (fun s => (s.tailTune.mode, s.tailTune.tt.state, s.tailTune.tt.servoAvgAngle.sum)) =
      some (.TT_MODE_THRUST_TORQUE, .TT_WAIT_FOR_DISARM, 525000) := by
  decide!

theorem triTailTuneStep_sample_count_witness :
    ∃ st, runTailTune (sampleExternal sampleLibm) [throttleUpInput 100]
        (waitForDisarmState 525000 500) = some st ∧
      st.tailTune.tt.state = .TT_WAIT_FOR_DISARM ∧
      st.tailTune.tt.servoAvgAngle.numOf = 500 ∧
      divU32 st.tailTune.tt.servoAvgAngle.sum st.tailTune.tt.servoAvgAngle.numOf =
        some 1050 := by
  obtain ⟨st, hst, hp⟩ := Option.map_eq_some'.1 waitForDisarm_run
  have hm : st.tailTune.mode = .TT_MODE_THRUST_TORQUE := congrArg (fun p => p.1) hp
  have hs : st.tailTune.tt.state = .TT_WAIT_FOR_DISARM := congrArg (fun p => p.2.1) hp
  have hsum : st.tailTune.tt.servoAvgAngle.sum = 525000 := congrArg (fun p => p.2.2) hp
  obtain ⟨_, _, h3, _⟩ := triTailTuneStep_sample_count (sampleExternal sampleLibm)
    [throttleUpInput 100] (waitForDisarmState 525000 500) st (by decide) hst
  obtain ⟨hn, hd⟩ := h3 hm hs
  exact ⟨st, hst, hs, hn, by rw [hd, hsum]; rfl⟩

/-! ## The derived delay angles and the servo speed -/

set_option maxRecDepth 100000 in
theorem calibrationSession_init :
    (triInitMixer sampleLibm sampleServoConf 1500 maxStopDoneState.mixerConfig 2000 1000
        sampleState).map
      (fun s => (s.tailServo.speed, s.tailMotor.accelerationDelay_ms,
        s.tailMotor.accelerationDelay_angle, s.tailMotor.decelerationDelay_ms,
        s.tailMotor.decelerationDelay_angle)) = some (300, 30, 89, 100, 300) := by
  decide!

set_option maxRecDepth 100000 in
theorem calibrationSession_run :
    ((triInitMixer sampleLibm sampleServoConf 1500 maxStopDoneState.mixerConfig 2000 1000
        sampleState).bind
        (runServoMixer (sampleExternal sampleLibm) calibrationSession)).map
      (fun s => (s.tailServo.speed, s.mixerConfig.tri_tail_servo_speed,
        s.tailMotor.accelerationDelay_angle, s.tailMotor.decelerationDelay_angle,
        s.tailTune.ss.cal.done)) = some (727, 727, 89, 300, true) := by
  decide!

/-- C21: the delay angles do not follow the servo speed that the speed calibration commits.
After `triInitMixer` with a configured speed of 300 the runtime speed is 300 and the delay
angles are the values 89 and 300 that `initYawForceCurve` derives from the speed 300 (the
binary32 product `10.0f * (30 / 1000.0f) * 300` is just below 90, the exact product being 90).
The control ticks of the sample calibration session then commit the speed 727 to the
configuration and to `tailServo.speed`, and the delay angles are still 89 and 300, the values
of the speed 300, not the values 218 and 727 that `initYawForceCurve` derives from the new
speed. -/
theorem speed_calibration_stale_delay_angles :
    (triInitMixer sampleLibm sampleServoConf 1500 maxStopDoneState.mixerConfig 2000 1000
        sampleState).map
      (fun s => (s.tailServo.speed, s.tailMotor.accelerationDelay_ms,
        s.tailMotor.accelerationDelay_angle, s.tailMotor.decelerationDelay_ms,
        s.tailMotor.decelerationDelay_angle)) = some (300, 30, 89, 100, 300) ∧
    floatToInt16 (delayAngleValue 30 300) = some 89 ∧
    floatToInt16 (delayAngleValue 100 300) = some 300 ∧
    ((triInitMixer sampleLibm sampleServoConf 1500 maxStopDoneState.mixerConfig 2000 1000
        sampleState).bind
        (runServoMixer (sampleExternal sampleLibm) calibrationSession)).map
      (fun s => (s.tailServo.speed, s.mixerConfig.tri_tail_servo_speed,
        s.tailMotor.accelerationDelay_angle, s.tailMotor.decelerationDelay_angle,
        s.tailTune.ss.cal.done)) = some (727, 727, 89, 300, true) ∧
    floatToInt16 (delayAngleValue 30 727) = some 218 ∧
    floatToInt16 (delayAngleValue 100 727) = some 727 :=
  ⟨calibrationSession_init, by decide!, by decide!, calibrationSession_run, by decide!,
    by decide!⟩

end Triflight
